import Mathlib

/-!
# DCM300 capture driver: request encoder, circular demosaic engine, acquisition

A shallow embedding of `dcm300.c` / `dcm300.h` (command-line tool) and of the
request encoder, `bayer_circular_downscale`, `dcm300_scan`, the end of
`reader_process`, `calculateDerivedValues`, `attachScanner` and `sane_get_devices` of
`sane-dcm300.c` (SANE backend).

Conventions of the embedding
* C `int` values are mathematical integers (`Int`); the programs never rely on
  signed wrap-around.  C `/` and `%` on `int` are `Int.tdiv` and `Int.tmod`.
* `u16`, `unsigned int` and `unsigned char` values are natural numbers; a store
  into an `unsigned char` reduces modulo 256, unsigned 32-bit arithmetic reduces
  modulo `2 ^ 32`.
* The array `bayer_circular` is a function from indices to bytes, of which only the
  indices `0 .. BAYER_CIRCULAR - 1` exist.  An access outside this range, a store past
  the end of the scratch array `rgb_array`, and a division by zero are undefined in C:
  the embedding stops there with a `fault`.
* Loops run on fuel; running out of fuel (a loop that would not terminate) is a `fault`.
* The transports (libusb, sanei_usb, the raw image file) are state machines passed
  explicitly; a `journal` wrapper records the bulk calls made on a device.
* The output file descriptor (the sink) is the list of bytes written so far.
* The nodes of the device list live in a heap indexed by their address; the null
  pointer is `none`, and following `next` from it ends a run with `none`.
-/

set_option autoImplicit false

/-! ## Constants of `dcm300.h` -/

/-- The constant `MAXBULK` of `dcm300.h`: `#define MAXBULK 16384`. -/
def MAXBULK : Nat := 16384

/-- The constant `BAYER_CIRCULAR` of `dcm300.h`: `#define BAYER_CIRCULAR 32768`. -/
def BAYER_CIRCULAR : Nat := 32768

/-- The constant `RGB_MAX` of `dcm300.h`: `#define RGB_MAX (3*BAYER_CIRCULAR/8)`. -/
def RGB_MAX : Nat := 3 * BAYER_CIRCULAR / 8

/-- Ways in which a run leaves the defined behaviour of C, or does not return. -/
inductive fault where
  /-- The remainder `% (2*bayer_width)` is taken with `bayer_width = 0`. -/
  | division_by_zero
  /-- A byte is stored to `rgb_array[k]` with `k >= RGB_MAX`. -/
  | rgb_array_overrun
  /-- A byte of `bayer_circular` outside `0 .. BAYER_CIRCULAR - 1` is read or written. -/
  | ring_overrun
  /-- A loop of the embedding ran out of fuel: the C loop would not terminate. -/
  | out_of_fuel
  /-- A byte of `rgbimage` (SANE backend) outside `0 .. 3*1024*768 - 1` is read or
  written. -/
  | image_overrun
deriving DecidableEq

/-- Conversion of a C integer to `unsigned char` (two's complement, modulo 256). -/
def toU8 (v : Int) : Nat := (v % 256).toNat

/-! ## The request packet (`struct dcm300_request`) -/

/-- The C type `struct dcm300_request` of `dcm300.h` (the declaration in `sane-dcm300.c` has
the same fields in the same order, with `gamma` called `unknown3a`).  Every member
is an `unsigned char` or `char`, or an array of them, so the struct has no padding. -/
structure dcm300_request where
  unknown1a : Nat
  unknown1a_0 : List Nat
  unknown1b : Nat
  unknown1b_0 : List Nat
  unknown1c : Nat
  unknown1_0 : List Nat
  unknown2 : Nat
  unknown2_0 : List Nat
  gamma : Nat
  unknown3 : Nat
  resolution_y_lo : Nat
  resolution_y_hi : Nat
  unknown3_0 : List Nat
  resolution_x_lo : Nat
  resolution_x_hi : Nat
  unknown4_0 : List Nat
  offset_x_lo : Nat
  offset_x_hi : Nat
  offset_x_hlo : Nat
  offset_x_hhi : Nat
  offset_y_lo : Nat
  offset_y_hi : Nat
  unknown6_0 : List Nat
  exposure_lo : Nat
  exposure_hi : Nat
  unknown7_0 : List Nat
  gain_red : Nat
  gain_green : Nat
  gain_blue : Nat
  unknown8_0 : List Nat
  unknown9 : Nat
  unknown9_0 : List Nat

/-- Result of `memset(r, 0, sizeof(*r))`: every member zero, arrays with their declared sizes. -/
def dcm300_request.zero : dcm300_request where
  unknown1a := 0
  unknown1a_0 := List.replicate 1 0
  unknown1b := 0
  unknown1b_0 := List.replicate 1 0
  unknown1c := 0
  unknown1_0 := List.replicate 7 0
  unknown2 := 0
  unknown2_0 := List.replicate 1 0
  gamma := 0
  unknown3 := 0
  resolution_y_lo := 0
  resolution_y_hi := 0
  unknown3_0 := List.replicate 2 0
  resolution_x_lo := 0
  resolution_x_hi := 0
  unknown4_0 := List.replicate 2 0
  offset_x_lo := 0
  offset_x_hi := 0
  offset_x_hlo := 0
  offset_x_hhi := 0
  offset_y_lo := 0
  offset_y_hi := 0
  unknown6_0 := List.replicate 2 0
  exposure_lo := 0
  exposure_hi := 0
  unknown7_0 := List.replicate 2 0
  gain_red := 0
  gain_green := 0
  gain_blue := 0
  unknown8_0 := List.replicate 1 0
  unknown9 := 0
  unknown9_0 := List.replicate 23 0

/-- The bytes of a request in memory order, as passed to the bulk write
(`(u8 *) request`, `sizeof(request)`). -/
def dcm300_request.bytes (r : dcm300_request) : List Nat :=
  [r.unknown1a] ++ r.unknown1a_0 ++ [r.unknown1b] ++ r.unknown1b_0 ++ [r.unknown1c]
    ++ r.unknown1_0 ++ [r.unknown2] ++ r.unknown2_0 ++ [r.gamma, r.unknown3]
    ++ [r.resolution_y_lo, r.resolution_y_hi] ++ r.unknown3_0
    ++ [r.resolution_x_lo, r.resolution_x_hi] ++ r.unknown4_0
    ++ [r.offset_x_lo, r.offset_x_hi, r.offset_x_hlo, r.offset_x_hhi]
    ++ [r.offset_y_lo, r.offset_y_hi] ++ r.unknown6_0
    ++ [r.exposure_lo, r.exposure_hi] ++ r.unknown7_0
    ++ [r.gain_red, r.gain_green, r.gain_blue] ++ r.unknown8_0
    ++ [r.unknown9] ++ r.unknown9_0

/-! ## `struct dcm300` and the encoder of `dcm300.c` -/

/-- The C type `struct dcm300` of `dcm300.h`.  `usb_dev_handle` records whether the pointer is
non-null; `name` and `output` (the sink descriptor) carry no data of their own.
`x y w h exposure` are `u16`, `red green blue` are `s8`, the rest are `int`. -/
structure dcm300 where
  fd : Int
  usb_dev_handle : Bool
  simulation : Int
  x : Nat
  y : Nat
  w : Nat
  h : Nat
  exposure : Nat
  red : Int
  green : Int
  blue : Int
  raw : Int
  bayer_from : Int
  bayer_read : Int
  bayer_end : Int
  bayer_width : Int
  bayer_circular : Int → Nat

/-- The fields declared `u16` hold 16-bit values and the `s8` gains 8-bit signed values. -/
def dcm300.wf (d : dcm300) : Prop :=
  d.x < 65536 ∧ d.y < 65536 ∧ d.w < 65536 ∧ d.h < 65536 ∧ d.exposure < 65536 ∧
  (-128 ≤ d.red ∧ d.red ≤ 127) ∧ (-128 ≤ d.green ∧ d.green ≤ 127) ∧
  (-128 ≤ d.blue ∧ d.blue ≤ 127)

/-- The function `dcm300_create_request` of `dcm300.c`.  The `u16` operands are promoted to `int`
before `%`, `/` and `+ 20`; each result is stored into an `unsigned char`. -/
def dcm300_create_request (d : dcm300) : dcm300_request :=
  { dcm300_request.zero with
    unknown1a := 0x2c
    unknown1b := 0x0e
    unknown1c := 0x01
    unknown2 := 0x20
    unknown3 := 0x05
    unknown9 := 0x02
    resolution_x_lo := (d.w % 256) % 256
    resolution_x_hi := (d.w / 256) % 256
    resolution_y_lo := (d.h % 256) % 256
    resolution_y_hi := (d.h / 256) % 256
    offset_x_lo := (d.x % 256) % 256
    offset_x_hi := (d.x / 256) % 256
    offset_y_lo := (d.y % 256) % 256
    offset_y_hi := (d.y / 256) % 256
    exposure_lo := ((d.exposure + 20) % 256) % 256
    exposure_hi := ((d.exposure + 20) / 256) % 256
    gain_red := toU8 d.red
    gain_green := toU8 d.green
    gain_blue := toU8 d.blue
    gamma := 191 % 256 }

/-! ## The encoder of `sane-dcm300.c` -/

namespace Sane

/-- The C type `struct dcm300_snapshot` of `sane-dcm300.c`: `unsigned int` fields and
`unsigned char` gains. -/
structure dcm300_snapshot where
  resolution_x : Nat
  resolution_y : Nat
  offset_x : Nat
  offset_y : Nat
  exposure : Nat
  gain_red : Nat
  gain_green : Nat
  gain_blue : Nat

/-- The `unsigned int` fields hold 32-bit values and the gains 8-bit values. -/
def dcm300_snapshot.wf (s : dcm300_snapshot) : Prop :=
  s.resolution_x < 2 ^ 32 ∧ s.resolution_y < 2 ^ 32 ∧ s.offset_x < 2 ^ 32 ∧
  s.offset_y < 2 ^ 32 ∧ s.exposure < 2 ^ 32 ∧
  s.gain_red < 256 ∧ s.gain_green < 256 ∧ s.gain_blue < 256

/-- The function `dcm300_create_request` of `sane-dcm300.c`.  Arithmetic is `unsigned int`
(`exposure + 20` wraps modulo `2 ^ 32`); each result is stored into an `unsigned char`. -/
def dcm300_create_request (s : dcm300_snapshot) : dcm300_request :=
  { dcm300_request.zero with
    unknown1a := 0x2c
    unknown1b := 0x0e
    unknown1c := 0x01
    unknown2 := 0x20
    gamma := 0xbf
    unknown3 := 0x05
    unknown9 := 0x02
    resolution_x_lo := (s.resolution_x % 256) % 256
    resolution_x_hi := (s.resolution_x / 256) % 256
    resolution_y_lo := (s.resolution_y % 256) % 256
    resolution_y_hi := (s.resolution_y / 256) % 256
    offset_x_lo := (s.offset_x % 256) % 256
    offset_x_hi := (s.offset_x / 256) % 256
    offset_y_lo := (s.offset_y % 256) % 256
    offset_y_hi := (s.offset_y / 256) % 256
    exposure_lo := (((s.exposure + 20) % 2 ^ 32) % 256) % 256
    exposure_hi := (((s.exposure + 20) % 2 ^ 32) / 256) % 256
    gain_red := s.gain_red % 256
    gain_green := s.gain_green % 256
    gain_blue := s.gain_blue % 256 }

end Sane

/-- The inverse formula of the wire format: `value = lo + 256 * hi` of the two bytes
at offsets `off` and `off + 1`. -/
def decode16 (bytes : List Nat) (off : Nat) : Nat :=
  bytes.getD off 0 + 256 * bytes.getD (off + 1) 0

/-! ## The circular buffer -/

/-- The function `dcm300_circular`: the offset inside `bayer_circular` of the returned pointer,
`(unsigned int)(bayer_read) % BAYER_CIRCULAR`. -/
def dcm300_circular (d : dcm300) : Nat :=
  ((d.bayer_read % 2 ^ 32) % (BAYER_CIRCULAR : Int)).toNat

/-- The array after `data` has been stored at indices `addr, addr + 1, ...`
(what a transport read or `sprintf` does with its destination pointer). -/
def store_bytes (mem : Int → Nat) (addr : Nat) (data : List Nat) : Int → Nat :=
  fun a => if (addr : Int) ≤ a ∧ a < (addr : Int) + data.length
    then data.getD (a - addr).toNat 0 else mem a

/-- The `n` bytes found at indices `addr, addr + 1, ...`
(what `write(output, pointer, n)` sends to the sink). -/
def load_bytes (mem : Int → Nat) (addr : Nat) (n : Nat) : List Nat :=
  (List.range n).map (fun (k : Nat) => mem ((addr : Int) + (k : Int)))

/-- Storing `data` through the pointer `dcm300_circular` (a transport read into the ring,
or `sprintf`): the bytes go to the indices from `dcm300_circular` on, which must all lie
inside `bayer_circular`. -/
def ring_store (d : dcm300) (data : List Nat) : Except fault dcm300 :=
  if dcm300_circular d + data.length ≤ BAYER_CIRCULAR then
    .ok { d with bayer_circular := store_bytes d.bayer_circular (dcm300_circular d) data }
  else .error .ring_overrun

/-! ## `dcm300_output_bayer` -/

/-- The three stores of the inner loop body for column `j`:
`bayer_array[j % BAYER_CIRCULAR]`,
`(bayer_array[(j + 1) % BAYER_CIRCULAR] + bayer_array[(j + bayer_width) % BAYER_CIRCULAR]) / 2`
and `bayer_array[(j + bayer_width + 1) % BAYER_CIRCULAR]`, each stored into a `u8`. -/
def bayer_pixel (bayer_array : Int → Nat) (bayer_width j : Int) : List Nat :=
  [ bayer_array (Int.tmod j BAYER_CIRCULAR) % 256,
    ((bayer_array (Int.tmod (j + 1) BAYER_CIRCULAR)
        + bayer_array (Int.tmod (j + bayer_width) BAYER_CIRCULAR)) / 2) % 256,
    bayer_array (Int.tmod (j + bayer_width + 1) BAYER_CIRCULAR) % 256 ]

/-- The inner loop `for(j = i; j < i + bayer_width; j += 2)`, entered with the current
`j` and the bytes stored in `rgb_array` so far (`irgb` is their number).  The three
stores of an iteration go to the indices `irgb, irgb + 1, irgb + 2` of `rgb_array`,
which has `RGB_MAX` elements, and read the ring at indices derived from `j`; the test
`if(irgb > RGB_MAX) goto force_exit` comes after the stores.  The result is the array
contents and whether `goto force_exit` was taken. -/
def bayer_columns (bayer_array : Int → Nat) (bayer_width i : Int) :
    Nat → Int → List Nat → Except fault (List Nat × Bool)
  | 0, j, rgb_array =>
    if j < i + bayer_width then .error .out_of_fuel else .ok (rgb_array, false)
  | fuel + 1, j, rgb_array =>
    if j < i + bayer_width then
      if j < 0 then .error .ring_overrun
      else if RGB_MAX < rgb_array.length + 3 then .error .rgb_array_overrun
      else if RGB_MAX < (rgb_array ++ bayer_pixel bayer_array bayer_width j).length then
        .ok (rgb_array ++ bayer_pixel bayer_array bayer_width j, true)
      else
        bayer_columns bayer_array bayer_width i fuel (j + 2)
          (rgb_array ++ bayer_pixel bayer_array bayer_width j)
    else .ok (rgb_array, false)

/-- The outer loop `for(i = *bayer_start; i < bayer_last; i += 2*bayer_width)`.  The
result is the value of `i` at the label `force_exit` and the contents of `rgb_array`. -/
def bayer_rows (bayer_array : Int → Nat) (bayer_width bayer_last : Int) :
    Nat → Int → List Nat → Except fault (Int × List Nat)
  | 0, i, rgb_array => if i < bayer_last then .error .out_of_fuel else .ok (i, rgb_array)
  | fuel + 1, i, rgb_array =>
    if i < bayer_last then
      (bayer_columns bayer_array bayer_width i bayer_width.toNat i rgb_array).bind
        (fun r => if r.2 then .ok (i, r.1)
          else bayer_rows bayer_array bayer_width bayer_last fuel (i + 2 * bayer_width) r.1)
    else .ok (i, rgb_array)

/-- The value of `bayer_stop` in `dcm300_output_bayer`. -/
def bayer_stop (d : dcm300) (len : Int) : Int :=
  if d.bayer_read + len > d.bayer_end then d.bayer_end else d.bayer_read + len

/-- The value of `bayer_last` in `dcm300_output_bayer`. -/
def bayer_last (d : dcm300) (len : Int) : Int :=
  d.bayer_from + (bayer_stop d len - d.bayer_from)
    - Int.tmod (bayer_stop d len - d.bayer_from) (2 * d.bayer_width)

/-- The function `dcm300_output_bayer`.  Returns the updated device structure and the
sink with the `irgb` bytes of `rgb_array` appended.  The rows loop advances by
`2*bayer_width >= 2` whenever it terminates at all, so `bayer_last - bayer_from`
iterations are enough fuel. -/
def dcm300_output_bayer (d : dcm300) (len : Int) (out : List Nat) :
    Except fault (dcm300 × List Nat) :=
  if 2 * d.bayer_width = 0 then .error .division_by_zero
  else
    (bayer_rows d.bayer_circular d.bayer_width (bayer_last d len)
        (bayer_last d len - d.bayer_from).toNat d.bayer_from []).map
      (fun r => ({ d with bayer_from := r.1, bayer_read := r.1 }, out ++ r.2))

/-- The function `dcm300_output`: `len` raw bytes from the pointer `dcm300_circular` on,
or the demosaic. -/
def dcm300_output (d : dcm300) (len : Int) (out : List Nat) :
    Except fault (dcm300 × List Nat) :=
  if len > 0 then
    if d.raw ≠ 0 then
      if dcm300_circular d + len.toNat ≤ BAYER_CIRCULAR then
        .ok (d, out ++ load_bytes d.bayer_circular (dcm300_circular d) len.toNat)
      else .error .ring_overrun
    else dcm300_output_bayer d len out
  else .ok (d, out)

/-- The text printed by `"%d"` for a non-negative value. -/
def decimal (n : Nat) : List Nat := (Nat.toDigits 10 n).map Char.toNat

/-- The characters that `sprintf` formats in `dcm300_output_header`. -/
def header_text (d : dcm300) : List Nat :=
  if d.raw ≠ 0 then []
  else "P6\n".toList.map Char.toNat ++ decimal (d.w / 2) ++ " ".toList.map Char.toNat
    ++ decimal (d.h / 2) ++ "\n255\n".toList.map Char.toNat

/-- The C library function `strlen` on a string that starts at index `addr` of
`bayer_circular`: the number of bytes before the first NUL.  The argument `k` is the
number of non-NUL bytes passed so far and the fuel is the number of bytes left in the
array; a scan that leaves the array is a fault. -/
def strlen (mem : Int → Nat) (addr : Nat) : Nat → Nat → Except fault Nat
  | 0, _ => .error .ring_overrun
  | fuel + 1, k =>
    if mem ((addr : Int) + (k : Int)) = 0 then .ok k else strlen mem addr fuel (k + 1)

/-- The function `dcm300_output_header`: `*buffer = 0`, then `sprintf` formats the text
(with its terminating NUL) at the pointer `dcm300_circular`, and `strlen(buffer)` bytes
of the buffer are written to the sink. -/
def dcm300_output_header (d : dcm300) (out : List Nat) : Except fault (dcm300 × List Nat) :=
  (ring_store d [0]).bind (fun d0 =>
    (ring_store d0 (header_text d0 ++ [0])).bind (fun d1 =>
      (strlen d1.bayer_circular (dcm300_circular d1)
          (BAYER_CIRCULAR - dcm300_circular d1) 0).map
        (fun n => (d1, out ++ load_bytes d1.bayer_circular (dcm300_circular d1) n))))

/-! ## Transport -/

/-- The libusb bulk primitives on an abstract device state: `usb_bulk_write` returns the
call's result and `usb_bulk_read` the call's result together with the bytes it stored
in the buffer. -/
structure usb_device (σ : Type) where
  usb_bulk_write : σ → List Nat → Int × σ
  usb_bulk_read : σ → Nat → (Int × List Nat) × σ

/-- What the driver talks to: the raw image file behind the descriptor `fd` (contents,
file offset, whether the descriptor is still open) and the USB device. -/
structure world (σ : Type) where
  file : List Nat
  offset : Nat
  fd_open : Bool
  usb : σ

/-- The system call `read(fd, buffer, bytes)` on the raw image file: the next bytes of the
file up to the requested count; `-1` on a closed descriptor. -/
def sys_read {σ : Type} (wd : world σ) (bytes : Nat) : (Int × List Nat) × world σ :=
  if wd.fd_open then
    ((((wd.file.drop wd.offset).take bytes).length, (wd.file.drop wd.offset).take bytes),
     { wd with offset := wd.offset + ((wd.file.drop wd.offset).take bytes).length })
  else ((-1, []), wd)

/-- The system call `lseek(fd, 0, SEEK_SET)`. -/
def sys_lseek0 {σ : Type} (wd : world σ) : world σ :=
  if wd.fd_open then { wd with offset := 0 } else wd

/-- The function `dcm300_read_simulation`. -/
def dcm300_read_simulation {σ : Type} (d : dcm300) (wd : world σ) (bytes : Nat) :
    (Int × List Nat) × world σ :=
  if d.simulation ≠ 1 then ((0, []), wd)
  else if d.fd > 0 then sys_read wd bytes
  else ((0, []), wd)

/-- The function `dcm300_write_simulation`. -/
def dcm300_write_simulation {σ : Type} (d : dcm300) (wd : world σ) (buffer : List Nat) :
    Int × world σ :=
  if d.simulation ≠ 1 then (0, wd)
  else (buffer.length, if d.fd > 0 then sys_lseek0 wd else wd)

/-- The function `dcm300_write_hardware`. -/
def dcm300_write_hardware {σ : Type} (U : usb_device σ) (d : dcm300) (wd : world σ)
    (buffer : List Nat) : Int × world σ :=
  if d.simulation = 1 then (0, wd)
  else if d.usb_dev_handle then
    ((U.usb_bulk_write wd.usb buffer).1, { wd with usb := (U.usb_bulk_write wd.usb buffer).2 })
  else (0, wd)

/-- The function `dcm300_read_hardware`. -/
def dcm300_read_hardware {σ : Type} (U : usb_device σ) (d : dcm300) (wd : world σ)
    (bytes : Nat) : (Int × List Nat) × world σ :=
  if d.simulation = 1 then ((0, []), wd)
  else if d.usb_dev_handle then
    ((U.usb_bulk_read wd.usb bytes).1, { wd with usb := (U.usb_bulk_read wd.usb bytes).2 })
  else ((0, []), wd)

/-- The function `dcm300_read`. -/
def dcm300_read {σ : Type} (U : usb_device σ) (d : dcm300) (wd : world σ) (bytes : Nat) :
    (Int × List Nat) × world σ :=
  if d.simulation = 1 then dcm300_read_simulation d wd bytes
  else dcm300_read_hardware U d wd bytes

/-- The function `dcm300_write`. -/
def dcm300_write {σ : Type} (U : usb_device σ) (d : dcm300) (wd : world σ)
    (buffer : List Nat) : Int × world σ :=
  if d.simulation = 1 then dcm300_write_simulation d wd buffer
  else dcm300_write_hardware U d wd buffer

/-- The system call `close(fd)` on the raw image file. -/
def sys_close {σ : Type} (wd : world σ) : world σ := { wd with fd_open := false }

/-- The function `dcm300_close_simulation`. -/
def dcm300_close_simulation {σ : Type} (d : dcm300) (wd : world σ) : Int × world σ :=
  if d.simulation ≠ 1 then (0, wd)
  else (0, if d.fd > 0 then sys_close wd else wd)

/-- The function `dcm300_close`. -/
def dcm300_close {σ : Type} (d : dcm300) (wd : world σ) : Int × world σ :=
  if d.simulation = 1 then dcm300_close_simulation d wd else (-1, wd)

/-! ## `dcm300_get_image` -/

/-- The statement `len = dcm300_read(dcm300, dcm300_circular(dcm300), want_bytes)`: the
bytes delivered by the transport are stored from the pointer `dcm300_circular` on.
The result is `len`, the device structure and the world. -/
def read_circular {σ : Type} (U : usb_device σ) (d : dcm300) (wd : world σ)
    (want_bytes : Nat) : Except fault (Int × dcm300 × world σ) :=
  (ring_store d (dcm300_read U d wd want_bytes).1.2).map
    (fun d1 => ((dcm300_read U d wd want_bytes).1.1, d1, (dcm300_read U d wd want_bytes).2))

/-- The content loop of the warm-up snapshot,
`for(i = 0; i < expect_image && len == want_bytes; i += len)` with
`want_bytes = MAXBULK`: the data goes to the local copy `dcm300small` and nothing is
written to the sink. -/
def warmup_loop {σ : Type} (U : usb_device σ) (expect_image : Int) :
    Nat → Int → Int → dcm300 → world σ → Except fault (dcm300 × world σ)
  | 0, i, len, dcm300small, wd =>
    if i < expect_image ∧ len = MAXBULK then .error .out_of_fuel else .ok (dcm300small, wd)
  | fuel + 1, i, len, dcm300small, wd =>
    if i < expect_image ∧ len = MAXBULK then
      (read_circular U dcm300small wd MAXBULK).bind
        (fun r => warmup_loop U expect_image fuel (i + r.1) r.1 r.2.1 r.2.2)
    else .ok (dcm300small, wd)

/-- The content loop of the real snapshot,
`for(i = 0; i < expect_image && len == want_bytes; i += len)` with
`want_bytes = MAXBULK`, each chunk handed to `dcm300_output`. -/
def content_loop {σ : Type} (U : usb_device σ) (expect_image : Int) :
    Nat → Int → Int → dcm300 → world σ → List Nat →
      Except fault (dcm300 × world σ × List Nat)
  | 0, i, len, d, wd, out =>
    if i < expect_image ∧ len = MAXBULK then .error .out_of_fuel else .ok (d, wd, out)
  | fuel + 1, i, len, d, wd, out =>
    if i < expect_image ∧ len = MAXBULK then
      (read_circular U d wd MAXBULK).bind (fun r =>
        (dcm300_output r.2.1 r.1 out).bind (fun r2 =>
          content_loop U expect_image fuel (i + r.1) r.1 r2.1 r.2.2 r2.2))
    else .ok (d, wd, out)

/-- Iterations that are always enough for a content loop: every iteration that is
followed by another one advances `i` by `MAXBULK`. -/
def loop_fuel (expect_image : Int) : Nat := expect_image.toNat / MAXBULK + 1

/-- The local copy `dcm300small` of `dcm300_get_image` after the `memcpy` and the
assignments `x = y = 0`, `w = h = 128`. -/
def dcm300small (d : dcm300) : dcm300 := { d with x := 0, y := 0, w := 128, h := 128 }

/-- The warm-up half of `dcm300_get_image`, from
`expect_image = dcm300small->w * dcm300small->h` to the footer read, run on the local
copy `dcm300small`; only the world changes. -/
def get_image_warmup {σ : Type} (U : usb_device σ) (dcm300small : dcm300) (wd : world σ) :
    Except fault (world σ) :=
  let expect_image : Int := (dcm300small.w : Int) * (dcm300small.h : Int)
  let wd1 := (dcm300_write U dcm300small wd (dcm300_create_request dcm300small).bytes).2
  (read_circular U dcm300small wd1 64).bind (fun r1 =>
    (warmup_loop U expect_image (loop_fuel expect_image) 0 MAXBULK r1.2.1 r1.2.2).bind
      (fun r2 => (read_circular U r2.1 r2.2 256).map (fun r3 => r3.2.2)))

/-- The cursor initialisation of the real snapshot: `bayer_from = 0`, `bayer_read = -64`,
`bayer_width = w`, `bayer_end = bayer_from + expect_image` with
`expect_image = dcm300->w * dcm300->h`.  The product of the two `u16` values is an
`int`; it is the mathematical product as long as `w * h < 2^31`, and overflows (which
C leaves undefined) beyond. -/
def cursor_init (d : dcm300) : dcm300 :=
  { d with bayer_from := 0, bayer_read := -64, bayer_width := d.w,
           bayer_end := 0 + (d.w : Int) * (d.h : Int) }

/-- The real-size half of `dcm300_get_image`, from `expect_image = dcm300->w * dcm300->h`
to the `return 0`: cursor initialisation, request write, text header, 64-byte header
read, content loop, 256-byte footer read, each read followed by `dcm300_output`.  As in
`cursor_init`, `expect_image` is the mathematical product, the value of the `int` for
`w * h < 2^31`. -/
def get_image_real {σ : Type} (U : usb_device σ) (d : dcm300) (wd : world σ)
    (out : List Nat) : Except fault (dcm300 × world σ × List Nat) :=
  let expect_image : Int := (d.w : Int) * (d.h : Int)
  let d0 : dcm300 := cursor_init d
  let wd1 := (dcm300_write U d0 wd (dcm300_create_request d0).bytes).2
  (dcm300_output_header d0 out).bind (fun h1 =>
    (read_circular U h1.1 wd1 64).bind (fun r1 =>
      (dcm300_output r1.2.1 r1.1 h1.2).bind (fun r2 =>
        (content_loop U expect_image (loop_fuel expect_image) 0 MAXBULK r2.1 r1.2.2 r2.2).bind
          (fun r3 =>
            (read_circular U r3.1 r3.2.1 256).bind (fun r4 =>
              (dcm300_output r4.2.1 r4.1 r3.2.2).map
                (fun r5 => (r5.1, r4.2.2, r5.2)))))))

/-- The function `dcm300_get_image`: the warm-up snapshot followed by the real one.  The
result is the device structure, the world and the sink after the call. -/
def dcm300_get_image {σ : Type} (U : usb_device σ) (d : dcm300) (wd : world σ)
    (out : List Nat) : Except fault (dcm300 × world σ × List Nat) :=
  (get_image_warmup U (dcm300small d) wd).bind (fun wd1 => get_image_real U d wd1 out)

/-! ## Reference demosaic of a linear raw frame (the specification's formula) -/

/-- Output pixel (row `r`, column `c`) of a raw frame of width `w`:
`R = raw[2r*w + 2c]`, `G = (raw[2r*w + 2c + 1] + raw[(2r+1)*w + 2c]) / 2`,
`B = raw[(2r+1)*w + 2c + 1]`. -/
def demosaic_pixel (w : Nat) (raw : List Nat) (r c : Nat) : List Nat :=
  [ raw.getD (2 * r * w + 2 * c) 0,
    (raw.getD (2 * r * w + 2 * c + 1) 0 + raw.getD ((2 * r + 1) * w + 2 * c) 0) / 2,
    raw.getD ((2 * r + 1) * w + 2 * c + 1) 0 ]

/-- Output row `r`: the pixels of columns `0 .. w/2 - 1`. -/
def demosaic_row (w : Nat) (raw : List Nat) (r : Nat) : List Nat :=
  (List.range (w / 2)).flatMap (demosaic_pixel w raw r)

/-- The half-width, half-height RGB image of a `w` x `h` raw frame, in raster order. -/
def demosaic (w h : Nat) (raw : List Nat) : List Nat :=
  (List.range (h / 2)).flatMap (demosaic_row w raw)

/-! ## The loops of `dcm300_output_bayer` without the output ceiling -/

/-- The bytes stored by `k` consecutive iterations of the inner loop, starting at column
index `j`. -/
def row_pixels (bayer_array : Int → Nat) (bayer_width j : Int) (k : Nat) : List Nat :=
  (List.range k).flatMap (fun c => bayer_pixel bayer_array bayer_width (j + 2 * (c : Int)))

/-- The bytes stored by `n` consecutive iterations of the outer loop, starting at row
index `i`, each running `p` iterations of the inner loop. -/
def rows_pixels (bayer_array : Int → Nat) (bayer_width i : Int) (p n : Nat) : List Nat :=
  (List.range n).flatMap
    (fun r => row_pixels bayer_array bayer_width (i + (r : Int) * (2 * bayer_width)) p)

/-- The number of whole row pairs of `2*bayer_width` bytes between `bayer_start` and
`bayer_stop`, `floor((bayer_stop - bayer_start) / (2*bayer_width))`; none when
`bayer_stop < bayer_start`. -/
def whole_row_pairs (bayer_width bayer_start bayer_stop : Int) : Nat :=
  ((bayer_stop - bayer_start) / (2 * bayer_width)).toNat

/-! ## Transports that deliver a byte stream -/

/-- The fields of the device structure that `dcm300_read` and `dcm300_write` look at. -/
def transport_key (d : dcm300) : Int × Int × Bool :=
  (d.simulation, d.fd, d.usb_dev_handle)

/-- The transport seen through `dcm300_read` is a byte stream: in every world satisfying
`good`, a read of `n` bytes returns the next `n` bytes of `pending` (all that is left, at
the end of the stream) and the rest stays pending. -/
def streams {σ : Type} (U : usb_device σ) (key : Int × Int × Bool)
    (good : world σ → Prop) (pending : world σ → List Nat) : Prop :=
  ∀ (d : dcm300) (wd : world σ) (n : Nat), transport_key d = key → good wd →
    (dcm300_read U d wd n).1 = ((((pending wd).take n).length : Int), (pending wd).take n) ∧
    good (dcm300_read U d wd n).2 ∧
    pending (dcm300_read U d wd n).2 = (pending wd).drop n

/-- The device structure `d1` agrees with `d` on the transport fields, the raw flag, the
row width and the end of the frame, and its cursor is at `bayer_from = bayer_read = P`. -/
def cursor_moved (d d1 : dcm300) (P : Int) : Prop :=
  transport_key d1 = transport_key d ∧ d1.raw = d.raw ∧ d1.bayer_width = d.bayer_width ∧
  d1.bayer_end = d.bayer_end ∧ d1.bayer_from = P ∧ d1.bayer_read = P

/-- The device structure `d1` differs from `d` at most in the cursor fields `bayer_from`
and `bayer_read` and in the contents of the ring. -/
def same_setup (d d1 : dcm300) : Prop :=
  ∃ (x y : Int) (mem : Int → Nat),
    d1 = { d with bayer_from := x, bayer_read := y, bayer_circular := mem }

/-- A USB device that answers every bulk read with the next bytes of its reply stream, as
many as requested while the stream lasts, and accepts every bulk write in full. -/
def stream_usb : usb_device (List Nat) where
  usb_bulk_write := fun st buffer => ((buffer.length : Int), st)
  usb_bulk_read := fun st bytes => ((((st.take bytes).length : Int), st.take bytes), st.drop bytes)

/-- The sink after a call. -/
def sink_of {α β : Type} (r : Except fault (α × β × List Nat)) : Except fault (List Nat) :=
  r.map (fun x => x.2.2)

/-! ## A journal of the bulk calls -/

/-- One call of a libusb bulk primitive: the byte count passed and the value returned. -/
inductive usb_call where
  | bulk_write (bytes : Nat) (result : Int)
  | bulk_read (bytes : Nat) (result : Int)
deriving DecidableEq

/-- The device `U` keeping a journal of the bulk calls made on it, oldest first. -/
def journal {σ : Type} (U : usb_device σ) : usb_device (σ × List usb_call) where
  usb_bulk_write := fun st buffer =>
    ((U.usb_bulk_write st.1 buffer).1,
     ((U.usb_bulk_write st.1 buffer).2,
      st.2 ++ [usb_call.bulk_write buffer.length (U.usb_bulk_write st.1 buffer).1]))
  usb_bulk_read := fun st bytes =>
    ((U.usb_bulk_read st.1 bytes).1,
     ((U.usb_bulk_read st.1 bytes).2,
      st.2 ++ [usb_call.bulk_read bytes (U.usb_bulk_read st.1 bytes).1.1]))

/-- The journal left by a call that returned. -/
def journal_of {σ α : Type}
    (r : Except fault (α × world (σ × List usb_call) × List Nat)) : Option (List usb_call) :=
  r.toOption.map (fun x => x.2.1.usb.2)

/-- The cursor as `dcm300_get_image` initialises it for the real snapshot: `bayer_from`
is 0 and `bayer_read` is -64, the 64 header bytes being counted below zero. -/
def cursor_initial (d : dcm300) : Prop :=
  d.bayer_from = 0 ∧ d.bayer_read = -64 ∧ 0 ≤ d.bayer_end

/-- The cursor between two chunks: everything read has been handed on
(`bayer_from = bayer_read`) and the position lies inside the frame. -/
def cursor_in_frame (d : dcm300) : Prop :=
  d.bayer_from = d.bayer_read ∧ 0 ≤ d.bayer_read ∧ d.bayer_read ≤ d.bayer_end

/-- The device `U` with the value returned by each `usb_bulk_write` replaced by `g` of
it; the device state evolves as in `U`. -/
def with_write_result {σ : Type} (U : usb_device σ) (g : Int → Int) : usb_device σ where
  usb_bulk_write := fun st buffer =>
    (g (U.usb_bulk_write st buffer).1, (U.usb_bulk_write st buffer).2)
  usb_bulk_read := U.usb_bulk_read

/-- The libusb contract of `usb_bulk_read` as far as the buffer goes: at most `bytes`
bytes are stored. -/
def bounded_reads {σ : Type} (U : usb_device σ) : Prop :=
  ∀ (st : σ) (bytes : Nat), (U.usb_bulk_read st bytes).1.2.length ≤ bytes

/-! ## `dcm300_scan` of the SANE backend -/

namespace Sane

/-- The status `SANE_STATUS_GOOD` of the SANE API (`sane.h`, not part of the
repository). -/
def SANE_STATUS_GOOD : Int := 0

/-- The status `SANE_STATUS_IO_ERROR` of the SANE API (`sane.h`, not part of the
repository). -/
def SANE_STATUS_IO_ERROR : Int := 9

/-- The sanei_usb bulk primitives on an abstract device state.  `sanei_usb_write_bulk`
returns a status; `sanei_usb_read_bulk` returns a status and the bytes it stored in the
buffer, and sets `*size` to their number. -/
structure sanei_usb (σ : Type) where
  sanei_usb_write_bulk : σ → List Nat → Int × σ
  sanei_usb_read_bulk : σ → Nat → (Int × List Nat) × σ

/-- Conversion of an `unsigned int` value to `int`. -/
def to_int (n : Nat) : Int :=
  if n % 2 ^ 32 < 2 ^ 31 then ((n % 2 ^ 32 : Nat) : Int) else ((n % 2 ^ 32 : Nat) : Int) - 2 ^ 32

/-- Conversion of an `int` value to `size_t` (64 bits). -/
def to_size (v : Int) : Nat := (v % 2 ^ 64).toNat

/-- The constant `bulk_header_len` of `dcm300_scan`. -/
def bulk_header_len : Int := 64

/-- The constant `bulk_content_len` of `dcm300_scan`. -/
def bulk_content_len : Int := 16384

/-- The constant `bulk_footer_len` of `dcm300_scan`. -/
def bulk_footer_len : Int := 256

/-- The number of elements of the array `rgb` of `dcm300_scan`, `3*BAYER_CIRCULAR/2`. -/
def rgb_size : Nat := 3 * BAYER_CIRCULAR / 2

/-- The number of elements of the array `rgbimage` of `dcm300_scan`, `3*1024*768`. -/
def rgbimage_size : Nat := 3 * 1024 * 768

/-- The inner loop `for(j = i; j < i + bayer_width; j += 2)` of
`bayer_circular_downscale`: three stores into `rgb_array` (of `rgb_size` elements in the
caller), then the test `if(irgb > 3*8192) goto force_exit`. -/
def downscale_columns (bayer_array : Int → Nat) (bayer_width i : Int) :
    Nat → Int → List Nat → Except fault (List Nat × Bool)
  | 0, j, rgb_array =>
    if j < i + bayer_width then .error .out_of_fuel else .ok (rgb_array, false)
  | fuel + 1, j, rgb_array =>
    if j < i + bayer_width then
      if j < 0 then .error .ring_overrun
      else if rgb_size < rgb_array.length + 3 then .error .rgb_array_overrun
      else if 3 * 8192 < (rgb_array ++ bayer_pixel bayer_array bayer_width j).length then
        .ok (rgb_array ++ bayer_pixel bayer_array bayer_width j, true)
      else
        downscale_columns bayer_array bayer_width i fuel (j + 2)
          (rgb_array ++ bayer_pixel bayer_array bayer_width j)
    else .ok (rgb_array, false)

/-- The outer loop `for(i = *bayer_start; i < bayer_last; i += 2*bayer_width)` of
`bayer_circular_downscale`. -/
def downscale_rows (bayer_array : Int → Nat) (bayer_width bayer_last : Int) :
    Nat → Int → List Nat → Except fault (Int × List Nat)
  | 0, i, rgb_array => if i < bayer_last then .error .out_of_fuel else .ok (i, rgb_array)
  | fuel + 1, i, rgb_array =>
    if i < bayer_last then
      (downscale_columns bayer_array bayer_width i bayer_width.toNat i rgb_array).bind
        (fun r => if r.2 then .ok (i, r.1)
          else downscale_rows bayer_array bayer_width bayer_last fuel (i + 2 * bayer_width) r.1)
    else .ok (i, rgb_array)

/-- The value of `bayer_last` in `bayer_circular_downscale`. -/
def downscale_last (bayer_width bayer_start bayer_stop : Int) : Int :=
  bayer_start + (bayer_stop - bayer_start)
    - Int.tmod (bayer_stop - bayer_start) (2 * bayer_width)

/-- The function `bayer_circular_downscale`.  The result is the new `*bayer_start` and
the bytes stored in `rgb_array`; `*rgb_len` is their number. -/
def bayer_circular_downscale (bayer_array : Int → Nat)
    (bayer_width bayer_start bayer_stop : Int) : Except fault (Int × List Nat) :=
  if 2 * bayer_width = 0 then .error .division_by_zero
  else
    downscale_rows bayer_array bayer_width (downscale_last bayer_width bayer_start bayer_stop)
      (downscale_last bayer_width bayer_start bayer_stop - bayer_start).toNat bayer_start []

/-- The local variables of `dcm300_scan` that live across its steps, the state of the
USB device behind `udh`, and the blocks handed to the callback `cbfunc` so far. -/
structure scan_state (σ : Type) where
  udh : σ
  replybuf : Int → Nat
  rgbimage : Int → Nat
  bytes_read : Int
  bayer_from : Int
  rgb_done : Int
  rgb_left : Int
  sent : List (List Nat)

/-- The statement `result = sanei_usb_read_bulk(udh, replybuf + offset, &bulk_len)`: the
result is the status, the new `bulk_len` and the state. -/
def scan_read {σ : Type} (U : sanei_usb σ) (st : scan_state σ) (offset : Int)
    (bulk_len : Nat) : Except fault (Int × Int × scan_state σ) :=
  if offset < 0 ∨
      offset + ((U.sanei_usb_read_bulk st.udh bulk_len).1.2.length : Int) > BAYER_CIRCULAR then
    .error .ring_overrun
  else
    .ok ((U.sanei_usb_read_bulk st.udh bulk_len).1.1,
         ((U.sanei_usb_read_bulk st.udh bulk_len).1.2.length : Int),
         { st with
           udh := (U.sanei_usb_read_bulk st.udh bulk_len).2
           replybuf := store_bytes st.replybuf offset.toNat
                         (U.sanei_usb_read_bulk st.udh bulk_len).1.2 })

/-- The value of `bulk_want` in the content loop. -/
def content_want (image_len bytes_read : Int) : Int :=
  if image_len - bytes_read > bulk_content_len then bulk_content_len
  else image_len - bytes_read

/-- The value of `bulk_want` in the footer step. -/
def footer_want (image_len bytes_read : Int) : Int :=
  if image_len - bytes_read + bulk_footer_len > bulk_content_len then bulk_content_len
  else image_len - bytes_read + bulk_footer_len

/-- The value given to `bulk_len` before a read, which keeps the read inside the ring. -/
def ring_len (bytes_read bulk_want : Int) : Int :=
  if Int.tmod bytes_read BAYER_CIRCULAR + bulk_want ≤ BAYER_CIRCULAR then bulk_want
  else BAYER_CIRCULAR - Int.tmod bytes_read BAYER_CIRCULAR

/-- The block `rgb_num = 0; if(j == 1 && rgb_left > 0) { ... }`: on the second pass the
bytes of `rgb` are appended to `rgbimage` as long as there is room. -/
def scan_keep {σ : Type} (j : Nat) (st : scan_state σ) (rgb : List Nat) :
    Except fault (scan_state σ) :=
  if j = 1 ∧ st.rgb_left > 0 then
    if st.rgb_done < 0 ∨
        st.rgb_done + (if st.rgb_left > rgb.length then (rgb.length : Int) else st.rgb_left)
          > rgbimage_size then
      .error .image_overrun
    else
      .ok { st with
            rgbimage := store_bytes st.rgbimage st.rgb_done.toNat
              (rgb.take (if st.rgb_left > rgb.length then (rgb.length : Int)
                else st.rgb_left).toNat)
            rgb_done := st.rgb_done +
              (if st.rgb_left > rgb.length then (rgb.length : Int) else st.rgb_left)
            rgb_left := st.rgb_left -
              (if st.rgb_left > rgb.length then (rgb.length : Int) else st.rgb_left) }
  else .ok st

/-- The content loop
`for(bytes_read = 0; bytes_read < image_len && bulk_want == (int)bulk_len; bytes_read += bulk_len)`
entered with the current `bulk_want` and `bulk_len`; a failed read leaves it through
`goto exitscan1`. -/
def scan_content_loop {σ : Type} (U : sanei_usb σ) (j : Nat) (image_len bayer_width : Int) :
    Nat → scan_state σ → Int → Int → Except fault (scan_state σ)
  | 0, st, bulk_want, bulk_len =>
    if st.bytes_read < image_len ∧ bulk_want = bulk_len then .error .out_of_fuel else .ok st
  | fuel + 1, st, bulk_want, bulk_len =>
    if st.bytes_read < image_len ∧ bulk_want = bulk_len then
      (scan_read U st (Int.tmod st.bytes_read BAYER_CIRCULAR)
          (to_size (ring_len st.bytes_read (content_want image_len st.bytes_read)))).bind
        (fun r =>
          if r.1 ≠ SANE_STATUS_GOOD then .ok r.2.2
          else
            (bayer_circular_downscale r.2.2.replybuf bayer_width r.2.2.bayer_from
                (r.2.2.bytes_read + r.2.1)).bind (fun ds =>
              (scan_keep j { r.2.2 with bayer_from := ds.1 } ds.2).bind (fun st2 =>
                scan_content_loop U j image_len bayer_width fuel
                  { st2 with bytes_read := st2.bytes_read + r.2.1 }
                  (content_want image_len st.bytes_read) r.2.1)))
    else .ok st

/-- The calls `(*cbfunc)(param, 3*w1, rgbimage + 3*(w*(i + y1) + x1))` for the row
numbers in the list, in `unsigned` arithmetic; each block must lie inside `rgbimage`. -/
def scan_send (rgbimage : Int → Nat) (x1 y1 w1 : Nat) :
    List Nat → List (List Nat) → Except fault (List (List Nat))
  | [], sent => .ok sent
  | i :: rest, sent =>
    if (3 * (1024 * (i + y1) + x1)) % 2 ^ 32 + (3 * w1) % 2 ^ 32 ≤ rgbimage_size then
      scan_send rgbimage x1 y1 w1 rest
        (sent ++ [load_bytes rgbimage ((3 * (1024 * (i + y1) + x1)) % 2 ^ 32)
          ((3 * w1) % 2 ^ 32)])
    else .error .image_overrun

/-- The footer step of one pass, from the label `exitscan1` to the end of the loop body:
the footer read (a failure leaves through `goto exitscan`, reported by `true`), the last
demosaic call, and the delivery of the image when `rgb_done == 3*w*h`. -/
def scan_footer {σ : Type} (U : sanei_usb σ) (j : Nat) (image_len bayer_width : Int)
    (x1 y1 w1 h1 : Nat) (st : scan_state σ) : Except fault (scan_state σ × Bool) :=
  (scan_read U st (Int.tmod st.bytes_read BAYER_CIRCULAR)
      (to_size (ring_len st.bytes_read (footer_want image_len st.bytes_read)))).bind
    (fun r =>
      if r.1 ≠ SANE_STATUS_GOOD then .ok (r.2.2, true)
      else
        (bayer_circular_downscale r.2.2.replybuf bayer_width r.2.2.bayer_from
            (r.2.2.bytes_read + r.2.1)).bind (fun ds =>
          (scan_keep j { r.2.2 with bayer_from := ds.1 } ds.2).bind (fun st2 =>
            if st2.rgb_done = 3 * 1024 * 768 then
              (scan_send st2.rgbimage x1 y1 w1 (List.range h1) st2.sent).map
                (fun sent => ({ st2 with sent := sent }, false))
            else .ok (st2, false))))

/-- One pass of the loop `for(j = 0; j < 2; j++)` of `dcm300_scan`: request write, header
read, content loop, footer step.  The result is the state and whether the pass left
through `goto exitscan`. -/
def scan_pass {σ : Type} (U : sanei_usb σ) (s : dcm300_snapshot) (x1 y1 w1 h1 : Nat)
    (j : Nat) (st : scan_state σ) : Except fault (scan_state σ × Bool) :=
  if (U.sanei_usb_write_bulk st.udh (dcm300_create_request s).bytes).1 ≠ SANE_STATUS_GOOD then
    .ok ({ st with udh := (U.sanei_usb_write_bulk st.udh (dcm300_create_request s).bytes).2 },
         true)
  else
    (scan_read U
        { st with udh := (U.sanei_usb_write_bulk st.udh (dcm300_create_request s).bytes).2 }
        0 (to_size bulk_header_len)).bind
      (fun r =>
        if r.1 ≠ SANE_STATUS_GOOD then .ok (r.2.2, true)
        else
          (scan_content_loop U j (to_int (s.resolution_x * s.resolution_y))
              (to_int s.resolution_x)
              ((to_int (s.resolution_x * s.resolution_y)).toNat + 1)
              { r.2.2 with bayer_from := 0, rgb_left := 3 * 1024 * 768, rgb_done := 0,
                           bytes_read := 0 }
              0 0).bind
            (fun st3 =>
              scan_footer U j (to_int (s.resolution_x * s.resolution_y))
                (to_int s.resolution_x) x1 y1 w1 h1 st3))

/-- The snapshot parameters that `dcm300_scan` always uses (`w = 1024`, `h = 768`,
`x = y = 0`), with the exposure and gains of the call. -/
def scan_snapshot (exposure gain_red gain_green gain_blue : Nat) : dcm300_snapshot where
  resolution_x := 0xfff0 &&& (2 * 1024)
  resolution_y := 0xfff0 &&& (2 * 768)
  offset_x := 2 * 0
  offset_y := 2 * 0
  exposure := exposure
  gain_red := gain_red % 256
  gain_green := gain_green % 256
  gain_blue := gain_blue % 256

/-- The function `dcm300_scan`: two passes, the second skipped when the first leaves
through `goto exitscan`; the value returned is 0 on every path. -/
def dcm300_scan {σ : Type} (U : sanei_usb σ)
    (x1 y1 w1 h1 exposure gain_red gain_green gain_blue : Nat) (st : scan_state σ) :
    Except fault (Int × scan_state σ) :=
  (scan_pass U (scan_snapshot exposure gain_red gain_green gain_blue) x1 y1 w1 h1 0 st).bind
    (fun p0 =>
      if p0.2 then .ok (0, p0.1)
      else
        (scan_pass U (scan_snapshot exposure gain_red gain_green gain_blue) x1 y1 w1 h1 1
            p0.1).map (fun p1 => (0, p1.1)))

/-- The end of `reader_process`: the exit status of the reader process,
`SANE_STATUS_GOOD` when `dcm300_scan` returns a value `>= 0` and `SANE_STATUS_IO_ERROR`
otherwise. -/
def reader_process {σ : Type} (U : sanei_usb σ)
    (x1 y1 w1 h1 exposure gain_red gain_green gain_blue : Nat) (st : scan_state σ) :
    Except fault Int :=
  (dcm300_scan U x1 y1 w1 h1 exposure gain_red gain_green gain_blue st).map
    (fun r => if r.1 ≥ 0 then SANE_STATUS_GOOD else SANE_STATUS_IO_ERROR)

/-- The device `U` keeping a journal of the bulk calls made on it, oldest first; the
value recorded with a call is its status. -/
def journal {σ : Type} (U : sanei_usb σ) : sanei_usb (σ × List usb_call) where
  sanei_usb_write_bulk := fun st buffer =>
    ((U.sanei_usb_write_bulk st.1 buffer).1,
     ((U.sanei_usb_write_bulk st.1 buffer).2,
      st.2 ++ [usb_call.bulk_write buffer.length (U.sanei_usb_write_bulk st.1 buffer).1]))
  sanei_usb_read_bulk := fun st bytes =>
    ((U.sanei_usb_read_bulk st.1 bytes).1,
     ((U.sanei_usb_read_bulk st.1 bytes).2,
      st.2 ++ [usb_call.bulk_read bytes (U.sanei_usb_read_bulk st.1 bytes).1.1]))

/-- The sanei_usb contract of `sanei_usb_read_bulk` as far as the buffer goes: at most
`*size` bytes are stored. -/
def bounded_reads {σ : Type} (U : sanei_usb σ) : Prop :=
  ∀ (st : σ) (bytes : Nat), (U.sanei_usb_read_bulk st bytes).1.2.length ≤ bytes

/-- The cursor of `dcm300_scan` between two chunks of a 2048 x 1536 frame: `bayer_from`
trails `bytes_read` by less than one row pair (`2*2048` bytes), `bytes_read` has not
passed the end of the image, and `rgb_done + rgb_left` is the size of the RGB image. -/
def window_inv {σ : Type} (st : scan_state σ) : Prop :=
  0 ≤ st.bayer_from ∧ st.bayer_from ≤ st.bytes_read ∧
  st.bytes_read - st.bayer_from < 4096 ∧
  st.bytes_read ≤ 3145728 ∧
  0 ≤ st.rgb_done ∧ 0 ≤ st.rgb_left ∧ st.rgb_done + st.rgb_left = 3 * 1024 * 768

/-- A device that accepts every request and answers every bulk read with the next bytes
of its reply stream, as many as requested while the stream lasts. -/
def stream_usb : sanei_usb (List Nat) where
  sanei_usb_write_bulk := fun st _ => (SANE_STATUS_GOOD, st)
  sanei_usb_read_bulk := fun st bytes => ((SANE_STATUS_GOOD, st.take bytes), st.drop bytes)

/-- A device that follows a script: every read takes the next entry (status and bytes)
of the script and returns `SANE_STATUS_GOOD` without data once the script is used up;
every write returns the status `write_status`. -/
def scripted_usb (write_status : Int) : sanei_usb (List (Int × List Nat)) where
  sanei_usb_write_bulk := fun st _ => (write_status, st)
  sanei_usb_read_bulk := fun st _ =>
    match st with
    | [] => ((SANE_STATUS_GOOD, []), [])
    | entry :: rest => (entry, rest)

/-- The state in which `dcm300_scan` starts: `bytes_read` and `bayer_from` are
initialised to 0, the arrays and the other variables hold whatever the stack held (here
zeros), and nothing has been handed to the callback. -/
def scan_start {σ : Type} (udh : σ) : scan_state σ where
  udh := udh
  replybuf := fun _ => 0
  rgbimage := fun _ => 0
  bytes_read := 0
  bayer_from := 0
  rgb_done := 0
  rgb_left := 0
  sent := []

/-! ### Chunks through the content loop -/

/-- The body of the content loop of `dcm300_scan` run on the chunks that a sequence of
reads returns: each chunk is stored at `replybuf + (bytes_read % BAYER_CIRCULAR)`, then
`bayer_circular_downscale` is called with `bayer_stop = bytes_read + bulk_len`, and
`bytes_read += bulk_len`.  The result is the final `bayer_from` and the contents of `rgb`
after each call, oldest first. -/
def scan_chunks (bayer_width : Int) :
    List (List Nat) → (Int → Nat) → Int → Int → List (List Nat) →
      Except fault (Int × List (List Nat))
  | [], _, _, bayer_from, runs => .ok (bayer_from, runs)
  | chunk :: rest, replybuf, bytes_read, bayer_from, runs =>
    if Int.tmod bytes_read BAYER_CIRCULAR < 0 ∨
        Int.tmod bytes_read BAYER_CIRCULAR + (chunk.length : Int) > BAYER_CIRCULAR then
      .error .ring_overrun
    else
      (bayer_circular_downscale
          (store_bytes replybuf (Int.tmod bytes_read BAYER_CIRCULAR).toNat chunk)
          bayer_width bayer_from (bytes_read + chunk.length)).bind
        (fun ds =>
          scan_chunks bayer_width rest
            (store_bytes replybuf (Int.tmod bytes_read BAYER_CIRCULAR).toNat chunk)
            (bytes_read + chunk.length) ds.1 (runs ++ [ds.2]))

/-- Chunks as the reads of the content loop can return them, the first one at
`bytes_read`: at least one byte each, and no more than the largest `bulk_len` the loop
passes at that point (`bulk_want = bulk_content_len`, cut at the end of the ring). -/
def chunks_read (bytes_read : Int) : List (List Nat) → Bool
  | [] => true
  | chunk :: rest =>
    decide (1 ≤ chunk.length) &&
      decide ((chunk.length : Int) ≤ ring_len bytes_read bulk_content_len) &&
      chunks_read (bytes_read + chunk.length) rest

/-! ### The crop rectangle -/

/-- The C type `dcm300_rect`. -/
structure dcm300_rect where
  left : Int
  top : Int
  right : Int
  bottom : Int

/-- The fields of `struct dcm300_data` that `calculateDerivedValues` reads and writes. -/
structure dcm300_data where
  request_pixel : dcm300_rect
  bytes_per_scan_line : Int
  scan_width_pixels : Int
  scan_height_pixels : Int

/-- The function `calculateDerivedValues` (`int` arithmetic; the values of the option
ranges are far from overflow). -/
def calculateDerivedValues (scanner : dcm300_data) : dcm300_data :=
  { scanner with
    scan_width_pixels := scanner.request_pixel.right - scanner.request_pixel.left + 1
    scan_height_pixels := scanner.request_pixel.bottom - scanner.request_pixel.top + 1
    bytes_per_scan_line :=
      (scanner.request_pixel.right - scanner.request_pixel.left + 1) * 3 }

/-- Conversion of an `int` argument to the parameter type `unsigned` (32 bits). -/
def to_unsigned (v : Int) : Nat := (v % 2 ^ 32).toNat

/-- The arguments `x1, y1, w1, h1` of the call of `dcm300_scan` in `reader_process`:
`request_pixel.left`, `request_pixel.top`, `scan_width_pixels`, `scan_height_pixels`. -/
def scan_window (scanner : dcm300_data) : Nat × Nat × Nat × Nat :=
  (to_unsigned scanner.request_pixel.left, to_unsigned scanner.request_pixel.top,
   to_unsigned scanner.scan_width_pixels, to_unsigned scanner.scan_height_pixels)

/-! ### The list of attached devices -/

/-- The status `SANE_STATUS_NO_MEM` of the SANE API (`sane.h`, not part of the
repository). -/
def SANE_STATUS_NO_MEM : Int := 10

/-- A node of the device list: the fields `devicename` (also `sane.name`) and `next` of
`struct dcm300_data`.  A pointer to a node is its index in the heap of allocated nodes,
`none` is the null pointer. -/
structure device_node where
  devicename : String
  next : Option Nat
deriving DecidableEq

/-- What a `struct dcm300_data **` points to: the variable `first_dev` or the field
`next` of a node. -/
inductive dev_slot where
  | first_dev
  | next_of (node : Nat)
deriving DecidableEq

/-- The static variables `first_dev`, `new_dev`, `num_devices` and the nodes allocated
so far. -/
structure device_list where
  heap : List device_node
  first_dev : Option Nat
  new_dev : dev_slot
  num_devices : Int
deriving DecidableEq

/-- The initialisers `first_dev = 0`, `new_dev = &first_dev`, `num_devices = 0`. -/
def device_list.start : device_list where
  heap := []
  first_dev := none
  new_dev := dev_slot.first_dev
  num_devices := 0

/-- The loop `for (dev = first_dev; dev; dev = dev->next)` of `attachScanner`: whether a
node with `strcmp (dev->sane.name, devicename) == 0` is met. -/
def find_device (heap : List device_node) (devicename : String) : Nat → Option Nat → Bool
  | 0, _ => false
  | _ + 1, none => false
  | fuel + 1, some dev =>
    match heap[dev]? with
    | none => false
    | some node =>
      if node.devicename = devicename then true
      else find_device heap devicename fuel node.next

/-- The assignment `*slot = dev`. -/
def store_slot (devices : device_list) (slot : dev_slot) (dev : Option Nat) : device_list :=
  match slot with
  | dev_slot.first_dev => { devices with first_dev := dev }
  | dev_slot.next_of node =>
    { devices with heap := List.modify (fun n => { n with next := dev }) node devices.heap }

/-- The function `attachScanner`; `malloc_ok` tells whether `malloc` returns a node.  The
new node is zeroed by `memset` (`next = 0`), `num_devices` is incremented and the node is
stored through `new_dev`, which is assigned nowhere in the file. -/
def attachScanner (malloc_ok : Bool) (devices : device_list) (devicename : String) :
    Int × device_list :=
  if find_device devices.heap devicename (devices.heap.length + 1) devices.first_dev then
    (SANE_STATUS_GOOD, devices)
  else if malloc_ok = false then (SANE_STATUS_NO_MEM, devices)
  else
    (SANE_STATUS_GOOD,
     store_slot
       { devices with
         heap := devices.heap ++ [{ devicename := devicename, next := none }]
         num_devices := devices.num_devices + 1 }
       devices.new_dev (some devices.heap.length))

/-- A sequence of `attachScanner` calls whose allocations succeed, as
`sanei_usb_find_devices` makes them for the devices it finds. -/
def attach_all (devices : device_list) (names : List String) : device_list :=
  names.foldl (fun l name => (attachScanner true l name).2) devices

/-- The nodes reachable from `dev` through `next`, in order. -/
def reachable (heap : List device_node) : Nat → Option Nat → List Nat
  | 0, _ => []
  | _ + 1, none => []
  | fuel + 1, some dev =>
    match heap[dev]? with
    | none => []
    | some node => dev :: reachable heap fuel node.next

/-- The loop `for (dev = first_dev, i = 0; i < num_devices; dev = dev->next)` of
`sane_get_devices`, with the iterations left and the entries of `devlist` so far
(pointers to nodes); `none` when `dev->next` is evaluated on the null pointer. -/
def get_devices_loop (heap : List device_node) : Nat → Option Nat → List Nat →
    Option (List Nat)
  | 0, _, devlist => some devlist
  | _ + 1, none, _ => none
  | left + 1, some dev, devlist =>
    match heap[dev]? with
    | none => none
    | some node => get_devices_loop heap left node.next (devlist ++ [dev])

/-- The function `sane_get_devices`: the nodes listed in `devlist`. -/
def sane_get_devices (devices : device_list) : Option (List Nat) :=
  get_devices_loop devices.heap devices.num_devices.toNat devices.first_dev []

end Sane

/-! ## Chunked feeding and concrete inputs -/

/-- Feeding a raw stream chunk by chunk, as the content loop of `dcm300_get_image` does
with the chunks the transport returns: each chunk is stored from the pointer
`dcm300_circular` on and then handed to `dcm300_output` with its length. -/
def feed_chunks : List (List Nat) → dcm300 → List Nat → Except fault (dcm300 × List Nat)
  | [], d, out => .ok (d, out)
  | chunk :: rest, d, out =>
    (ring_store d chunk).bind (fun d1 =>
      (dcm300_output d1 (chunk.length : Int) out).bind (fun r => feed_chunks rest r.1 r.2))

/-- A device structure in simulation mode (`fd = 3`, exposure 200, gains 31, 25, 40,
offset (0,0)) with the given size, raw flag and ring contents; the cursor fields are
zero as in the zero-initialised global `dcm300_device`. -/
def sim_device (w h : Nat) (raw : Int) (mem : Int → Nat) : dcm300 where
  fd := 3
  usb_dev_handle := false
  simulation := 1
  x := 0
  y := 0
  w := w
  h := h
  exposure := 200
  red := 31
  green := 25
  blue := 40
  raw := raw
  bayer_from := 0
  bayer_read := 0
  bayer_end := 0
  bayer_width := 0
  bayer_circular := mem

/-- The device structure as `main` sets it up for real hardware: `w = 2048`, `h = 1536`,
offset (0,0), an open USB handle, the cursor fields zero. -/
def main_device (raw : Int) (mem : Int → Nat) : dcm300 where
  fd := 0
  usb_dev_handle := true
  simulation := 0
  x := 0
  y := 0
  w := 2048
  h := 1536
  exposure := 200
  red := 31
  green := 25
  blue := 40
  raw := raw
  bayer_from := 0
  bayer_read := 0
  bayer_end := 0
  bayer_width := 0
  bayer_circular := mem

/-- A device structure whose cursor is `bayer_from = bayer_read = 0`,
`bayer_width = w`, `bayer_end = bayer_end`, in non-raw mode, with the given ring. -/
def cursor_device (w bayer_end : Int) (mem : Int → Nat) : dcm300 where
  fd := 3
  usb_dev_handle := false
  simulation := 1
  x := 0
  y := 0
  w := w.toNat
  h := 0
  exposure := 200
  red := 31
  green := 25
  blue := 40
  raw := 0
  bayer_from := 0
  bayer_read := 0
  bayer_end := bayer_end
  bayer_width := w
  bayer_circular := mem

/-- A ring that holds the bytes `raw` at offsets `0, 1, ...` and zero elsewhere. -/
def ring_of (raw : List Nat) : Int → Nat := fun a => if 0 ≤ a then raw.getD a.toNat 0 else 0

/-- A USB device that is never reached (simulation mode). -/
def no_usb : usb_device Unit where
  usb_bulk_write := fun _ _ => (0, ())
  usb_bulk_read := fun _ _ => ((0, []), ())

/-- The simulation world replaying `fixture`, the descriptor open at offset 0. -/
def sim_world (fixture : List Nat) : world Unit where
  file := fixture
  offset := 0
  fd_open := true
  usb := ()

/-- The hardware world: no raw image file, a USB device about to send `reply`. -/
def usb_world (reply : List Nat) : world (List Nat) where
  file := []
  offset := 0
  fd_open := false
  usb := reply

/-- A device structure for real hardware (an open USB handle, exposure 200, gains 31, 25,
40, offset (0,0)) with the given size and raw flag; the cursor fields and the ring are
zero as in the zero-initialised global `dcm300_device`. -/
def usb_camera (w h : Nat) (raw : Int) : dcm300 where
  fd := 0
  usb_dev_handle := true
  simulation := 0
  x := 0
  y := 0
  w := w
  h := h
  exposure := 200
  red := 31
  green := 25
  blue := 40
  raw := raw
  bayer_from := 0
  bayer_read := 0
  bayer_end := 0
  bayer_width := 0
  bayer_circular := fun _ => 0

/-- The hardware world with a journal: a USB device about to send `reply`, no call made
so far. -/
def journal_world (reply : List Nat) : world (List Nat × List usb_call) where
  file := []
  offset := 0
  fd_open := false
  usb := (reply, [])

/-! ## Theorems: the loops of the demosaic engine -/

theorem ok_bind {ε α β : Type} (a : α) (f : α → Except ε β) :
    (Except.ok a : Except ε α).bind f = f a := rfl

theorem ok_map {ε α β : Type} (a : α) (f : α → β) :
    Except.map f (Except.ok a : Except ε α) = Except.ok (f a) := rfl

theorem error_bind {ε α β : Type} (e : ε) (f : α → Except ε β) :
    (Except.error e : Except ε α).bind f = Except.error e := rfl

theorem error_map {ε α β : Type} (e : ε) (f : α → β) :
    Except.map f (Except.error e : Except ε α) = Except.error e := rfl

theorem bayer_pixel_length (mem : Int → Nat) (w j : Int) :
    (bayer_pixel mem w j).length = 3 := rfl

theorem row_pixels_zero (mem : Int → Nat) (w j : Int) : row_pixels mem w j 0 = [] := rfl

theorem row_pixels_succ (mem : Int → Nat) (w j : Int) (k : Nat) :
    row_pixels mem w j (k + 1) = bayer_pixel mem w j ++ row_pixels mem w (j + 2) k := by
  unfold row_pixels
  rw [List.range_succ_eq_map, List.flatMap_cons, List.flatMap_map]
  congr 1
  · simp
  · congr 1
    funext c
    congr 1
    push_cast
    ring

theorem row_pixels_length (mem : Int → Nat) (w j : Int) (k : Nat) :
    (row_pixels mem w j k).length = 3 * k := by
  induction k generalizing j with
  | zero => rfl
  | succ k ih => rw [row_pixels_succ, List.length_append, ih, bayer_pixel_length]; omega

theorem bayer_columns_run (mem : Int → Nat) (w i : Int) :
    ∀ (k fuel : Nat) (j : Int) (rgb : List Nat), k ≤ fuel → 0 ≤ j →
      i + w ≤ j + 2 * (k : Int) →
      (k ≠ 0 → j + 2 * ((k : Int) - 1) < i + w) → rgb.length + 3 * k ≤ RGB_MAX →
      bayer_columns mem w i fuel j rgb = .ok (rgb ++ row_pixels mem w j k, false) := by
  intro k
  induction k with
  | zero =>
    intro fuel j rgb _ _ h1 _ _
    have hj : ¬ j < i + w := by simp at h1; omega
    cases fuel <;> simp [bayer_columns, hj, row_pixels_zero]
  | succ k ih =>
    intro fuel j rgb hf hj0 h1 h2 h3
    obtain ⟨fuel, rfl⟩ : ∃ f, fuel = f + 1 := ⟨fuel - 1, by omega⟩
    have hj : j < i + w := by
      have := h2 (by omega)
      push_cast at this
      omega
    have hlen : ¬ RGB_MAX < (rgb ++ bayer_pixel mem w j).length := by
      rw [List.length_append, bayer_pixel_length]; omega
    rw [bayer_columns, if_pos hj, if_neg (by omega), if_neg (by omega), if_neg hlen,
      ih fuel (j + 2) _ (by omega) (by omega)
      (by push_cast at h1; omega) (by intro hk; omega)
      (by rw [List.length_append, bayer_pixel_length]; omega), row_pixels_succ,
      List.append_assoc]

theorem rows_pixels_zero (mem : Int → Nat) (w i : Int) (p : Nat) :
    rows_pixels mem w i p 0 = [] := rfl

theorem rows_pixels_succ (mem : Int → Nat) (w i : Int) (p n : Nat) :
    rows_pixels mem w i p (n + 1)
      = row_pixels mem w i p ++ rows_pixels mem w (i + 2 * w) p n := by
  unfold rows_pixels
  rw [List.range_succ_eq_map, List.flatMap_cons, List.flatMap_map]
  congr 1
  · simp
  · congr 1
    funext r
    congr 1
    push_cast
    ring

theorem rows_pixels_length (mem : Int → Nat) (w i : Int) (p n : Nat) :
    (rows_pixels mem w i p n).length = 3 * p * n := by
  induction n generalizing i with
  | zero => rfl
  | succ n ih =>
    rw [rows_pixels_succ, List.length_append, ih, row_pixels_length]; ring

/-- Without the ceiling being reached, `n` iterations of the rows loop store the pixels
of `n` row pairs and leave `i` at `bayer_last`. -/
theorem bayer_rows_run (mem : Int → Nat) (w : Int) (p : Nat) (hw : 1 ≤ w)
    (hp1 : w ≤ 2 * (p : Int)) (hp2 : 2 * ((p : Int) - 1) < w) :
    ∀ (n fuel : Nat) (i last : Int) (rgb : List Nat), n ≤ fuel → 0 ≤ i →
      last = i + (n : Int) * (2 * w) → rgb.length + 3 * p * n ≤ RGB_MAX →
      bayer_rows mem w last fuel i rgb = .ok (last, rgb ++ rows_pixels mem w i p n) := by
  intro n
  induction n with
  | zero =>
    intro fuel i last rgb _ _ h1 _
    have hi : ¬ i < last := by simp at h1; omega
    cases fuel <;> simp [bayer_rows, hi, rows_pixels_zero] <;> omega
  | succ n ih =>
    intro fuel i last rgb hf hi0 h1 h3
    obtain ⟨fuel, rfl⟩ : ∃ f, fuel = f + 1 := ⟨fuel - 1, by omega⟩
    have hi : i < last := by
      push_cast at h1
      nlinarith
    have hpw : p ≤ w.toNat := by omega
    have hcols := bayer_columns_run mem w i p w.toNat i rgb hpw hi0 (by omega)
      (by intro _; omega) (by nlinarith)
    rw [bayer_rows, if_pos hi, hcols]
    simp only [ok_bind, Bool.false_eq_true, if_false]
    rw [ih fuel (i + 2 * w) last _ (by omega) (by omega) (by push_cast at h1; linarith)
      (by rw [List.length_append, row_pixels_length]; nlinarith), rows_pixels_succ,
      List.append_assoc]

/-- The remainder taken in `bayer_last`, when `n` whole row pairs of `m` bytes fit. -/
theorem tmod_row_pairs (x m : Int) (n : Nat) (h1 : (n : Int) * m ≤ x)
    (h2 : x < ((n : Int) + 1) * m) : Int.tmod x m = x - (n : Int) * m := by
  have hm : 0 < m := by nlinarith
  have hx : 0 ≤ x := by
    have : 0 ≤ (n : Int) * m := by positivity
    omega
  rw [Int.tmod_eq_emod hx hm.le]
  have hx2 : x = (x - (n : Int) * m) + (n : Int) * m := by ring
  rw [hx2, Int.add_mul_emod_self, Int.emod_eq_of_lt (by linarith) (by linarith)]
  ring

/-- One call of `dcm300_output_bayer` that does not reach the output ceiling: `n` whole
row pairs lie between `bayer_from` and `bayer_stop`, each giving `p` pixels. -/
theorem output_bayer_run (d : dcm300) (len : Int) (out : List Nat) (p n : Nat)
    (hw : 1 ≤ d.bayer_width) (hp1 : d.bayer_width ≤ 2 * (p : Int))
    (hp2 : 2 * ((p : Int) - 1) < d.bayer_width) (hf0 : 0 ≤ d.bayer_from)
    (h1 : d.bayer_from + (n : Int) * (2 * d.bayer_width) ≤ bayer_stop d len)
    (h2 : bayer_stop d len < d.bayer_from + ((n : Int) + 1) * (2 * d.bayer_width))
    (h3 : 3 * p * n ≤ RGB_MAX) :
    dcm300_output_bayer d len out =
      .ok ({ d with bayer_from := d.bayer_from + (n : Int) * (2 * d.bayer_width),
                     bayer_read := d.bayer_from + (n : Int) * (2 * d.bayer_width) },
            out ++ rows_pixels d.bayer_circular d.bayer_width d.bayer_from p n) := by
  have hlast : bayer_last d len = d.bayer_from + (n : Int) * (2 * d.bayer_width) := by
    unfold bayer_last
    rw [tmod_row_pairs (bayer_stop d len - d.bayer_from) (2 * d.bayer_width) n
      (by linarith) (by linarith)]
    ring
  have hne : ¬ 2 * d.bayer_width = 0 := by omega
  have hfuel : n ≤ (bayer_last d len - d.bayer_from).toNat := by
    rw [hlast]
    have : (n : Int) ≤ (n : Int) * (2 * d.bayer_width) := by nlinarith
    omega
  unfold dcm300_output_bayer
  rw [if_neg hne, bayer_rows_run d.bayer_circular d.bayer_width p hw hp1 hp2 n _ d.bayer_from
    (bayer_last d len) [] hfuel hf0 hlast (by simpa using h3)]
  simp [ok_map, hlast]

theorem flatMap_range_congr {α : Type} (n : Nat) (f g : Nat → List α)
    (h : ∀ k, k < n → f k = g k) : (List.range n).flatMap f = (List.range n).flatMap g := by
  induction n with
  | zero => rfl
  | succ n ih =>
    rw [List.range_succ, List.flatMap_append, List.flatMap_append,
      ih (fun k hk => h k (by omega))]
    simp [h n (by omega)]

theorem getD_lt_256 (data : List Nat) (hb : ∀ b ∈ data, b < 256) (k : Nat) :
    data.getD k 0 < 256 := by
  by_cases hk : k < data.length
  · rw [List.getD_eq_getElem _ _ hk]
    exact hb _ (List.getElem_mem _)
  · rw [List.getD_eq_default _ _ (by omega)]
    omega

/-- A pixel computed from the ring is the pixel of the reference formula, when the ring
holds the frame bytes at the stream positions `f, f + 1, ...`. -/
theorem bayer_pixel_eq_demosaic (mem : Int → Nat) (w : Nat) (f : Int) (data : List Nat)
    (n r c : Nat) (hw : w % 2 = 0) (hr : r < n) (hc : c < w / 2)
    (hmem : ∀ k : Nat, k < 2 * w * n →
      mem (Int.tmod (f + (k : Int)) BAYER_CIRCULAR) = data.getD k 0)
    (hb : ∀ b ∈ data, b < 256) :
    bayer_pixel mem w (f + (r : Int) * (2 * (w : Int)) + 2 * (c : Int))
      = demosaic_pixel w data r c := by
  have hrow : 2 * w * (r + 1) ≤ 2 * w * n := Nat.mul_le_mul_left _ (by omega)
  have e0 : f + (r : Int) * (2 * (w : Int)) + 2 * (c : Int)
      = f + ((2 * r * w + 2 * c : Nat) : Int) := by push_cast; ring
  have e1 : f + (r : Int) * (2 * (w : Int)) + 2 * (c : Int) + 1
      = f + ((2 * r * w + 2 * c + 1 : Nat) : Int) := by push_cast; ring
  have e2 : f + (r : Int) * (2 * (w : Int)) + 2 * (c : Int) + (w : Int)
      = f + (((2 * r + 1) * w + 2 * c : Nat) : Int) := by push_cast; ring
  have e3 : f + (r : Int) * (2 * (w : Int)) + 2 * (c : Int) + (w : Int) + 1
      = f + (((2 * r + 1) * w + 2 * c + 1 : Nat) : Int) := by push_cast; ring
  have hcw : 2 * c + 2 ≤ w := by omega
  have b0 : 2 * r * w + 2 * c < 2 * w * n := by linarith
  have b1 : 2 * r * w + 2 * c + 1 < 2 * w * n := by linarith
  have b2 : (2 * r + 1) * w + 2 * c < 2 * w * n := by linarith
  have b3 : (2 * r + 1) * w + 2 * c + 1 < 2 * w * n := by linarith
  unfold bayer_pixel demosaic_pixel
  rw [e3, e2, e1, e0, hmem _ b0, hmem _ b1, hmem _ b2, hmem _ b3]
  have g0 := getD_lt_256 data hb (2 * r * w + 2 * c)
  have g1 := getD_lt_256 data hb (2 * r * w + 2 * c + 1)
  have g2 := getD_lt_256 data hb ((2 * r + 1) * w + 2 * c)
  have g3 := getD_lt_256 data hb ((2 * r + 1) * w + 2 * c + 1)
  rw [Nat.mod_eq_of_lt g0, Nat.mod_eq_of_lt g3, Nat.mod_eq_of_lt (by omega)]

/-- The bytes stored for `n` row pairs are the reference demosaic of the frame held by
the ring. -/
theorem rows_pixels_eq_demosaic (mem : Int → Nat) (w : Nat) (f : Int) (data : List Nat)
    (n : Nat) (hw : w % 2 = 0)
    (hmem : ∀ k : Nat, k < 2 * w * n →
      mem (Int.tmod (f + (k : Int)) BAYER_CIRCULAR) = data.getD k 0)
    (hb : ∀ b ∈ data, b < 256) :
    rows_pixels mem w f (w / 2) n = demosaic w (2 * n) data := by
  unfold rows_pixels demosaic
  rw [Nat.mul_div_cancel_left n (by omega : 0 < 2)]
  apply flatMap_range_congr
  intro r hr
  unfold row_pixels demosaic_row
  apply flatMap_range_congr
  intro c hc
  exact bayer_pixel_eq_demosaic mem w f data n r c hw hr hc hmem hb

theorem length_flatMap_range {α : Type} (n m : Nat) (f : Nat → List α)
    (h : ∀ k, (f k).length = m) : ((List.range n).flatMap f).length = m * n := by
  induction n with
  | zero => rfl
  | succ n ih =>
    rw [List.range_succ, List.flatMap_append, List.length_append, ih]
    simp [h n, Nat.mul_succ]

theorem demosaic_length (w h : Nat) (raw : List Nat) :
    (demosaic w h raw).length = 3 * (w / 2) * (h / 2) := by
  unfold demosaic
  apply length_flatMap_range
  intro r
  unfold demosaic_row
  exact length_flatMap_range (w / 2) 3 (demosaic_pixel w raw r) (fun c => rfl)

/-- One call of `dcm300_output_bayer` on a ring that holds the bytes `data` at the stream
positions from `bayer_from` on, for an even width and below the output ceiling: the call
emits the reference demosaic of the `n` whole row pairs and advances the cursor past
them. -/
theorem output_bayer_chunk (d : dcm300) (len : Int) (out : List Nat) (w n : Nat)
    (data : List Nat) (hwd : d.bayer_width = (w : Int)) (hw2 : 2 ≤ w) (hw : w % 2 = 0)
    (hf0 : 0 ≤ d.bayer_from)
    (h1 : d.bayer_from + (n : Int) * (2 * (w : Int)) ≤ bayer_stop d len)
    (h2 : bayer_stop d len < d.bayer_from + ((n : Int) + 1) * (2 * (w : Int)))
    (h3 : 3 * (w / 2) * n ≤ RGB_MAX)
    (hmem : ∀ k : Nat, k < 2 * w * n →
      d.bayer_circular (Int.tmod (d.bayer_from + (k : Int)) BAYER_CIRCULAR) = data.getD k 0)
    (hb : ∀ b ∈ data, b < 256) :
    dcm300_output_bayer d len out =
      .ok ({ d with bayer_from := d.bayer_from + (n : Int) * (2 * (w : Int)),
                     bayer_read := d.bayer_from + (n : Int) * (2 * (w : Int)) },
            out ++ demosaic w (2 * n) data) := by
  rw [output_bayer_run d len out (w / 2) n (by omega) (by omega) (by omega) hf0
    (by rw [hwd]; exact h1) (by rw [hwd]; exact h2) h3, hwd,
    rows_pixels_eq_demosaic d.bayer_circular w d.bayer_from data n hw hmem hb]

/-- C1: with an even width `w >= 2`, an even height `h >= 2`, `w*h <= 16384`, the ring
holding the `w*h` raw bytes at offsets `0 .. w*h - 1` and the cursor at
`bayer_from = bayer_read = 0`, `bayer_width = w`, `bayer_end = w*h`, one call
`dcm300_output_bayer(len = w*h)` appends to the sink exactly the `3*(w/2)*(h/2)` bytes of
the raster-order demosaic (`R = raw[2r*w + 2c]`,
`G = (raw[2r*w + 2c + 1] + raw[(2r+1)*w + 2c]) / 2`, `B = raw[(2r+1)*w + 2c + 1]`). -/
theorem output_bayer_whole_frame (d : dcm300) (w h : Nat) (raw out : List Nat)
    (hw2 : 2 ≤ w) (hw : w % 2 = 0) (_hh2 : 2 ≤ h) (hh : h % 2 = 0) (hsize : w * h ≤ 16384)
    (hlen : raw.length = w * h) (hb : ∀ b ∈ raw, b < 256)
    (hfrom : d.bayer_from = 0) (hread : d.bayer_read = 0)
    (hwidth : d.bayer_width = (w : Int)) (hend : d.bayer_end = ((w * h : Nat) : Int))
    (hring : ∀ k : Nat, k < w * h → d.bayer_circular (k : Int) = raw.getD k 0) :
    dcm300_output_bayer d ((w * h : Nat) : Int) out =
        .ok ({ d with bayer_from := ((w * h : Nat) : Int),
                       bayer_read := ((w * h : Nat) : Int) },
              out ++ demosaic w h raw) ∧
      (demosaic w h raw).length = 3 * (w / 2) * (h / 2) ∧
      demosaic w h raw =
        (List.range (h / 2)).flatMap (fun r => (List.range (w / 2)).flatMap (fun c =>
          [ raw.getD (2 * r * w + 2 * c) 0,
            (raw.getD (2 * r * w + 2 * c + 1) 0 + raw.getD ((2 * r + 1) * w + 2 * c) 0) / 2,
            raw.getD ((2 * r + 1) * w + 2 * c + 1) 0 ])) := by
  refine ⟨?_, demosaic_length w h raw, rfl⟩
  have hh' : 2 * (h / 2) = h := by omega
  have hwh : 2 * w * (h / 2) = w * h := by rw [Nat.mul_assoc, Nat.mul_left_comm, hh']
  have hstop : bayer_stop d ((w * h : Nat) : Int) = ((w * h : Nat) : Int) := by
    unfold bayer_stop
    rw [hread, hend]
    simp
  have hpix : 3 * (w / 2) * (h / 2) ≤ RGB_MAX := by
    have : 4 * ((w / 2) * (h / 2)) = w * h := by
      have e : 2 * (w / 2) = w := by omega
      calc 4 * ((w / 2) * (h / 2)) = (2 * (w / 2)) * (2 * (h / 2)) := by ring
        _ = w * h := by rw [e, hh']
    have hr : RGB_MAX = 12288 := by decide
    rw [hr, Nat.mul_assoc]
    omega
  have hcast : (((h / 2 : Nat) : Int)) * (2 * (w : Int)) = ((w * h : Nat) : Int) := by
    rw [← hwh]; push_cast; ring
  rw [output_bayer_chunk d _ out w (h / 2) raw hwidth hw2 hw (by omega)
    (by rw [hstop, hfrom, hcast]; omega)
    (by rw [hstop, hfrom]; have := hcast; nlinarith) hpix
    (by
      intro k hk
      rw [hwh] at hk
      rw [hfrom, Int.zero_add, Int.tmod_eq_of_lt (by omega)
        (by have : BAYER_CIRCULAR = 32768 := rfl; omega)]
      exact hring k hk) hb, hh', hfrom, hcast]
  simp

theorem output_bayer_whole_frame_witness :
    (dcm300_output_bayer (cursor_device 4 16 (ring_of
        [10, 20, 30, 40, 50, 60, 70, 80, 90, 100, 110, 120, 130, 140, 150, 161])) 16 []).map
      (fun r => r.2)
      = .ok [10, 35, 60, 30, 55, 80, 90, 115, 140, 110, 135, 161] ∧
    (demosaic 4 4
      [10, 20, 30, 40, 50, 60, 70, 80, 90, 100, 110, 120, 130, 140, 150, 161]).length
      = 2 * 2 * 3 := by
  have h := output_bayer_whole_frame
    (cursor_device 4 16 (ring_of
      [10, 20, 30, 40, 50, 60, 70, 80, 90, 100, 110, 120, 130, 140, 150, 161])) 4 4
    [10, 20, 30, 40, 50, 60, 70, 80, 90, 100, 110, 120, 130, 140, 150, 161] []
    (by decide) (by decide) (by decide) (by decide) (by decide) (by decide) (by decide)
    rfl rfl rfl rfl
    (by
      intro k hk
      have hk' : k < 16 := hk
      interval_cases k <;> rfl)
  refine ⟨?_, by decide⟩
  rw [show (((4 * 4 : Nat) : Int)) = 16 from rfl] at h
  rw [h.1, ok_map]
  exact congrArg Except.ok (by decide)

/-- The inner loop when `q` more pixels fit into `rgb_array` and a further pixel is due:
its stores go past the end of `rgb_array`. -/
theorem bayer_columns_overrun (mem : Int → Nat) (w i : Int) :
    ∀ (q fuel : Nat) (j : Int) (rgb : List Nat), q + 1 ≤ fuel → 0 ≤ j →
      j + 2 * (q : Int) < i + w → rgb.length + 3 * q ≤ RGB_MAX →
      RGB_MAX < rgb.length + 3 * (q + 1) →
      bayer_columns mem w i fuel j rgb = .error .rgb_array_overrun := by
  intro q
  induction q with
  | zero =>
    intro fuel j rgb hf hj0 h1 _ h3
    obtain ⟨fuel, rfl⟩ : ∃ f, fuel = f + 1 := ⟨fuel - 1, by omega⟩
    have hj : j < i + w := by simpa using h1
    rw [bayer_columns, if_pos hj, if_neg (by omega), if_pos (by omega)]
  | succ q ih =>
    intro fuel j rgb hf hj0 h1 h2 h3
    obtain ⟨fuel, rfl⟩ : ∃ f, fuel = f + 1 := ⟨fuel - 1, by omega⟩
    have hj : j < i + w := by push_cast at h1; omega
    have hlen : ¬ RGB_MAX < (rgb ++ bayer_pixel mem w j).length := by
      rw [List.length_append, bayer_pixel_length]; omega
    rw [bayer_columns, if_pos hj, if_neg (by omega), if_neg (by omega), if_neg hlen,
      ih fuel (j + 2) _ (by omega) (by omega)
      (by push_cast at h1; omega) (by rw [List.length_append, bayer_pixel_length]; omega)
      (by rw [List.length_append, bayer_pixel_length]; omega)]

/-- The rows loop when `n` row pairs fit into `rgb_array` and pixel `q` (counted from 0)
of the next row pair does not: the loop runs into the overrun. -/
theorem bayer_rows_overrun (mem : Int → Nat) (w : Int) (p q : Nat) (hw : 1 ≤ w)
    (hp1 : w ≤ 2 * (p : Int)) (hp2 : 2 * ((p : Int) - 1) < w) (hq : q < p) :
    ∀ (n fuel : Nat) (i last : Int) (rgb : List Nat), n + 1 ≤ fuel → 0 ≤ i →
      i + (n : Int) * (2 * w) < last → rgb.length + 3 * p * n + 3 * q ≤ RGB_MAX →
      RGB_MAX < rgb.length + 3 * p * n + 3 * (q + 1) →
      bayer_rows mem w last fuel i rgb = .error .rgb_array_overrun := by
  intro n
  induction n with
  | zero =>
    intro fuel i last rgb hf hi0 h1 h2 h3
    obtain ⟨fuel, rfl⟩ : ∃ f, fuel = f + 1 := ⟨fuel - 1, by omega⟩
    have hi : i < last := by simpa using h1
    have hcols := bayer_columns_overrun mem w i q w.toNat i rgb (by omega) hi0 (by omega)
      (by simpa using h2) (by simpa using h3)
    rw [bayer_rows, if_pos hi, hcols, error_bind]
  | succ n ih =>
    intro fuel i last rgb hf hi0 h1 h2 h3
    obtain ⟨fuel, rfl⟩ : ∃ f, fuel = f + 1 := ⟨fuel - 1, by omega⟩
    have hi : i < last := by
      push_cast at h1
      nlinarith
    have hcols := bayer_columns_run mem w i p w.toNat i rgb (by omega) hi0 (by omega)
      (by intro _; omega) (by nlinarith)
    rw [bayer_rows, if_pos hi, hcols]
    simp only [ok_bind, Bool.false_eq_true, if_false]
    exact ih fuel (i + 2 * w) last _ (by omega) (by omega) (by push_cast at h1; linarith)
      (by rw [List.length_append, row_pixels_length]; nlinarith)
      (by rw [List.length_append, row_pixels_length]; nlinarith)

/-- One call of `dcm300_output_bayer` with more pixels between `bayer_from` and
`bayer_last` than `rgb_array` can hold: `n` row pairs and `q` pixels of the next one fit,
one more pixel is due (`m > n` whole row pairs are there), and its stores leave the
array. -/
theorem output_bayer_overrun (d : dcm300) (len : Int) (out : List Nat) (p q n m : Nat)
    (hw : 1 ≤ d.bayer_width) (hp1 : d.bayer_width ≤ 2 * (p : Int))
    (hp2 : 2 * ((p : Int) - 1) < d.bayer_width) (hq : q < p) (hnm : n < m)
    (hf0 : 0 ≤ d.bayer_from)
    (h1 : d.bayer_from + (m : Int) * (2 * d.bayer_width) ≤ bayer_stop d len)
    (h2 : bayer_stop d len < d.bayer_from + ((m : Int) + 1) * (2 * d.bayer_width))
    (h3 : 3 * p * n + 3 * q ≤ RGB_MAX) (h4 : RGB_MAX < 3 * p * n + 3 * (q + 1)) :
    dcm300_output_bayer d len out = .error .rgb_array_overrun := by
  have hlast : bayer_last d len = d.bayer_from + (m : Int) * (2 * d.bayer_width) := by
    unfold bayer_last
    rw [tmod_row_pairs (bayer_stop d len - d.bayer_from) (2 * d.bayer_width) m
      (by linarith) (by linarith)]
    ring
  have hne : ¬ 2 * d.bayer_width = 0 := by omega
  have hnm' : (n : Int) + 1 ≤ (m : Int) := by omega
  have hfuel : n + 1 ≤ (bayer_last d len - d.bayer_from).toNat := by
    rw [hlast]
    have : (m : Int) ≤ (m : Int) * (2 * d.bayer_width) := by nlinarith
    omega
  unfold dcm300_output_bayer
  rw [if_neg hne, bayer_rows_overrun d.bayer_circular d.bayer_width p q hw hp1 hp2 hq n _
    d.bayer_from (bayer_last d len) [] hfuel hf0 (by rw [hlast]; nlinarith)
    (by simpa using h3) (by simpa using h4), error_map]

/-- The overrun behind C6 for any device structure with `bayer_width = 1`,
`bayer_from = bayer_read = 0` and `bayer_end = 16384`: a chunk of 16384 bytes holds 8192
row pairs of one pixel each; after 4096 pixels `irgb` is exactly `RGB_MAX`, the test
`irgb > RGB_MAX` has not fired, and the next pixel is stored at indices 12288..12290. -/
theorem output_bayer_width_one (d : dcm300) (out : List Nat) (hw : d.bayer_width = 1)
    (hfrom : d.bayer_from = 0) (hread : d.bayer_read = 0) (hend : d.bayer_end = 16384) :
    dcm300_output_bayer d 16384 out = .error .rgb_array_overrun := by
  have hstop : bayer_stop d 16384 = 16384 := by
    unfold bayer_stop; rw [hread, hend]; simp
  have hR : RGB_MAX = 12288 := by decide
  exact output_bayer_overrun d 16384 out 1 0 4096 8192 (by omega) (by omega) (by omega)
    (by omega) (by omega) (by omega) (by rw [hstop, hfrom, hw]; norm_num)
    (by rw [hstop, hfrom, hw]; norm_num) (by rw [hR]) (by rw [hR]; norm_num)

/-- C6 (the code overruns its scratch buffer): the cursor `bayer_from = bayer_read = 0`,
`bayer_width = 1`, `bayer_end = 16384` with a chunk of `len = 16384` satisfies the
invariants of the claim (`0 <= bayer_from <= bayer_read <= bayer_end`, `bayer_width >= 1`,
live window at most 32768, `1 <= len <= MAXBULK`), and yet, whatever the ring holds, one
call of `dcm300_output_bayer` stores a byte at an index `>= RGB_MAX` of `rgb_array`:
4096 pixels fill the array exactly, the test `irgb > RGB_MAX` does not fire, and the
4097th pixel goes to the indices 12288, 12289 and 12290. -/
theorem output_bayer_overruns_rgb_array (mem : Int → Nat) :
    (0 ≤ (cursor_device 1 16384 mem).bayer_from ∧
     (cursor_device 1 16384 mem).bayer_from ≤ (cursor_device 1 16384 mem).bayer_read ∧
     (cursor_device 1 16384 mem).bayer_read ≤ (cursor_device 1 16384 mem).bayer_end ∧
     1 ≤ (cursor_device 1 16384 mem).bayer_width ∧
     (cursor_device 1 16384 mem).bayer_read + 16384 - (cursor_device 1 16384 mem).bayer_from
       ≤ 32768 ∧ 16384 ≤ MAXBULK) ∧
    dcm300_output_bayer (cursor_device 1 16384 mem) 16384 [] = .error .rgb_array_overrun :=
  ⟨by simp [cursor_device, MAXBULK],
   output_bayer_width_one (cursor_device 1 16384 mem) [] rfl rfl rfl rfl⟩

/-- C2 (chunk boundaries change the output): raw stream `[1, 2, 3, 4]`, width 2,
`bayer_end = 4`, cursor at 0.  Fed as one chunk the engine emits the pixel `[1, 2, 4]`;
fed as the two chunks `[1, 2]`, `[3, 4]`, or byte by byte, it emits nothing, because
`dcm300_output_bayer` sets `bayer_read` back to the last row-pair boundary and the next
chunk overwrites the bytes not yet processed. -/
theorem chunked_feed_loses_rows :
    (feed_chunks [[1, 2, 3, 4]] (cursor_device 2 4 (fun _ => 0)) []).toOption.map
      (fun r => r.2) = some [1, 2, 4] ∧
    (feed_chunks [[1, 2], [3, 4]] (cursor_device 2 4 (fun _ => 0)) []).toOption.map
      (fun r => r.2) = some [] ∧
    (feed_chunks [[1], [2], [3], [4]] (cursor_device 2 4 (fun _ => 0)) []).toOption.map
      (fun r => r.2) = some [] ∧
    (feed_chunks [[1, 2], [3, 4]] (cursor_device 2 4 (fun _ => 0)) []).toOption.map
      (fun r => (r.1.bayer_from, r.1.bayer_read)) = some (0, 0) := by
  decide

/-! ## Theorems: the request encoder -/

theorem create_request_bytes (d : dcm300) :
    (dcm300_create_request d).bytes =
      [0x2c, 0, 0x0e, 0, 0x01, 0, 0, 0, 0, 0, 0, 0, 0x20, 0, 0xbf, 0x05,
       d.h % 256, d.h / 256 % 256, 0, 0, d.w % 256, d.w / 256 % 256, 0, 0,
       d.x % 256, d.x / 256 % 256, 0, 0, d.y % 256, d.y / 256 % 256, 0, 0,
       (d.exposure + 20) % 256, (d.exposure + 20) / 256 % 256, 0, 0,
       toU8 d.red, toU8 d.green, toU8 d.blue, 0, 0x02,
       0, 0, 0, 0, 0, 0, 0, 0, 0, 0, 0, 0, 0, 0, 0, 0, 0, 0, 0, 0, 0, 0, 0] := by
  simp [dcm300_create_request, dcm300_request.bytes, dcm300_request.zero, List.replicate]

theorem sane_create_request_bytes (s : Sane.dcm300_snapshot) :
    (Sane.dcm300_create_request s).bytes =
      [0x2c, 0, 0x0e, 0, 0x01, 0, 0, 0, 0, 0, 0, 0, 0x20, 0, 0xbf, 0x05,
       s.resolution_y % 256, s.resolution_y / 256 % 256, 0, 0,
       s.resolution_x % 256, s.resolution_x / 256 % 256, 0, 0,
       s.offset_x % 256, s.offset_x / 256 % 256, 0, 0,
       s.offset_y % 256, s.offset_y / 256 % 256, 0, 0,
       (s.exposure + 20) % 2 ^ 32 % 256, (s.exposure + 20) % 2 ^ 32 / 256 % 256, 0, 0,
       s.gain_red % 256, s.gain_green % 256, s.gain_blue % 256, 0, 0x02,
       0, 0, 0, 0, 0, 0, 0, 0, 0, 0, 0, 0, 0, 0, 0, 0, 0, 0, 0, 0, 0, 0, 0] := by
  simp [Sane.dcm300_create_request, dcm300_request.bytes, dcm300_request.zero, List.replicate]

theorem toU8_signed (v : Int) (h1 : -128 ≤ v) (h2 : v ≤ 127) :
    toU8 v = (if 0 ≤ v then v else v + 256).toNat := by
  unfold toU8
  split <;> omega

theorem sim_device_wf (w h : Nat) (raw : Int) (mem : Int → Nat) (hw : w < 65536)
    (hh : h < 65536) : (sim_device w h raw mem).wf := by
  refine ⟨?_, ?_, hw, hh, ?_, ⟨?_, ?_⟩, ⟨?_, ?_⟩, ⟨?_, ?_⟩⟩ <;> simp [sim_device]

/-- C3: for every parameter set (16-bit `w, h, x, y, exposure`, signed 8-bit gains),
`dcm300_create_request` of `dcm300.c` fills a request of exactly 64 bytes: byte 0 is
`0x2c`, 2 is `0x0e`, 4 is `0x01`, 12 is `0x20`, 14 is `0xbf`, 15 is `0x05`, 40 is `0x02`;
bytes 16,17 are `h` low, high; 20,21 are `w`; 24,25 are `x`; 28,29 are `y`; 32,33 are the
low and high byte of `exposure + 20`; 36,37,38 are the gains as two's-complement bytes;
every other byte is zero. -/
theorem create_request_layout (d : dcm300) (hd : d.wf) :
    (dcm300_create_request d).bytes.length = 64 ∧
    (dcm300_create_request d).bytes =
      [0x2c, 0, 0x0e, 0, 0x01, 0, 0, 0, 0, 0, 0, 0, 0x20, 0, 0xbf, 0x05,
       d.h % 256, d.h / 256, 0, 0, d.w % 256, d.w / 256, 0, 0,
       d.x % 256, d.x / 256, 0, 0, d.y % 256, d.y / 256, 0, 0,
       (d.exposure + 20) % 256, (d.exposure + 20) / 256 % 256, 0, 0,
       (if 0 ≤ d.red then d.red else d.red + 256).toNat,
       (if 0 ≤ d.green then d.green else d.green + 256).toNat,
       (if 0 ≤ d.blue then d.blue else d.blue + 256).toNat, 0, 0x02]
      ++ List.replicate 23 0 := by
  obtain ⟨hx, hy, hw, hh, he, hr, hg, hb⟩ := hd
  rw [create_request_bytes, toU8_signed _ hr.1 hr.2, toU8_signed _ hg.1 hg.2,
    toU8_signed _ hb.1 hb.2]
  have e1 : d.h / 256 % 256 = d.h / 256 := Nat.mod_eq_of_lt (by omega)
  have e2 : d.w / 256 % 256 = d.w / 256 := Nat.mod_eq_of_lt (by omega)
  have e3 : d.x / 256 % 256 = d.x / 256 := Nat.mod_eq_of_lt (by omega)
  have e4 : d.y / 256 % 256 = d.y / 256 := Nat.mod_eq_of_lt (by omega)
  rw [e1, e2, e3, e4]
  simp [List.replicate]

theorem create_request_layout_witness :
    (sim_device 2048 1536 0 (fun _ => 0)).wf ∧
    (dcm300_create_request (sim_device 2048 1536 0 (fun _ => 0))).bytes =
      [0x2c, 0, 0x0e, 0, 0x01, 0, 0, 0, 0, 0, 0, 0, 0x20, 0, 0xbf, 0x05,
       0, 6, 0, 0, 0, 8, 0, 0, 0, 0, 0, 0, 0, 0, 0, 0, 220, 0, 0, 0, 31, 25, 40, 0, 0x02]
      ++ List.replicate 23 0 :=
  ⟨sim_device_wf 2048 1536 0 _ (by decide) (by decide),
   (create_request_layout (sim_device 2048 1536 0 (fun _ => 0))
      (sim_device_wf 2048 1536 0 _ (by decide) (by decide))).2.trans (by decide)⟩

/-- C4: for both copies of the request encoder and each of `resolution_x`,
`resolution_y`, `offset_x`, `offset_y` (16-bit in `dcm300.c`, 32-bit unsigned in the
SANE copy), the two bytes written for the field decode by `lo + 256*hi` to the value
modulo 65536; so a value below 65536 round-trips exactly and a larger one is truncated
to its low 16 bits. -/
theorem encoder_fields_roundtrip (d : dcm300) (hd : d.wf) (s : Sane.dcm300_snapshot)
    (hs : s.wf) :
    (decode16 (dcm300_create_request d).bytes 20 = d.w % 65536 ∧
     decode16 (dcm300_create_request d).bytes 16 = d.h % 65536 ∧
     decode16 (dcm300_create_request d).bytes 24 = d.x % 65536 ∧
     decode16 (dcm300_create_request d).bytes 28 = d.y % 65536) ∧
    (decode16 (dcm300_create_request d).bytes 20 = d.w ∧
     decode16 (dcm300_create_request d).bytes 16 = d.h ∧
     decode16 (dcm300_create_request d).bytes 24 = d.x ∧
     decode16 (dcm300_create_request d).bytes 28 = d.y) ∧
    (decode16 (Sane.dcm300_create_request s).bytes 20 = s.resolution_x % 65536 ∧
     decode16 (Sane.dcm300_create_request s).bytes 16 = s.resolution_y % 65536 ∧
     decode16 (Sane.dcm300_create_request s).bytes 24 = s.offset_x % 65536 ∧
     decode16 (Sane.dcm300_create_request s).bytes 28 = s.offset_y % 65536) ∧
    ((s.resolution_x < 65536 →
        decode16 (Sane.dcm300_create_request s).bytes 20 = s.resolution_x) ∧
     (s.resolution_y < 65536 →
        decode16 (Sane.dcm300_create_request s).bytes 16 = s.resolution_y) ∧
     (s.offset_x < 65536 → decode16 (Sane.dcm300_create_request s).bytes 24 = s.offset_x) ∧
     (s.offset_y < 65536 → decode16 (Sane.dcm300_create_request s).bytes 28 = s.offset_y)) := by
  obtain ⟨hx, hy, hw, hh, -⟩ := hd
  obtain ⟨_, -⟩ := hs
  simp only [create_request_bytes, sane_create_request_bytes, decode16, List.getD_cons_succ,
    List.getD_cons_zero]
  refine ⟨⟨?_, ?_, ?_, ?_⟩, ⟨?_, ?_, ?_, ?_⟩, ⟨?_, ?_, ?_, ?_⟩, ?_, ?_, ?_, ?_⟩ <;>
    omega

theorem encoder_fields_roundtrip_witness :
    decode16 (dcm300_create_request (sim_device 2048 1536 0 (fun _ => 0))).bytes 20 = 2048 ∧
    decode16 (Sane.dcm300_create_request
      { resolution_x := 70000, resolution_y := 1536, offset_x := 0, offset_y := 0,
        exposure := 200, gain_red := 31, gain_green := 25, gain_blue := 40 }).bytes 20
      = 70000 % 65536 :=
  ⟨(encoder_fields_roundtrip (sim_device 2048 1536 0 (fun _ => 0))
      (sim_device_wf 2048 1536 0 _ (by decide) (by decide))
      { resolution_x := 70000, resolution_y := 1536, offset_x := 0, offset_y := 0,
        exposure := 200, gain_red := 31, gain_green := 25, gain_blue := 40 }
      (by simp [Sane.dcm300_snapshot.wf])).2.1.1,
   (encoder_fields_roundtrip (sim_device 2048 1536 0 (fun _ => 0))
      (sim_device_wf 2048 1536 0 _ (by decide) (by decide))
      { resolution_x := 70000, resolution_y := 1536, offset_x := 0, offset_y := 0,
        exposure := 200, gain_red := 31, gain_green := 25, gain_blue := 40 }
      (by simp [Sane.dcm300_snapshot.wf])).2.2.1.1⟩

/-- C5: for every 16-bit exposure `e`, the bytes at offsets 32 and 33 written by
`dcm300_create_request` decode by `lo + 256*hi` to `(e + 20) mod 65536`; for
`e <= 65515` they decode to exactly `e + 20`, so the exposure is `decoded - 20`. -/
theorem encoder_exposure_roundtrip (d : dcm300) (hd : d.wf) :
    decode16 (dcm300_create_request d).bytes 32 = (d.exposure + 20) % 65536 ∧
    (d.exposure ≤ 65515 →
      decode16 (dcm300_create_request d).bytes 32 = d.exposure + 20 ∧
      decode16 (dcm300_create_request d).bytes 32 - 20 = d.exposure) := by
  obtain ⟨_, -⟩ := hd
  simp only [create_request_bytes, decode16, List.getD_cons_succ, List.getD_cons_zero]
  refine ⟨?_, fun h => ?_⟩ <;> omega

theorem encoder_exposure_roundtrip_witness :
    decode16 (dcm300_create_request (sim_device 2048 1536 0 (fun _ => 0))).bytes 32 = 220 ∧
    decode16 (dcm300_create_request (sim_device 2048 1536 0 (fun _ => 0))).bytes 32 - 20
      = 200 :=
  ⟨((encoder_exposure_roundtrip (sim_device 2048 1536 0 (fun _ => 0))
      (sim_device_wf 2048 1536 0 _ (by decide) (by decide))).2 (by decide)).1,
   ((encoder_exposure_roundtrip (sim_device 2048 1536 0 (fun _ => 0))
      (sim_device_wf 2048 1536 0 _ (by decide) (by decide))).2 (by decide)).2⟩

/-! ## Theorems: the ring and raw output -/

theorem store_bytes_inside (mem : Int → Nat) (addr : Nat) (data : List Nat) (k : Nat)
    (hk : k < data.length) :
    store_bytes mem addr data ((addr : Int) + (k : Int)) = data.getD k 0 := by
  unfold store_bytes
  rw [if_pos (by omega)]
  congr 1
  omega

/-- Bytes read back from where they were just stored. -/
theorem load_store_bytes (mem : Int → Nat) (addr : Nat) (data : List Nat) :
    load_bytes (store_bytes mem addr data) addr data.length = data := by
  apply List.ext_getElem
  · simp [load_bytes]
  · intro k h1 h2
    simp only [load_bytes, List.getElem_map, List.getElem_range]
    rw [store_bytes_inside mem addr data k h2, List.getD_eq_getElem _ _ h2]

theorem ring_store_ok (d : dcm300) (data : List Nat)
    (hfit : dcm300_circular d + data.length ≤ BAYER_CIRCULAR) :
    ring_store d data =
      .ok { d with bayer_circular := store_bytes d.bayer_circular (dcm300_circular d) data } := by
  unfold ring_store
  rw [if_pos hfit]

theorem ring_store_inv (d d1 : dcm300) (data : List Nat) (h : ring_store d data = .ok d1) :
    dcm300_circular d + data.length ≤ BAYER_CIRCULAR ∧
    d1 = { d with bayer_circular := store_bytes d.bayer_circular (dcm300_circular d) data } := by
  unfold ring_store at h
  by_cases hfit : dcm300_circular d + data.length ≤ BAYER_CIRCULAR
  · rw [if_pos hfit] at h
    exact ⟨hfit, (Except.ok.inj h).symm⟩
  · rw [if_neg hfit] at h
    exact absurd h (by simp)

/-- Raw mode: `dcm300_output` after a chunk has been stored in the ring emits the bytes
just stored (nothing for an empty chunk) and returns the device structure unchanged. -/
theorem output_raw_chunk (d : dcm300) (chunk out : List Nat) (hraw : d.raw ≠ 0)
    (hfit : dcm300_circular d + chunk.length ≤ BAYER_CIRCULAR) :
    dcm300_output
        { d with bayer_circular := store_bytes d.bayer_circular (dcm300_circular d) chunk }
        (chunk.length : Int) out =
      .ok ({ d with bayer_circular :=
                store_bytes d.bayer_circular (dcm300_circular d) chunk },
           out ++ chunk) := by
  have hc : dcm300_circular
      { d with bayer_circular := store_bytes d.bayer_circular (dcm300_circular d) chunk }
      = dcm300_circular d := rfl
  unfold dcm300_output
  by_cases hlen : (chunk.length : Int) > 0
  · rw [if_pos hlen, if_pos (by exact hraw), Int.toNat_ofNat, hc, if_pos hfit]
    simp only
    rw [load_store_bytes]
  · rw [if_neg hlen]
    have : chunk = [] := List.length_eq_zero.mp (by omega)
    rw [this, List.append_nil]

/-- C10: in raw mode, for every `len > 0`, once the newly received chunk of `len` bytes
has been stored in the ring at the position `dcm300_circular`, `dcm300_output` appends to
the sink exactly those `len` bytes, in order and unmodified (they are the bytes found
from the position `dcm300_circular` on), and returns the device structure unchanged: no
demosaicing, `bayer_from` and `bayer_read` untouched. -/
theorem output_raw_verbatim (d d1 : dcm300) (chunk out : List Nat) (hraw : d.raw ≠ 0)
    (hlen : 0 < chunk.length) (hstore : ring_store d chunk = .ok d1) :
    dcm300_output d1 (chunk.length : Int) out = .ok (d1, out ++ chunk) ∧
      load_bytes d1.bayer_circular (dcm300_circular d1) chunk.length = chunk ∧
      d1.bayer_from = d.bayer_from ∧ d1.bayer_read = d.bayer_read := by
  obtain ⟨hfit, rfl⟩ := ring_store_inv d d1 chunk hstore
  have _ := hlen
  exact ⟨output_raw_chunk d chunk out hraw hfit, load_store_bytes _ _ _, rfl, rfl⟩

theorem output_raw_verbatim_witness :
    ring_store (sim_device 256 256 1 (fun _ => 0)) [7, 8, 9] =
        .ok { sim_device 256 256 1 (fun _ => 0) with
              bayer_circular := store_bytes (fun _ => 0) 0 [7, 8, 9] } ∧
      dcm300_output
          { sim_device 256 256 1 (fun _ => 0) with
            bayer_circular := store_bytes (fun _ => 0) 0 [7, 8, 9] } 3 [1] =
        .ok ({ sim_device 256 256 1 (fun _ => 0) with
               bayer_circular := store_bytes (fun _ => 0) 0 [7, 8, 9] }, [1, 7, 8, 9]) :=
  ⟨rfl, (output_raw_verbatim (sim_device 256 256 1 (fun _ => 0)) _ [7, 8, 9] [1] (by decide)
    (by decide) rfl).1⟩

/-! ## Theorems: the text header -/

theorem digitChar_ne_nul : ∀ k : Nat, k < 10 → (Nat.digitChar k).toNat ≠ 0 := by
  decide

theorem toDigitsCore_ne_nul (fuel : Nat) :
    ∀ (n : Nat) (ds : List Char), (∀ c ∈ ds, c.toNat ≠ 0) →
      ∀ c ∈ Nat.toDigitsCore 10 fuel n ds, c.toNat ≠ 0 := by
  induction fuel with
  | zero => intro n ds h c hc; exact h c (by simpa [Nat.toDigitsCore] using hc)
  | succ fuel ih =>
    intro n ds h c hc
    have hcons : ∀ c ∈ Nat.digitChar (n % 10) :: ds, c.toNat ≠ 0 := by
      intro c hc
      rcases List.mem_cons.mp hc with rfl | hc
      · exact digitChar_ne_nul _ (Nat.mod_lt _ (by decide))
      · exact h c hc
    unfold Nat.toDigitsCore at hc
    simp only at hc
    split at hc
    · exact hcons c hc
    · exact ih _ _ hcons c hc

theorem decimal_ne_nul (n : Nat) : ∀ b ∈ decimal n, b ≠ 0 := by
  intro b hb
  unfold decimal Nat.toDigits at hb
  obtain ⟨c, hc, rfl⟩ := List.mem_map.mp hb
  exact toDigitsCore_ne_nul _ _ [] (by simp) c hc

theorem header_text_ne_nul (d : dcm300) : ∀ b ∈ header_text d, b ≠ 0 := by
  intro b hb
  unfold header_text at hb
  split at hb
  · simp at hb
  · simp only [List.mem_append] at hb
    rcases hb with (((hb | hb) | hb) | hb) | hb
    · revert b; decide
    · exact decimal_ne_nul _ b hb
    · revert b; decide
    · exact decimal_ne_nul _ b hb
    · revert b; decide

/-- The function `strlen` on a text without NUL that was stored with its terminating NUL:
the scan stops at the terminator. -/
theorem strlen_store (mem : Int → Nat) (addr : Nat) (text : List Nat)
    (h0 : ∀ b ∈ text, b ≠ 0) (fuel : Nat) :
    ∀ k : Nat, k ≤ text.length → text.length - k < fuel →
      strlen (store_bytes mem addr (text ++ [0])) addr fuel k = .ok text.length := by
  induction fuel with
  | zero => intro k _ h; omega
  | succ fuel ih =>
    intro k hk hf
    unfold strlen
    rw [store_bytes_inside mem addr (text ++ [0]) k (by simp; omega)]
    by_cases hkl : k = text.length
    · rw [hkl, List.getD_eq_getElem _ _ (by simp), List.getElem_append_right (by simp)]
      simp
    · have hlt : k < text.length := by omega
      rw [List.getD_eq_getElem _ _ (by simp; omega), List.getElem_append_left hlt,
        if_neg (h0 _ (List.getElem_mem _)), ih (k + 1) (by omega) (by omega)]

theorem load_store_prefix (mem : Int → Nat) (addr : Nat) (text rest : List Nat) :
    load_bytes (store_bytes mem addr (text ++ rest)) addr text.length = text := by
  apply List.ext_getElem
  · simp [load_bytes]
  · intro k h1 h2
    simp only [load_bytes, List.getElem_map, List.getElem_range]
    rw [store_bytes_inside mem addr (text ++ rest) k (by simp; omega),
      List.getD_eq_getElem _ _ (by simp; omega), List.getElem_append_left h2]

/-- The function `dcm300_output_header` when the text and its terminating NUL fit into
the ring from the pointer `dcm300_circular` on: the text is left in the ring and written
to the sink. -/
theorem output_header_fits (d : dcm300) (out : List Nat)
    (hfit : dcm300_circular d + (header_text d).length + 1 ≤ BAYER_CIRCULAR) :
    dcm300_output_header d out =
      .ok ({ d with
              bayer_circular :=
                store_bytes (store_bytes d.bayer_circular (dcm300_circular d) [0])
                  (dcm300_circular d) (header_text d ++ [0]) },
           out ++ header_text d) := by
  unfold dcm300_output_header
  rw [ring_store_ok d [0] (by simp; omega), ok_bind]
  generalize hd0 : ({ d with bayer_circular :=
                        store_bytes d.bayer_circular (dcm300_circular d) [0] } : dcm300) = d0
  have hc0 : dcm300_circular d0 = dcm300_circular d := by rw [← hd0]; rfl
  have ht0 : header_text d0 = header_text d := by rw [← hd0]; rfl
  have hm0 : d0.bayer_circular = store_bytes d.bayer_circular (dcm300_circular d) [0] := by
    rw [← hd0]
  rw [ring_store_ok d0 (header_text d0 ++ [0]) (by rw [hc0, ht0]; simp; omega), ok_bind]
  simp only
  have hc1 : dcm300_circular
      { d0 with bayer_circular :=
          store_bytes d0.bayer_circular (dcm300_circular d0) (header_text d0 ++ [0]) }
      = dcm300_circular d := hc0
  rw [hc1, hc0, ht0, strlen_store _ _ _ (header_text_ne_nul d) _ 0 (by omega) (by omega),
    ok_map, load_store_prefix, hm0, ← hd0]

theorem toDigitsCore_length (fuel : Nat) :
    ∀ (n k : Nat) (ds : List Char), 1 ≤ k → n < 10 ^ k →
      (Nat.toDigitsCore 10 fuel n ds).length ≤ ds.length + k := by
  induction fuel with
  | zero => intro n k ds _ _; simp [Nat.toDigitsCore]
  | succ fuel ih =>
    intro n k ds hk hn
    unfold Nat.toDigitsCore
    simp only
    split
    · simp; omega
    · rename_i hne
      obtain ⟨k, rfl⟩ : ∃ j, k = j + 1 := ⟨k - 1, by omega⟩
      have hk1 : 1 ≤ k := by
        rcases Nat.eq_zero_or_pos k with rfl | h
        · exact absurd (Nat.div_eq_of_lt (by simpa using hn)) hne
        · exact h
      have := ih (n / 10) k (Nat.digitChar (n % 10) :: ds) hk1
        (by rw [Nat.div_lt_iff_lt_mul (by decide)]; rw [pow_succ] at hn; exact hn)
      simp only [List.length_cons] at this
      omega

theorem decimal_length (n : Nat) (hn : n < 100000) : (decimal n).length ≤ 5 := by
  unfold decimal Nat.toDigits
  rw [List.length_map]
  have := toDigitsCore_length (n + 1) n 5 [] (by decide) (by omega)
  simpa using this

theorem header_text_length (d : dcm300) (hw : d.w < 65536) (hh : d.h < 65536) :
    (header_text d).length ≤ 19 := by
  unfold header_text
  split
  · simp
  · have h1 := decimal_length (d.w / 2) (by omega)
    have h2 := decimal_length (d.h / 2) (by omega)
    simp only [List.length_append, List.length_map]
    have e1 : "P6\n".toList.length = 3 := by decide
    have e2 : " ".toList.length = 1 := by decide
    have e3 : "\n255\n".toList.length = 5 := by decide
    rw [e1, e2, e3]
    omega

theorem header_text_toString (d : dcm300) (hraw : d.raw = 0) :
    header_text d =
      ("P6\n" ++ toString (d.w / 2) ++ " " ++ toString (d.h / 2) ++ "\n255\n").toList.map
        Char.toNat := by
  unfold header_text
  rw [if_neg (by simp [hraw])]
  simp only [String.toList, String.data_append, List.map_append, decimal]
  rfl

/-- C15: for every 16-bit `w` and `h`, `dcm300_output_header` (called with room for the
at most 20 bytes of the formatted string between the pointer `dcm300_circular` and
the end of the ring, as it is in `dcm300_get_image`, where the pointer is at offset
32704) returns and appends to the sink exactly the ASCII text `"P6\n"`, the decimal numeral of
`w / 2`, a blank, the decimal numeral of `h / 2` and `"\n255\n"` in non-raw mode, and
nothing in raw mode; for `w = h = 256` the text is `"P6\n128 128\n255\n"`. -/
theorem output_header_text (d : dcm300) (out : List Nat) (hd : d.wf)
    (hfit : dcm300_circular d + 20 ≤ BAYER_CIRCULAR) :
    (d.raw = 0 →
      (dcm300_output_header d out).map Prod.snd =
        .ok (out ++ ("P6\n" ++ toString (d.w / 2) ++ " " ++ toString (d.h / 2)
          ++ "\n255\n").toList.map Char.toNat)) ∧
    (d.raw ≠ 0 → (dcm300_output_header d out).map Prod.snd = .ok out) ∧
    (d.raw = 0 → d.w = 256 → d.h = 256 →
      (dcm300_output_header d out).map Prod.snd =
        .ok (out ++ "P6\n128 128\n255\n".toList.map Char.toNat)) := by
  obtain ⟨-, -, hw, hh, -⟩ := hd
  have hl := header_text_length d hw hh
  have hrun := output_header_fits d out (by omega)
  rw [hrun, ok_map]
  refine ⟨fun hraw => ?_, fun hraw => ?_, fun hraw hw1 hh1 => ?_⟩
  · rw [header_text_toString d hraw]
  · simp [header_text, hraw]
  · rw [header_text_toString d hraw, hw1, hh1]
    rfl

theorem output_header_text_witness :
    (dcm300_output_header (cursor_init (sim_device 256 256 0 (fun _ => 0))) [7]).map Prod.snd =
        .ok ([7] ++ "P6\n128 128\n255\n".toList.map Char.toNat) ∧
    (dcm300_output_header (cursor_init (sim_device 256 256 1 (fun _ => 0))) [7]).map Prod.snd =
        .ok [7] :=
  ⟨(output_header_text (cursor_init (sim_device 256 256 0 (fun _ => 0))) [7]
      (sim_device_wf 256 256 0 (fun _ => 0) (by decide) (by decide)) (by decide)).2.2 rfl rfl rfl,
   (output_header_text (cursor_init (sim_device 256 256 1 (fun _ => 0))) [7]
      (sim_device_wf 256 256 1 (fun _ => 0) (by decide) (by decide)) (by decide)).2.1 (by decide)⟩

theorem circular_of_nonneg (d : dcm300) (_h : 0 ≤ d.bayer_read) :
    ((dcm300_circular d : Nat) : Int) = d.bayer_read % 32768 := by
  unfold dcm300_circular BAYER_CIRCULAR
  rw [Int.toNat_of_nonneg (by omega)]
  omega

/-- Ring index of stream position `P + k` when the chunk stored at the ring offset of `P`
does not cross the end of the ring. -/
theorem ring_index (P : Int) (a k : Nat) (hP : 0 ≤ P) (ha : (a : Int) = P % 32768)
    (hk : a + k < 32768) :
    Int.tmod (P + (k : Int)) BAYER_CIRCULAR = (a : Int) + (k : Int) := by
  have hB : ((BAYER_CIRCULAR : Nat) : Int) = 32768 := rfl
  rw [Int.tmod_eq_emod (by omega) (by omega), hB]
  omega

/-- One chunk in non-raw mode: the chunk is stored at the pointer `dcm300_circular`
without crossing the end of the ring, the cursor has `bayer_from = bayer_read`, and
`dcm300_output` emits the reference demosaic of the `n` whole row pairs of the chunk. -/
theorem output_chunk_step (d : dcm300) (chunk out : List Nat) (w n : Nat)
    (hraw : d.raw = 0) (hwd : d.bayer_width = (w : Int)) (hw2 : 2 ≤ w) (hw : w % 2 = 0)
    (hfr : d.bayer_from = d.bayer_read) (hP : 0 ≤ d.bayer_read)
    (hlen : 0 < chunk.length)
    (hfit : dcm300_circular d + chunk.length ≤ 32768)
    (hn : 2 * w * n ≤ chunk.length)
    (h1 : d.bayer_read + (n : Int) * (2 * (w : Int)) ≤ d.bayer_end)
    (h2 : d.bayer_end < d.bayer_read + ((n : Int) + 1) * (2 * (w : Int)) ∨
          (chunk.length : Int) < ((n : Int) + 1) * (2 * (w : Int)))
    (h3 : 3 * (w / 2) * n ≤ RGB_MAX) (hb : ∀ b ∈ chunk, b < 256) :
    dcm300_output
        { d with bayer_circular := store_bytes d.bayer_circular (dcm300_circular d) chunk }
        (chunk.length : Int) out =
      .ok ({ d with
                bayer_from := d.bayer_read + (n : Int) * (2 * (w : Int)),
                bayer_read := d.bayer_read + (n : Int) * (2 * (w : Int)),
                bayer_circular := store_bytes d.bayer_circular (dcm300_circular d) chunk },
            out ++ demosaic w (2 * n) chunk) := by
  have hpos : (chunk.length : Int) > 0 := by omega
  have hcast : ((2 * w * n : Nat) : Int) = (n : Int) * (2 * (w : Int)) := by push_cast; ring
  have hn' : (n : Int) * (2 * (w : Int)) ≤ (chunk.length : Int) := by
    rw [← hcast]; exact_mod_cast hn
  unfold dcm300_output
  rw [if_pos hpos, if_neg (by simp [hraw])]
  rw [output_bayer_chunk _ _ out w n chunk (by exact hwd) hw2 hw
      (by show 0 ≤ d.bayer_from; omega)
      (by
        show d.bayer_from + _ ≤ bayer_stop _ _
        unfold bayer_stop
        simp only
        rw [hfr]
        split <;> omega)
      (by
        show bayer_stop _ _ < d.bayer_from + _
        unfold bayer_stop
        simp only
        rw [hfr]
        split <;> rcases h2 with h2 | h2 <;> omega)
      h3
      (by
        intro k hk
        show store_bytes d.bayer_circular (dcm300_circular d) chunk
          (Int.tmod (d.bayer_from + (k : Int)) BAYER_CIRCULAR) = _
        rw [hfr, ring_index d.bayer_read (dcm300_circular d) k hP (circular_of_nonneg d hP)
          (by omega)]
        exact store_bytes_inside _ _ _ _ (by omega))
      hb]
  simp only [hfr]

theorem demosaic_pixel_append_left (w : Nat) (a b : List Nat) (r1 r c : Nat)
    (ha : a.length = w * (2 * r1)) (hr : r < r1) (hc : c < w / 2) :
    demosaic_pixel w (a ++ b) r c = demosaic_pixel w a r c := by
  have hcw : 2 * c + 2 ≤ w := by omega
  have hrow : w * (2 * (r + 1)) ≤ w * (2 * r1) := Nat.mul_le_mul_left _ (by omega)
  unfold demosaic_pixel
  rw [List.getD_append _ _ _ _ (by rw [ha]; linarith),
    List.getD_append _ _ _ _ (by rw [ha]; linarith),
    List.getD_append _ _ _ _ (by rw [ha]; linarith),
    List.getD_append _ _ _ _ (by rw [ha]; linarith)]

theorem demosaic_pixel_append_right (w : Nat) (a b : List Nat) (r1 r c : Nat)
    (ha : a.length = w * (2 * r1)) :
    demosaic_pixel w (a ++ b) (r1 + r) c = demosaic_pixel w b r c := by
  unfold demosaic_pixel
  rw [List.getD_append_right _ _ _ _ (by rw [ha]; nlinarith [Nat.zero_le (r * w), Nat.zero_le w]),
    List.getD_append_right _ _ _ _ (by rw [ha]; nlinarith [Nat.zero_le (r * w), Nat.zero_le w]),
    List.getD_append_right _ _ _ _ (by rw [ha]; nlinarith [Nat.zero_le (r * w), Nat.zero_le w]),
    List.getD_append_right _ _ _ _ (by rw [ha]; nlinarith [Nat.zero_le (r * w), Nat.zero_le w])]
  have e0 : 2 * (r1 + r) * w + 2 * c - a.length = 2 * r * w + 2 * c := by
    rw [ha]; apply Nat.sub_eq_of_eq_add; ring
  have e1 : 2 * (r1 + r) * w + 2 * c + 1 - a.length = 2 * r * w + 2 * c + 1 := by
    rw [ha]; apply Nat.sub_eq_of_eq_add; ring
  have e2 : (2 * (r1 + r) + 1) * w + 2 * c - a.length = (2 * r + 1) * w + 2 * c := by
    rw [ha]; apply Nat.sub_eq_of_eq_add; ring
  have e3 : (2 * (r1 + r) + 1) * w + 2 * c + 1 - a.length = (2 * r + 1) * w + 2 * c + 1 := by
    rw [ha]; apply Nat.sub_eq_of_eq_add; ring
  rw [e0, e1, e2, e3]

/-- The demosaic of two frames of the same width stacked on top of each other is the
concatenation of their demosaics, when the upper frame has an even number of rows. -/
theorem demosaic_append (w r1 h2 : Nat) (a b : List Nat) (ha : a.length = w * (2 * r1)) :
    demosaic w (2 * r1 + h2) (a ++ b) = demosaic w (2 * r1) a ++ demosaic w h2 b := by
  unfold demosaic
  have e : (2 * r1 + h2) / 2 = r1 + h2 / 2 := by omega
  rw [e, Nat.mul_div_cancel_left r1 (by omega : 0 < 2), List.range_add, List.flatMap_append,
    List.flatMap_map]
  congr 1
  · apply flatMap_range_congr
    intro r hr
    unfold demosaic_row
    apply flatMap_range_congr
    intro c hc
    exact demosaic_pixel_append_left w a b r1 r c ha hr hc
  · apply flatMap_range_congr
    intro r _
    unfold demosaic_row
    apply flatMap_range_congr
    intro c _
    exact demosaic_pixel_append_right w a b r1 r c ha

/-! ## Theorems: stream transports and `dcm300_get_image` -/

theorem sim_streams {σ : Type} (U : usb_device σ) (fd : Int) (handle : Bool) (hfd : 0 < fd)
    (fixture : List Nat) :
    streams U (1, fd, handle) (fun wd => wd.fd_open = true ∧ wd.file = fixture)
      (fun wd => wd.file.drop wd.offset) := by
  intro d wd n hkey hgood
  simp only [transport_key, Prod.mk.injEq] at hkey
  obtain ⟨hsim, hfd', -⟩ := hkey
  have hr : dcm300_read U d wd n = sys_read wd n := by
    unfold dcm300_read dcm300_read_simulation
    rw [if_pos hsim, if_neg (by simp [hsim]), if_pos (by omega)]
  rw [hr]
  unfold sys_read
  rw [if_pos hgood.1]
  refine ⟨rfl, hgood, ?_⟩
  simp only [List.length_take, List.length_drop, List.drop_drop]
  by_cases h : n ≤ wd.file.length - wd.offset
  · rw [Nat.min_eq_left h, Nat.add_comm]
  · rw [Nat.min_eq_right (by omega), List.drop_eq_nil_of_le (by omega),
      List.drop_eq_nil_of_le (by omega)]

theorem sim_write_world {σ : Type} (U : usb_device σ) (d : dcm300) (wd : world σ)
    (buffer : List Nat) (hsim : d.simulation = 1) (hfd : 0 < d.fd)
    (hopen : wd.fd_open = true) :
    (dcm300_write U d wd buffer).2 = { wd with offset := 0 } := by
  unfold dcm300_write dcm300_write_simulation sys_lseek0
  rw [if_pos hsim, if_neg (by simp [hsim]), if_pos (by omega), if_pos hopen]

theorem usb_streams (sim fd : Int) (hsim : sim ≠ 1) :
    streams stream_usb (sim, fd, true) (fun _ => True) (fun wd => wd.usb) := by
  intro d wd n hkey _
  simp only [transport_key, Prod.mk.injEq] at hkey
  obtain ⟨hs, -, hh⟩ := hkey
  have hr : dcm300_read stream_usb d wd n
      = ((((wd.usb.take n).length : Int), wd.usb.take n), { wd with usb := wd.usb.drop n }) := by
    unfold dcm300_read dcm300_read_hardware
    rw [if_neg (by rw [hs]; exact hsim), if_neg (by rw [hs]; exact hsim), if_pos hh]
    rfl
  rw [hr]
  exact ⟨rfl, trivial, rfl⟩

/-- The statement `len = dcm300_read(dcm300, dcm300_circular(dcm300), want_bytes)` on a
stream transport, when the bytes delivered fit into the ring. -/
theorem read_circular_streams {σ : Type} (U : usb_device σ) (key : Int × Int × Bool)
    (good : world σ → Prop) (pending : world σ → List Nat) (hs : streams U key good pending)
    (d : dcm300) (wd : world σ) (n : Nat) (hkey : transport_key d = key) (hgood : good wd)
    (hfit : dcm300_circular d + ((pending wd).take n).length ≤ BAYER_CIRCULAR) :
    read_circular U d wd n =
      .ok ((((pending wd).take n).length : Int),
           { d with bayer_circular :=
               store_bytes d.bayer_circular (dcm300_circular d) ((pending wd).take n) },
           (dcm300_read U d wd n).2) := by
  unfold read_circular
  rw [(hs d wd n hkey hgood).1]
  simp only
  rw [ring_store_ok d _ hfit, ok_map]

/-- A read on a stream transport whose bytes do not fit into the ring from the pointer
`dcm300_circular` on. -/
theorem read_circular_overrun {σ : Type} (U : usb_device σ) (key : Int × Int × Bool)
    (good : world σ → Prop) (pending : world σ → List Nat) (hs : streams U key good pending)
    (d : dcm300) (wd : world σ) (n : Nat) (hkey : transport_key d = key) (hgood : good wd)
    (hfit : BAYER_CIRCULAR < dcm300_circular d + ((pending wd).take n).length) :
    read_circular U d wd n = .error .ring_overrun := by
  unfold read_circular
  rw [(hs d wd n hkey hgood).1]
  simp only
  unfold ring_store
  rw [if_neg (by omega), error_map]

theorem cursor_moved_refl (d : dcm300) (hfr : d.bayer_from = d.bayer_read) :
    cursor_moved d d d.bayer_read :=
  ⟨rfl, rfl, rfl, rfl, hfr, rfl⟩

theorem cursor_moved_trans (d d1 d2 : dcm300) (P Q : Int) (h1 : cursor_moved d d1 P)
    (h2 : cursor_moved d1 d2 Q) : cursor_moved d d2 Q := by
  obtain ⟨a1, a2, a3, a4, -, -⟩ := h1
  obtain ⟨b1, b2, b3, b4, b5, b6⟩ := h2
  exact ⟨b1.trans a1, b2.trans a2, b3.trans a3, b4.trans a4, b5, b6⟩

theorem forall_mem_take (S : List Nat) (n : Nat) (hb : ∀ b ∈ S, b < 256) :
    ∀ b ∈ S.take n, b < 256 := fun b h => hb b (List.mem_of_mem_take h)

theorem forall_mem_drop (S : List Nat) (n : Nat) (hb : ∀ b ∈ S, b < 256) :
    ∀ b ∈ S.drop n, b < 256 := fun b h => hb b (List.mem_of_mem_drop h)

/-- `m` iterations of the content loop in non-raw mode on a stream transport, each
reading a full chunk of `MAXBULK` bytes made of `r` whole row pairs: the iterations emit
the reference demosaic of the `MAXBULK * m` bytes read and advance the cursor by as
much. -/
theorem content_loop_full {σ : Type} (U : usb_device σ) (key : Int × Int × Bool)
    (good : world σ → Prop) (pending : world σ → List Nat) (hs : streams U key good pending)
    (expect : Int) (w r : Nat) (hw2 : 2 ≤ w) (hw : w % 2 = 0) (hr : 2 * w * r = 16384) :
    ∀ (m fuel : Nat) (i : Int) (d : dcm300) (wd : world σ) (out : List Nat),
      transport_key d = key → good wd → d.raw = 0 → d.bayer_width = (w : Int) →
      d.bayer_from = d.bayer_read → 0 ≤ d.bayer_read → d.bayer_read % 16384 = 0 →
      d.bayer_read + 16384 * (m : Int) ≤ d.bayer_end →
      16384 * m ≤ (pending wd).length → (∀ b ∈ pending wd, b < 256) → m ≤ fuel →
      (m ≠ 0 → i + 16384 * ((m : Int) - 1) < expect) →
      ∃ (d1 : dcm300) (wd1 : world σ),
        content_loop U expect fuel i MAXBULK d wd out =
          content_loop U expect (fuel - m) (i + 16384 * (m : Int)) MAXBULK d1 wd1
            (out ++ demosaic w (2 * r * m) ((pending wd).take (16384 * m))) ∧
        cursor_moved d d1 (d.bayer_read + 16384 * (m : Int)) ∧ good wd1 ∧
        pending wd1 = (pending wd).drop (16384 * m) := by
  intro m
  induction m with
  | zero =>
    intro fuel i d wd out _ hgood _ _ hfr _ _ _ _ _ _ _
    refine ⟨d, wd, ?_, ?_, hgood, ?_⟩
    · simp [demosaic]
    · simpa using cursor_moved_refl d hfr
    · simp
  | succ m ih =>
    intro fuel i d wd out hkey hgood hraw hwd hfr hP hal hend hpend hb hf hi
    obtain ⟨fuel, rfl⟩ : ∃ f, fuel = f + 1 := ⟨fuel - 1, by omega⟩
    have hM : MAXBULK = 16384 := rfl
    have hcond : i < expect ∧ ((MAXBULK : Nat) : Int) = ((MAXBULK : Nat) : Int) := by
      refine ⟨?_, rfl⟩
      have := hi (by omega)
      push_cast at this
      omega
    have hclen : ((pending wd).take MAXBULK).length = 16384 := by
      rw [List.length_take, hM]; omega
    have hrw : (r : Int) * (2 * (w : Int)) = 16384 := by
      have : ((2 * w * r : Nat) : Int) = 16384 := by rw [hr]; rfl
      push_cast at this
      linarith
    have hcirc : ((dcm300_circular d : Nat) : Int) = d.bayer_read % 32768 :=
      circular_of_nonneg d hP
    have hstep := output_chunk_step d ((pending wd).take MAXBULK) out w r hraw hwd hw2 hw hfr hP
      (by omega) (by omega) (by omega) (by push_cast at hend; omega)
      (Or.inr (by
        have e : ((r : Int) + 1) * (2 * (w : Int)) = 16384 + 2 * (w : Int) := by
          rw [add_mul, hrw]; ring
        rw [hclen, e]
        push_cast
        omega))
      (by
        have h4 : 4 * ((w / 2) * r) = 16384 := by
          have e : 2 * (w / 2) = w := by omega
          calc 4 * ((w / 2) * r) = 2 * (2 * (w / 2)) * r := by ring
            _ = 16384 := by rw [e, hr]
        have h5 : RGB_MAX = 12288 := by decide
        rw [h5, Nat.mul_assoc]; omega)
      (forall_mem_take _ _ hb)
    have hB : BAYER_CIRCULAR = 32768 := rfl
    rw [content_loop, if_pos hcond,
      read_circular_streams U key good pending hs d wd MAXBULK hkey hgood
        (by rw [hclen, hB]; omega), ok_bind]
    simp only [hstep, ok_bind]
    obtain ⟨hr1, hg1, hp1⟩ := hs d wd MAXBULK hkey hgood
    have hb1 : ∀ b ∈ pending (dcm300_read U d wd MAXBULK).2, b < 256 := by
      rw [hp1]; exact forall_mem_drop _ _ hb
    obtain ⟨d2, wd2, heq, hmv, hg2, hp2⟩ := ih fuel
      (i + (((pending wd).take MAXBULK).length : Int))
      { d with
          bayer_from := d.bayer_read + (r : Int) * (2 * (w : Int)),
          bayer_read := d.bayer_read + (r : Int) * (2 * (w : Int)),
          bayer_circular :=
            store_bytes d.bayer_circular (dcm300_circular d) ((pending wd).take MAXBULK) }
      (dcm300_read U d wd MAXBULK).2
      (out ++ demosaic w (2 * r) ((pending wd).take MAXBULK))
      (by exact hkey) hg1 (by exact hraw) (by exact hwd) rfl
      (by show 0 ≤ d.bayer_read + _; omega)
      (by show (d.bayer_read + _) % 16384 = 0; omega)
      (by show d.bayer_read + _ + _ ≤ d.bayer_end; push_cast at hend; omega)
      (by rw [hp1, List.length_drop, hM]; omega) hb1 (by omega)
      (by
        intro hm
        have := hi (by omega)
        push_cast at this
        rw [hclen]
        push_cast
        omega)
    refine ⟨d2, wd2, ?_, ?_, hg2, ?_⟩
    · have hclen' : ((((pending wd).take MAXBULK).length : Nat) : Int)
          = ((MAXBULK : Nat) : Int) := by rw [hclen]; rfl
      rw [hclen'] at heq ⊢
      rw [heq, hp1]
      have e1 : fuel + 1 - (m + 1) = fuel - m := by omega
      have e2 : i + ((MAXBULK : Nat) : Int) + 16384 * (m : Int)
          = i + 16384 * ((m + 1 : Nat) : Int) := by rw [hM]; push_cast; ring
      have e3 : 16384 * (m + 1) = MAXBULK + 16384 * m := by rw [hM]; ring
      have e4 : 2 * r * (m + 1) = 2 * r + 2 * r * m := by ring
      rw [e1, e2, e3, List.take_add, e4,
        demosaic_append w r (2 * r * m) _ _ (by rw [hclen, ← hr]; ring), List.append_assoc]
    · obtain ⟨a1, a2, a3, a4, a5, a6⟩ := hmv
      refine ⟨a1, a2, a3, a4, ?_, ?_⟩
      · rw [a5]; show d.bayer_read + _ + _ = _; push_cast; omega
      · rw [a6]; show d.bayer_read + _ + _ = _; push_cast; omega
    · rw [hp2, hp1, List.drop_drop, hM]
      congr 1
      ring

theorem warmup_loop_exit {σ : Type} (U : usb_device σ) (expect : Int) (fuel : Nat)
    (i len : Int) (d : dcm300) (wd : world σ)
    (h : ¬ (i < expect ∧ len = ((MAXBULK : Nat) : Int))) :
    warmup_loop U expect fuel i len d wd = .ok (d, wd) := by
  cases fuel <;> simp only [warmup_loop, if_neg h]

theorem content_loop_exit {σ : Type} (U : usb_device σ) (expect : Int) (fuel : Nat)
    (i len : Int) (d : dcm300) (wd : world σ) (out : List Nat)
    (h : ¬ (i < expect ∧ len = ((MAXBULK : Nat) : Int))) :
    content_loop U expect fuel i len d wd out = .ok (d, wd, out) := by
  cases fuel <;> simp only [content_loop, if_neg h]

/-- The warm-up snapshot on a stream transport that still holds the 64-byte header and
one full content chunk after the request has been written, when a chunk of `MAXBULK`
bytes fits into the ring from the pointer `dcm300_circular` on: it returns, and has
consumed `64 + 16384 + 256` bytes of the stream (fewer if the stream ends inside the
footer). -/
theorem get_image_warmup_streams {σ : Type} (U : usb_device σ) (key : Int × Int × Bool)
    (good : world σ → Prop) (pending : world σ → List Nat) (hs : streams U key good pending)
    (small : dcm300) (wd : world σ) (hks : transport_key small = key)
    (hw : small.w = 128) (hh : small.h = 128)
    (hfit : dcm300_circular small + 16384 ≤ BAYER_CIRCULAR)
    (hgood : good (dcm300_write U small wd (dcm300_create_request small).bytes).2)
    (hlen : 64 + 16384 ≤
      (pending (dcm300_write U small wd (dcm300_create_request small).bytes).2).length) :
    ∃ wd1, get_image_warmup U small wd = .ok wd1 ∧ good wd1 ∧
      pending wd1 = (pending (dcm300_write U small wd
        (dcm300_create_request small).bytes).2).drop (64 + 16384 + 256) := by
  have hM : MAXBULK = 16384 := rfl
  have hexp : ((small.w : Nat) : Int) * ((small.h : Nat) : Int) = 16384 := by
    rw [hw, hh]; rfl
  unfold get_image_warmup
  simp only [hexp]
  generalize (dcm300_write U small wd (dcm300_create_request small).bytes).2 = wd0
    at hgood hlen ⊢
  -- header
  obtain ⟨-, hg1, hp1⟩ := hs small wd0 64 hks hgood
  have hl0 : ((pending wd0).take 64).length = 64 := by rw [List.length_take]; omega
  rw [read_circular_streams U key good pending hs small wd0 64 hks hgood (by omega), ok_bind]
  simp only
  generalize (dcm300_read U small wd0 64).2 = wd1 at hg1 hp1 ⊢
  generalize hd1 : ({ small with
                        bayer_circular := store_bytes small.bayer_circular
                          (dcm300_circular small) ((pending wd0).take 64) } : dcm300) = d1
  have hk1 : transport_key d1 = key := by rw [← hd1]; exact hks
  have hc1 : dcm300_circular d1 = dcm300_circular small := by rw [← hd1]; rfl
  -- the content loop runs once
  have hfuel : loop_fuel 16384 = 1 + 1 := by simp [loop_fuel, MAXBULK]
  have hcond : (0 : Int) < 16384 ∧
      ((MAXBULK : Nat) : Int) = ((MAXBULK : Nat) : Int) := ⟨by omega, rfl⟩
  obtain ⟨-, hg2, hp2⟩ := hs d1 wd1 MAXBULK hk1 hg1
  have hclen : ((pending wd1).take MAXBULK).length = 16384 := by
    rw [List.length_take, hp1, List.length_drop, hM]; omega
  rw [hfuel, warmup_loop, if_pos hcond,
    read_circular_streams U key good pending hs d1 wd1 MAXBULK hk1 hg1
      (by rw [hclen, hc1]; exact hfit), ok_bind]
  simp only
  rw [warmup_loop_exit U _ _ _ _ _ _ (by rw [hclen]; rintro ⟨h, -⟩; omega), ok_bind]
  simp only
  generalize (dcm300_read U d1 wd1 MAXBULK).2 = wd2 at hg2 hp2 ⊢
  generalize hd2 : ({ d1 with
                        bayer_circular := store_bytes d1.bayer_circular
                          (dcm300_circular d1) ((pending wd1).take MAXBULK) } : dcm300) = d2
  have hk2 : transport_key d2 = key := by rw [← hd2]; exact hk1
  have hc2 : dcm300_circular d2 = dcm300_circular small := by rw [← hd2]; exact hc1
  obtain ⟨-, hg3, hp3⟩ := hs d2 wd2 256 hk2 hg2
  have hl3 : ((pending wd2).take 256).length ≤ 256 := by rw [List.length_take]; omega
  rw [read_circular_streams U key good pending hs d2 wd2 256 hk2 hg2 (by omega), ok_map]
  refine ⟨_, rfl, hg3, ?_⟩
  simp only
  rw [hp3, hp2, hp1, List.drop_drop, List.drop_drop, hM]

/-- A call of `dcm300_output` in non-raw mode when no whole row pair lies between
`bayer_from` and `bayer_stop`: nothing is emitted and `bayer_read` is set to
`bayer_from`. -/
theorem output_nothing (d : dcm300) (len : Int) (out : List Nat) (hraw : d.raw = 0)
    (hw : 1 ≤ d.bayer_width) (hf0 : 0 ≤ d.bayer_from) (h1 : d.bayer_from ≤ bayer_stop d len)
    (h2 : bayer_stop d len < d.bayer_from + 2 * d.bayer_width) (hlen : 0 < len) :
    dcm300_output d len out =
      .ok ({ d with bayer_from := d.bayer_from, bayer_read := d.bayer_from }, out) := by
  unfold dcm300_output
  rw [if_pos hlen, if_neg (by simp [hraw]),
    output_bayer_run d len out ((d.bayer_width + 1) / 2).toNat 0 hw (by omega) (by omega) hf0
      (by simpa using h1) (by simpa using h2) (by simp)]
  simp [rows_pixels_zero]

theorem circular_minus_64 (d : dcm300) (h : d.bayer_read = -64) : dcm300_circular d = 32704 := by
  unfold dcm300_circular BAYER_CIRCULAR
  rw [h]
  decide

/-- The header phase of the real snapshot on a stream transport, non-raw mode: the text
header is formatted in the ring and written to the sink, the 64 header bytes are read
into the last 64 bytes of the ring, and `dcm300_output` moves the cursor to
`bayer_from = bayer_read = 0` without emitting anything. -/
theorem header_phase {σ : Type} (U : usb_device σ) (key : Int × Int × Bool)
    (good : world σ → Prop) (pending : world σ → List Nat) (hs : streams U key good pending)
    (d0 : dcm300) (wd : world σ) (out : List Nat) (hkey : transport_key d0 = key)
    (hgood : good wd) (hraw : d0.raw = 0) (hfrom : d0.bayer_from = 0)
    (hread : d0.bayer_read = -64) (hw : 1 ≤ d0.bayer_width) (hend : 0 ≤ d0.bayer_end)
    (htext : (header_text d0).length + 1 ≤ 64) (hlen : 64 ≤ (pending wd).length) :
    ∃ (dh dr d2 : dcm300) (wd2 : world σ),
      dcm300_output_header d0 out = .ok (dh, out ++ header_text d0) ∧
      read_circular U dh wd 64 = .ok (64, dr, wd2) ∧
      dcm300_output dr 64 (out ++ header_text d0) = .ok (d2, out ++ header_text d0) ∧
      cursor_moved d0 d2 0 ∧ good wd2 ∧ pending wd2 = (pending wd).drop 64 := by
  have hB : BAYER_CIRCULAR = 32768 := rfl
  have hc0 := circular_minus_64 d0 hread
  have hl : ((pending wd).take 64).length = 64 := by rw [List.length_take]; omega
  have hst := output_header_fits d0 out (by rw [hc0, hB]; omega)
  generalize hdh : ({ d0 with
                        bayer_circular :=
                          store_bytes (store_bytes d0.bayer_circular (dcm300_circular d0) [0])
                            (dcm300_circular d0) (header_text d0 ++ [0]) } : dcm300) = dh
    at hst
  have hkh : transport_key dh = key := by rw [← hdh]; exact hkey
  have hch : dcm300_circular dh = 32704 := by rw [← hdh]; exact hc0
  have hrd := read_circular_streams U key good pending hs dh wd 64 hkh hgood
    (by rw [hl, hB, hch])
  rw [hl] at hrd
  generalize hdr : ({ dh with
                        bayer_circular := store_bytes dh.bayer_circular (dcm300_circular dh)
                          ((pending wd).take 64) } : dcm300) = dr at hrd
  have hrr : dr.raw = 0 := by rw [← hdr, ← hdh]; exact hraw
  have hrw : dr.bayer_width = d0.bayer_width := by rw [← hdr, ← hdh]
  have hrf : dr.bayer_from = 0 := by rw [← hdr, ← hdh]; exact hfrom
  have hrrd : dr.bayer_read = -64 := by rw [← hdr, ← hdh]; exact hread
  have hre : dr.bayer_end = d0.bayer_end := by rw [← hdr, ← hdh]
  have hrk : transport_key dr = transport_key d0 := by rw [← hdr, ← hdh]; rfl
  refine ⟨dh, dr, { dr with bayer_from := dr.bayer_from, bayer_read := dr.bayer_from },
    (dcm300_read U dh wd 64).2, ?_, hrd, ?_, ?_,
    (hs dh wd 64 hkh hgood).2.1, (hs dh wd 64 hkh hgood).2.2⟩
  · exact hst
  · refine output_nothing dr 64 _ hrr (by omega) (by omega) ?_ ?_ (by decide)
    · unfold bayer_stop
      rw [hrf, hrrd, hre]
      split <;> omega
    · unfold bayer_stop
      rw [hrf, hrrd, hre, hrw]
      split <;> omega
  · exact ⟨hrk, hrr.trans hraw.symm, hrw, hre, hrf, hrf⟩

/-- A call of `dcm300_output` in non-raw mode once the cursor has reached the end of the
frame: whatever was read is dropped, nothing is emitted. -/
theorem output_at_end (d : dcm300) (len : Int) (out : List Nat) (hraw : d.raw = 0)
    (hw : 1 ≤ d.bayer_width) (hfr : d.bayer_from = d.bayer_read) (hf0 : 0 ≤ d.bayer_from)
    (hend : d.bayer_read = d.bayer_end) :
    ∃ d1, dcm300_output d len out = .ok (d1, out) := by
  by_cases hlen : 0 < len
  · refine ⟨_, output_nothing d len out hraw hw hf0 ?_ ?_ hlen⟩
    · unfold bayer_stop; split <;> omega
    · unfold bayer_stop; split <;> omega
  · exact ⟨d, by unfold dcm300_output; rw [if_neg hlen]⟩

/-- The footer phase in non-raw mode on a stream transport once the cursor has reached
the end of the frame at a multiple of `MAXBULK`: the footer bytes are read into the ring
and dropped. -/
theorem footer_at_end {σ : Type} (U : usb_device σ) (key : Int × Int × Bool)
    (good : world σ → Prop) (pending : world σ → List Nat) (hs : streams U key good pending)
    (d : dcm300) (wd : world σ) (out : List Nat) (hkey : transport_key d = key)
    (hgood : good wd) (hraw : d.raw = 0) (hw : 1 ≤ d.bayer_width)
    (hfr : d.bayer_from = d.bayer_read) (hf0 : 0 ≤ d.bayer_read)
    (hal : d.bayer_read % 16384 = 0) (hend : d.bayer_read = d.bayer_end) :
    ∃ (dr d1 : dcm300) (len : Int),
      read_circular U d wd 256 = .ok (len, dr, (dcm300_read U d wd 256).2) ∧
      dcm300_output dr len out = .ok (d1, out) := by
  have hB : BAYER_CIRCULAR = 32768 := rfl
  have hc := circular_of_nonneg d hf0
  have hl : ((pending wd).take 256).length ≤ 256 := by rw [List.length_take]; omega
  have hrd := read_circular_streams U key good pending hs d wd 256 hkey hgood
    (by rw [hB]; omega)
  obtain ⟨d1, h1⟩ := output_at_end
    { d with bayer_circular :=
        store_bytes d.bayer_circular (dcm300_circular d) ((pending wd).take 256) }
    (((pending wd).take 256).length : Int) out (by exact hraw) (by exact hw) (by exact hfr)
    (by show 0 ≤ d.bayer_from; omega) (by exact hend)
  exact ⟨_, d1, _, hrd, h1⟩

/-- The real snapshot in non-raw mode on a stream transport that delivers the 64-byte
header and then `m` full chunks making up the whole `w` x `h` frame: the sink receives
the text header and the reference demosaic of the `w*h` bytes that follow the 64 header
bytes. -/
theorem get_image_real_full {σ : Type} (U : usb_device σ) (key : Int × Int × Bool)
    (good : world σ → Prop) (pending : world σ → List Nat) (hs : streams U key good pending)
    (d : dcm300) (wd : world σ) (out : List Nat) (w h r m : Nat)
    (hkey : transport_key d = key) (hraw : d.raw = 0) (hdw : d.w = w) (hdh : d.h = h)
    (hw2 : 2 ≤ w) (hw : w % 2 = 0) (hr : 2 * w * r = 16384) (hwh : w * h = 16384 * m)
    (htext : (header_text d).length + 1 ≤ 64)
    (hgood : good (dcm300_write U (cursor_init d) wd
      (dcm300_create_request (cursor_init d)).bytes).2)
    (hlen : 64 + 16384 * m ≤ (pending (dcm300_write U (cursor_init d) wd
      (dcm300_create_request (cursor_init d)).bytes).2).length)
    (hb : ∀ b ∈ pending (dcm300_write U (cursor_init d) wd
      (dcm300_create_request (cursor_init d)).bytes).2, b < 256) :
    sink_of (get_image_real U d wd out) =
      .ok (out ++ header_text d ++ demosaic w h
        (((pending (dcm300_write U (cursor_init d) wd
          (dcm300_create_request (cursor_init d)).bytes).2).drop 64).take (w * h))) := by
  unfold get_image_real
  dsimp only
  generalize (dcm300_write U (cursor_init d) wd
      (dcm300_create_request (cursor_init d)).bytes).2 = wdw at hgood hlen hb ⊢
  have hexp : ((d.w : Nat) : Int) * ((d.h : Nat) : Int) = 16384 * (m : Int) := by
    rw [hdw, hdh]; exact_mod_cast hwh
  have hk0 : transport_key (cursor_init d) = key := hkey
  obtain ⟨dh, dr, d2, wd2, hhdr, hrd, hout, hmv2, hg2, hp2⟩ := header_phase U key good pending
    hs (cursor_init d) wdw out hk0 hgood (by exact hraw) rfl rfl
    (by show (1 : Int) ≤ ((d.w : Nat) : Int); rw [hdw]; omega)
    (by show (0 : Int) ≤ 0 + ((d.w : Nat) : Int) * ((d.h : Nat) : Int); rw [hexp]; omega)
    (by exact htext) (by omega)
  obtain ⟨b1, b2, b3, b4, b5, b6⟩ := hmv2
  have hwd2 : d2.bayer_width = (w : Int) := by rw [b3]; show ((d.w : Nat) : Int) = _; rw [hdw]
  have hend2 : d2.bayer_end = 16384 * (m : Int) := by
    rw [b4]; show 0 + ((d.w : Nat) : Int) * ((d.h : Nat) : Int) = _; rw [hexp]; omega
  have hfuel : loop_fuel (16384 * (m : Int)) = m + 1 := by
    unfold loop_fuel MAXBULK
    have : (16384 * (m : Int)).toNat = 16384 * m := by omega
    rw [this]; omega
  obtain ⟨d3, wd3, hloop, hmv3, hg3, hp3⟩ := content_loop_full U key good pending hs
    (16384 * (m : Int)) w r hw2 hw hr m (m + 1) 0 d2 wd2
    (out ++ header_text (cursor_init d))
    (b1.trans hk0) hg2 (b2.trans hraw) hwd2 (b5.trans b6.symm) (by omega) (by omega)
    (by omega) (by rw [hp2, List.length_drop]; omega)
    (by rw [hp2]; exact forall_mem_drop _ _ hb) (by omega) (by intro _; omega)
  obtain ⟨c1, c2, c3, c4, c5, c6⟩ := hmv3
  rw [content_loop_exit U (16384 * (m : Int)) (m + 1 - m) (0 + 16384 * (m : Int)) _ _ _ _
    (by rintro ⟨h0, -⟩; omega)] at hloop
  obtain ⟨dr4, d4, len4, hrd4, hfoot⟩ := footer_at_end U key good pending hs d3 wd3
    (out ++ header_text (cursor_init d) ++ demosaic w (2 * r * m)
      ((pending wd2).take (16384 * m)))
    (c1.trans (b1.trans hk0)) hg3 (by rw [c2, b2]; exact hraw) (by rw [c3, hwd2]; omega)
    (by rw [c5, c6]) (by rw [c6, b6]; omega) (by rw [c6, b6]; omega)
    (by rw [c6, c4, hend2, b6]; omega)
  simp only [hexp, hhdr, ok_bind, hrd, hout, hfuel, hloop, hrd4, hfoot, ok_map, sink_of]
  have e1 : 2 * r * m = h := by
    have : w * (2 * r * m) = w * h := by
      calc w * (2 * r * m) = (2 * w * r) * m := by ring
        _ = w * h := by rw [hr, hwh]
    exact Nat.eq_of_mul_eq_mul_left (by omega) this
  rw [hp2, e1, hwh]
  rfl

theorem usb_write_world (d : dcm300) (wd : world (List Nat)) (buffer : List Nat)
    (hsim : d.simulation ≠ 1) (hh : d.usb_dev_handle = true) :
    (dcm300_write stream_usb d wd buffer).2 = wd := by
  unfold dcm300_write dcm300_write_hardware
  rw [if_neg hsim, if_neg hsim, if_pos hh]
  rfl

/-- C9: for `w = 2048`, `h = 1536` in non-raw mode on a USB transport that returns every
requested byte (64-byte header, 16384-byte content chunks, 256-byte footer, for the
warm-up and for the real snapshot), and starting from a `bayer_read` whose ring offset
leaves room for one chunk (0 in the zero-initialised global of `main`),
`dcm300_get_image` returns and writes to the sink the text header followed by exactly
`3*1024*768 = 2359296` bytes, the raster-order half-size demosaic of the `2048*1536`
content bytes that follow the 64-byte header of the real snapshot; no other byte of the
reply stream enters the output. -/
theorem get_image_full_frame (d : dcm300) (wd : world (List Nat)) (out : List Nat)
    (hsim : d.simulation ≠ 1) (hh : d.usb_dev_handle = true) (hraw : d.raw = 0)
    (hdw : d.w = 2048) (hdh : d.h = 1536)
    (hcirc : dcm300_circular d + 16384 ≤ BAYER_CIRCULAR)
    (hlen : (64 + 16384 + 256) + (64 + 2048 * 1536 + 256) ≤ wd.usb.length)
    (hb : ∀ b ∈ wd.usb, b < 256) :
    sink_of (dcm300_get_image stream_usb d wd out) =
        .ok (out ++ header_text d ++
          demosaic 2048 1536 ((wd.usb.drop (64 + 16384 + 256 + 64)).take (2048 * 1536))) ∧
      header_text d = "P6\n1024 768\n255\n".toList.map Char.toNat ∧
      (demosaic 2048 1536
        ((wd.usb.drop (64 + 16384 + 256 + 64)).take (2048 * 1536))).length = 2359296 := by
  have hs := usb_streams d.simulation d.fd hsim
  have hkey : transport_key d = (d.simulation, d.fd, true) := by
    unfold transport_key; rw [hh]
  have htext : header_text d = "P6\n1024 768\n255\n".toList.map Char.toNat := by
    unfold header_text
    rw [if_neg (by simp [hraw]), hdw, hdh]
    decide
  have hws : (dcm300_write stream_usb (dcm300small d) wd
      (dcm300_create_request (dcm300small d)).bytes).2 = wd :=
    usb_write_world _ _ _ (by exact hsim) (by exact hh)
  obtain ⟨wd1, hwarm, -, hp1⟩ := get_image_warmup_streams stream_usb _ _ _ hs (dcm300small d) wd
    (by exact hkey) rfl rfl (by exact hcirc) trivial
    (by rw [hws]; show 64 + 16384 ≤ wd.usb.length; omega)
  rw [hws] at hp1
  have hwr : (dcm300_write stream_usb (cursor_init d) wd1
      (dcm300_create_request (cursor_init d)).bytes).2 = wd1 :=
    usb_write_world _ _ _ (by exact hsim) (by exact hh)
  have hp1' : wd1.usb = wd.usb.drop (64 + 16384 + 256) := hp1
  have hfull := get_image_real_full stream_usb _ _ _ hs d wd1 (out) 2048 1536 4 192 hkey hraw
    hdw hdh (by omega) (by omega) (by omega) (by omega) (by rw [htext]; decide) trivial
    (by rw [hwr]; show 64 + 16384 * 192 ≤ wd1.usb.length
        rw [hp1', List.length_drop]; omega)
    (by rw [hwr]; show ∀ b ∈ wd1.usb, b < 256
        rw [hp1']; exact forall_mem_drop _ _ hb)
  refine ⟨?_, htext, ?_⟩
  · unfold dcm300_get_image
    rw [hwarm, ok_bind, hfull, hwr]
    show Except.ok (out ++ header_text d ++ demosaic 2048 1536
      ((wd1.usb.drop 64).take (2048 * 1536))) = _
    rw [hp1', List.drop_drop]
  · rw [demosaic_length]

theorem get_image_full_frame_witness :
    sink_of (dcm300_get_image stream_usb (main_device 0 (fun _ => 0))
        (usb_world (List.replicate 3162752 7)) []) =
      .ok ([] ++ header_text (main_device 0 (fun _ => 0)) ++
        demosaic 2048 1536
          (((usb_world (List.replicate 3162752 7)).usb.drop (64 + 16384 + 256 + 64)).take
            (2048 * 1536))) :=
  (get_image_full_frame (main_device 0 (fun _ => 0)) (usb_world (List.replicate 3162752 7)) []
    (by decide) rfl rfl rfl rfl (by decide)
    (by rw [show (usb_world (List.replicate 3162752 7)).usb.length = 3162752 from
      List.length_replicate 3162752 7])
    (fun b hb => by rw [(List.mem_replicate.mp hb).2]; decide)).1
/-- The real snapshot in non-raw mode on a stream transport whose stream ends inside the
frame: after the 64-byte header it delivers `m` full chunks and then a last, short chunk
of `t` bytes holding `n` whole row pairs.  The call returns; the sink has received the
text header and the reference demosaic of the `2*r*m + 2*n` complete rows that follow
the 64 header bytes, and the cursor is left at `bayer_read = 16384*m + 2*w*n`. -/
theorem get_image_real_short_state {σ : Type} (U : usb_device σ) (key : Int × Int × Bool)
    (good : world σ → Prop) (pending : world σ → List Nat) (hs : streams U key good pending)
    (d : dcm300) (wd : world σ) (out : List Nat) (w h r m t n : Nat)
    (hkey : transport_key d = key) (hraw : d.raw = 0) (hdw : d.w = w) (hdh : d.h = h)
    (hw2 : 2 ≤ w) (hw : w % 2 = 0) (hr : 2 * w * r = 16384)
    (hmore : 16384 * m < w * h) (ht0 : 0 < t) (ht : t < 16384)
    (hn1 : 2 * w * n ≤ t) (hn2 : t < 2 * w * (n + 1)) (hn3 : 16384 * m + 2 * w * n ≤ w * h)
    (hn4 : 3 * (w / 2) * n ≤ RGB_MAX) (htext : (header_text d).length + 1 ≤ 64)
    (hgood : good (dcm300_write U (cursor_init d) wd
      (dcm300_create_request (cursor_init d)).bytes).2)
    (hlen : (pending (dcm300_write U (cursor_init d) wd
      (dcm300_create_request (cursor_init d)).bytes).2).length = 64 + 16384 * m + t)
    (hb : ∀ b ∈ pending (dcm300_write U (cursor_init d) wd
      (dcm300_create_request (cursor_init d)).bytes).2, b < 256) :
    ∃ res : dcm300 × world σ × List Nat,
      get_image_real U d wd out = .ok res ∧
      res.2.2 = out ++ header_text d ++ demosaic w (2 * (r * m) + 2 * n)
        ((pending (dcm300_write U (cursor_init d) wd
          (dcm300_create_request (cursor_init d)).bytes).2).drop 64) ∧
      res.1.bayer_read = 16384 * (m : Int) + 2 * (w : Int) * (n : Int) ∧
      good res.2.1 := by
  unfold get_image_real
  dsimp only
  generalize (dcm300_write U (cursor_init d) wd
      (dcm300_create_request (cursor_init d)).bytes).2 = wdw at hgood hlen hb ⊢
  obtain ⟨E, hE⟩ : ∃ E : Nat, w * h = E := ⟨_, rfl⟩
  rw [hE] at hmore hn3
  have hM : MAXBULK = 16384 := rfl
  have hwn : ((2 * w * n : Nat) : Int) = (n : Int) * (2 * (w : Int)) := by push_cast; ring
  have hwn1 : ((2 * w * (n + 1) : Nat) : Int) = ((n : Int) + 1) * (2 * (w : Int)) := by
    push_cast; ring
  have hexp : ((d.w : Nat) : Int) * ((d.h : Nat) : Int) = (E : Int) := by
    rw [hdw, hdh]; exact_mod_cast hE
  have hk0 : transport_key (cursor_init d) = key := hkey
  obtain ⟨dh, dr, d2, wd2, hhdr, hrd, hout, hmv2, hg2, hp2⟩ := header_phase U key good pending
    hs (cursor_init d) wdw out hk0 hgood (by exact hraw) rfl rfl
    (by show (1 : Int) ≤ ((d.w : Nat) : Int); rw [hdw]; omega)
    (by show (0 : Int) ≤ 0 + ((d.w : Nat) : Int) * ((d.h : Nat) : Int); rw [hexp]; omega)
    (by exact htext) (by omega)
  obtain ⟨b1, b2, b3, b4, b5, b6⟩ := hmv2
  have hwd2 : d2.bayer_width = (w : Int) := by rw [b3]; show ((d.w : Nat) : Int) = _; rw [hdw]
  have hend2 : d2.bayer_end = (E : Int) := by
    rw [b4]; show 0 + ((d.w : Nat) : Int) * ((d.h : Nat) : Int) = _; rw [hexp]; omega
  obtain ⟨k, hfuel⟩ : ∃ k, loop_fuel (E : Int) = m + (k + 1) := by
    refine ⟨E / 16384 - m, ?_⟩
    unfold loop_fuel
    rw [hM, Int.toNat_ofNat]
    omega
  obtain ⟨d3, wd3, hloop, hmv3, hg3, hp3⟩ := content_loop_full U key good pending hs
    (E : Int) w r hw2 hw hr m (m + (k + 1)) 0 d2 wd2
    (out ++ header_text (cursor_init d))
    (b1.trans hk0) hg2 (b2.trans hraw) hwd2 (b5.trans b6.symm) (by omega) (by omega)
    (by omega) (by rw [hp2, List.length_drop]; omega)
    (by rw [hp2]; exact forall_mem_drop _ _ hb) (by omega) (by intro _; omega)
  obtain ⟨c1, c2, c3, c4, c5, c6⟩ := hmv3
  rw [hp2] at hp3 hloop
  -- the short chunk
  have hk3 : transport_key d3 = key := c1.trans (b1.trans hk0)
  obtain ⟨-, hg4, hp4⟩ := hs d3 wd3 MAXBULK hk3 hg3
  have hT : (pending wd3).length = t := by rw [hp3, List.length_drop, List.length_drop]; omega
  have hchunk : (pending wd3).take MAXBULK = pending wd3 :=
    List.take_of_length_le (by rw [hT, hM]; omega)
  have hP3 : 0 ≤ d3.bayer_read := by rw [c6, b6]; omega
  have hc3 := circular_of_nonneg d3 hP3
  have hfit3 : dcm300_circular d3 + (pending wd3).length ≤ 32768 := by
    rw [c6, b6] at hc3
    omega
  have hstep := output_chunk_step d3 (pending wd3)
    (out ++ header_text (cursor_init d) ++ demosaic w (2 * r * m)
      (((pending wdw).drop 64).take (16384 * m))) w n
    (by rw [c2, b2]; exact hraw) (by rw [c3, hwd2]) hw2 hw (by rw [c5, c6])
    hP3 (by omega) hfit3 (by omega)
    (by
      have h' : ((16384 * m + 2 * w * n : Nat) : Int) ≤ (E : Int) := by exact_mod_cast hn3
      rw [c6, c4, hend2, b6, ← hwn]
      push_cast at h' ⊢
      omega)
    (Or.inr (by rw [← hwn1, hT]; exact_mod_cast hn2)) hn4
    (by rw [hp3]; exact forall_mem_drop _ _ (forall_mem_drop _ _ hb))
  have e1 : m + (k + 1) - m = k + 1 := by omega
  have hrest : content_loop U (E : Int) (k + 1) (0 + 16384 * (m : Int)) MAXBULK d3 wd3
      (out ++ header_text (cursor_init d) ++ demosaic w (2 * r * m)
        (((pending wdw).drop 64).take (16384 * m))) =
      .ok ({ d3 with
                bayer_from := d3.bayer_read + (n : Int) * (2 * (w : Int)),
                bayer_read := d3.bayer_read + (n : Int) * (2 * (w : Int)),
                bayer_circular := store_bytes d3.bayer_circular (dcm300_circular d3)
                  (pending wd3) },
            (dcm300_read U d3 wd3 MAXBULK).2,
            out ++ header_text (cursor_init d) ++ demosaic w (2 * r * m)
              (((pending wdw).drop 64).take (16384 * m)) ++ demosaic w (2 * n) (pending wd3)) := by
    rw [content_loop, if_pos ⟨by omega, rfl⟩,
      read_circular_streams U key good pending hs d3 wd3 MAXBULK hk3 hg3
        (by rw [hchunk]; exact hfit3), ok_bind]
    simp only [hchunk, hstep, ok_bind]
    rw [content_loop_exit U (E : Int) k _ ((pending wd3).length : Int) _ _ _
      (by rintro ⟨-, h0⟩; rw [hT, hM] at h0; omega)]
  rw [e1, hrest] at hloop
  -- the footer read finds the stream exhausted
  have hp4' : pending (dcm300_read U d3 wd3 MAXBULK).2 = [] := by
    rw [hp4]; exact List.drop_eq_nil_of_le (by rw [hT, hM]; omega)
  generalize hd5 : ({ d3 with
                        bayer_from := d3.bayer_read + (n : Int) * (2 * (w : Int)),
                        bayer_read := d3.bayer_read + (n : Int) * (2 * (w : Int)),
                        bayer_circular := store_bytes d3.bayer_circular (dcm300_circular d3)
                          (pending wd3) } : dcm300) = d5 at hloop
  have hk5 : transport_key d5 = key := by rw [← hd5]; exact hk3
  have hP5 : 0 ≤ d5.bayer_read := by
    rw [← hd5]
    show 0 ≤ d3.bayer_read + (n : Int) * (2 * (w : Int))
    have := mul_nonneg (Int.ofNat_nonneg n) (mul_nonneg (by omega : (0 : Int) ≤ 2)
      (Int.ofNat_nonneg w))
    omega
  have hc5 := circular_of_nonneg d5 hP5
  have hrd5 := read_circular_streams U key good pending hs d5 (dcm300_read U d3 wd3 MAXBULK).2
    256 hk5 hg4 (by rw [hp4']; show dcm300_circular d5 + 0 ≤ 32768; omega)
  rw [hp4'] at hrd5
  have hfoot : ∀ (dx : dcm300) (o : List Nat),
      dcm300_output dx ((([] : List Nat).take 256).length : Int) o = .ok (dx, o) := by
    intro dx o
    unfold dcm300_output
    rw [if_neg (by simp)]
  simp only [hexp, hhdr, ok_bind, hrd, hout, hfuel, hloop, hrd5, hfoot, ok_map]
  refine ⟨_, rfl, ?_, ?_, (hs d5 _ 256 hk5 hg4).2.1⟩
  swap
  · show d5.bayer_read = _
    rw [← hd5]
    show d3.bayer_read + (n : Int) * (2 * (w : Int)) = _
    rw [c6, b6]
    ring
  show out ++ header_text (cursor_init d) ++ demosaic w (2 * r * m)
      (List.take (16384 * m) (List.drop 64 (pending wdw))) ++ demosaic w (2 * n) (pending wd3)
    = _
  have e2 : 2 * r * m = 2 * (r * m) := by ring
  rw [hp3, List.append_assoc (out ++ header_text (cursor_init d)), e2,
    ← demosaic_append w (r * m) (2 * n) _ _
      (by
        have e3 : w * (2 * (r * m)) = 16384 * m := by
          calc w * (2 * (r * m)) = (2 * w * r) * m := by ring
            _ = 16384 * m := by rw [hr]
        rw [List.length_take, List.length_drop, hlen, e3]
        omega),
    List.take_append_drop]
  rfl


/-- The real snapshot in non-raw mode on a stream transport whose stream ends inside the
frame: after the 64-byte header it delivers `m` full chunks and then a last, short chunk
of `t` bytes holding `n` whole row pairs.  The sink receives the text header and the
reference demosaic of the `2*r*m + 2*n` complete rows that follow the 64 header bytes. -/
theorem get_image_real_short {σ : Type} (U : usb_device σ) (key : Int × Int × Bool)
    (good : world σ → Prop) (pending : world σ → List Nat) (hs : streams U key good pending)
    (d : dcm300) (wd : world σ) (out : List Nat) (w h r m t n : Nat)
    (hkey : transport_key d = key) (hraw : d.raw = 0) (hdw : d.w = w) (hdh : d.h = h)
    (hw2 : 2 ≤ w) (hw : w % 2 = 0) (hr : 2 * w * r = 16384)
    (hmore : 16384 * m < w * h) (ht0 : 0 < t) (ht : t < 16384)
    (hn1 : 2 * w * n ≤ t) (hn2 : t < 2 * w * (n + 1)) (hn3 : 16384 * m + 2 * w * n ≤ w * h)
    (hn4 : 3 * (w / 2) * n ≤ RGB_MAX) (htext : (header_text d).length + 1 ≤ 64)
    (hgood : good (dcm300_write U (cursor_init d) wd
      (dcm300_create_request (cursor_init d)).bytes).2)
    (hlen : (pending (dcm300_write U (cursor_init d) wd
      (dcm300_create_request (cursor_init d)).bytes).2).length = 64 + 16384 * m + t)
    (hb : ∀ b ∈ pending (dcm300_write U (cursor_init d) wd
      (dcm300_create_request (cursor_init d)).bytes).2, b < 256) :
    sink_of (get_image_real U d wd out) =
      .ok (out ++ header_text d ++ demosaic w (2 * (r * m) + 2 * n)
        ((pending (dcm300_write U (cursor_init d) wd
          (dcm300_create_request (cursor_init d)).bytes).2).drop 64)) := by
  obtain ⟨res, hrun, hsink, -, -⟩ := get_image_real_short_state U key good pending hs d wd out
    w h r m t n hkey hraw hdw hdh hw2 hw hr hmore ht0 ht hn1 hn2 hn3 hn4 htext hgood hlen hb
  rw [hrun]
  exact congrArg Except.ok hsink
/-- The 256 x 256 simulation scenario in non-raw mode: the first 64 bytes of the
65536-byte fixture are consumed as the capture header, so 254 complete raw rows remain.
The call returns; the sink has received the text header and their demosaic, the cursor
is left at `bayer_read = 3*16384 + 31*512 = 65024`, and the fixture is still open. -/
theorem sim_get_image_256_state {σ : Type} (U : usb_device σ) (d : dcm300) (wd : world σ)
    (out : List Nat) (hsim : d.simulation = 1) (hfd : 0 < d.fd) (hraw : d.raw = 0)
    (hdw : d.w = 256) (hdh : d.h = 256)
    (hcirc : dcm300_circular d + 16384 ≤ BAYER_CIRCULAR) (hopen : wd.fd_open = true)
    (hlen : wd.file.length = 65536) (hb : ∀ b ∈ wd.file, b < 256) :
    ∃ res : dcm300 × world σ × List Nat,
      dcm300_get_image U d wd out = .ok res ∧
      res.2.2 = out ++ header_text d ++ demosaic 256 254 (wd.file.drop 64) ∧
      res.1.bayer_read = 65024 ∧ res.2.1.fd_open = true ∧ res.2.1.file = wd.file := by
  have htext : header_text d = "P6\n128 128\n255\n".toList.map Char.toNat := by
    unfold header_text
    rw [if_neg (by simp [hraw]), hdw, hdh]
    decide
  have hs := sim_streams U d.fd d.usb_dev_handle hfd wd.file
  have hkey : transport_key d = (1, d.fd, d.usb_dev_handle) := by
    unfold transport_key; rw [hsim]
  have hws : (dcm300_write U (dcm300small d) wd
      (dcm300_create_request (dcm300small d)).bytes).2 = { wd with offset := 0 } :=
    sim_write_world U _ wd _ (by exact hsim) (by exact hfd) hopen
  obtain ⟨wd1, hwarm, hg1, -⟩ := get_image_warmup_streams U _ _ _ hs (dcm300small d) wd
    (by exact hkey) rfl rfl (by exact hcirc) (by rw [hws]; exact ⟨hopen, rfl⟩)
    (by rw [hws]; show 64 + 16384 ≤ (wd.file.drop 0).length; rw [List.drop_zero]; omega)
  have hwr : (dcm300_write U (cursor_init d) wd1
      (dcm300_create_request (cursor_init d)).bytes).2 = { wd1 with offset := 0 } :=
    sim_write_world U _ wd1 _ (by exact hsim) (by exact hfd) hg1.1
  have hpend : List.drop ({ wd1 with offset := 0 } : world σ).offset
      ({ wd1 with offset := 0 } : world σ).file = wd.file := by
    show wd1.file.drop 0 = wd.file
    rw [List.drop_zero, hg1.2]
  obtain ⟨res, hrun, hsink, hread, hgood⟩ := get_image_real_short_state U _ _ _ hs d wd1 out
    256 256 32 3 16320 31 hkey hraw
    hdw hdh (by omega) (by omega) (by omega) (by omega) (by omega) (by omega) (by omega)
    (by omega) (by omega) (by decide) (by rw [htext]; decide)
    (by rw [hwr]; exact ⟨hg1.1, hg1.2⟩)
    (by rw [hwr]; show (List.drop _ _).length = _; rw [hpend, hlen])
    (by rw [hwr]; show ∀ b ∈ List.drop _ _, b < 256; rw [hpend]; exact hb)
  refine ⟨res, ?_, ?_, ?_, hgood.1, hgood.2⟩
  · unfold dcm300_get_image
    rw [hwarm, ok_bind, hrun]
  · rw [hsink, hwr]
    show out ++ header_text d ++ demosaic 256 254 (List.drop 64 (List.drop _ _)) = _
    rw [hpend]
  · rw [hread]
    norm_num


/-- The shared content of the 256 x 256 simulation scenario in non-raw mode: the first
64 bytes of the 65536-byte fixture are consumed as the capture header, so 254 complete
raw rows remain and the sink receives the text header and their demosaic. -/
theorem sim_get_image_256 {σ : Type} (U : usb_device σ) (d : dcm300) (wd : world σ)
    (out : List Nat) (hsim : d.simulation = 1) (hfd : 0 < d.fd) (hraw : d.raw = 0)
    (hdw : d.w = 256) (hdh : d.h = 256)
    (hcirc : dcm300_circular d + 16384 ≤ BAYER_CIRCULAR) (hopen : wd.fd_open = true)
    (hlen : wd.file.length = 65536) (hb : ∀ b ∈ wd.file, b < 256) :
    sink_of (dcm300_get_image U d wd out) =
      .ok (out ++ header_text d ++ demosaic 256 254 (wd.file.drop 64)) := by
  obtain ⟨res, hrun, hsink, -⟩ := sim_get_image_256_state U d wd out hsim hfd hraw hdw hdh
    hcirc hopen hlen hb
  rw [hrun]
  exact congrArg Except.ok hsink

/-- C7 as amended: with `w = h = 256` in non-raw mode and the simulation transport
replaying a fixture of exactly `256*256 = 65536` bytes, `dcm300_get_image` returns and
writes to the sink the header `"P6\n128 128\n255\n"` followed by exactly
`3*128*127 = 48768` bytes: the first 64 fixture bytes are consumed as the capture header,
and the body is the demosaic of the 254 complete raw rows that follow them.  The caller's
`bayer_read` is one whose ring offset leaves room for a chunk (0 when the handle is
zero-initialised as in `main`). -/
theorem sim_256_non_raw {σ : Type} (U : usb_device σ) (d : dcm300) (wd : world σ)
    (out : List Nat) (hsim : d.simulation = 1) (hfd : 0 < d.fd) (hraw : d.raw = 0)
    (hdw : d.w = 256) (hdh : d.h = 256)
    (hcirc : dcm300_circular d + 16384 ≤ BAYER_CIRCULAR) (hopen : wd.fd_open = true)
    (hlen : wd.file.length = 65536) (hb : ∀ b ∈ wd.file, b < 256) :
    sink_of (dcm300_get_image U d wd out) =
        .ok (out ++ "P6\n128 128\n255\n".toList.map Char.toNat
          ++ demosaic 256 254 (wd.file.drop 64)) ∧
      (demosaic 256 254 (wd.file.drop 64)).length = 48768 := by
  have hh : header_text d = "P6\n128 128\n255\n".toList.map Char.toNat := by
    unfold header_text
    rw [if_neg (by simp [hraw]), hdw, hdh]
    decide
  rw [sim_get_image_256 U d wd out hsim hfd hraw hdw hdh hcirc hopen hlen hb, hh, demosaic_length]
  exact ⟨rfl, rfl⟩

theorem sim_256_non_raw_witness :
    sink_of (dcm300_get_image no_usb (sim_device 256 256 0 (fun _ => 0))
        (sim_world (List.replicate 65536 7)) []) =
      .ok ([] ++ "P6\n128 128\n255\n".toList.map Char.toNat
        ++ demosaic 256 254 ((sim_world (List.replicate 65536 7)).file.drop 64)) :=
  (sim_256_non_raw no_usb (sim_device 256 256 0 (fun _ => 0))
    (sim_world (List.replicate 65536 7)) [] rfl (by decide) rfl rfl rfl (by decide) rfl
    (List.length_replicate 65536 7) (fun b hb => by rw [(List.mem_replicate.mp hb).2]; decide)).1

/-- C7 as stated fails: on the all-7 fixture of 65536 bytes the sink does not hold the
header followed by exactly `3*128*128 = 49152` bytes. -/
theorem sim_256_not_49152 :
    ¬ ∃ body : List Nat,
        sink_of (dcm300_get_image no_usb (sim_device 256 256 0 (fun _ => 0))
          (sim_world (List.replicate 65536 7)) []) =
          .ok ("P6\n128 128\n255\n".toList.map Char.toNat ++ body) ∧
        body.length = 49152 := by
  rintro ⟨body, h1, h2⟩
  have hh : header_text (sim_device 256 256 0 (fun _ => 0))
      = "P6\n128 128\n255\n".toList.map Char.toNat := by decide
  rw [sim_get_image_256 no_usb (sim_device 256 256 0 (fun _ => 0))
    (sim_world (List.replicate 65536 7)) [] rfl (by decide) rfl rfl rfl (by decide) rfl
    (List.length_replicate 65536 7) (fun b hb => by rw [(List.mem_replicate.mp hb).2]; decide), hh,
    List.nil_append, Except.ok.injEq] at h1
  have h3 := List.append_cancel_left h1
  rw [← h3, demosaic_length] at h2
  exact absurd h2 (by decide)

/-- The warm-up snapshot on a stream transport when a chunk of `MAXBULK` bytes does not
fit into the ring from the pointer `dcm300_circular` on: the header read or the first
content read stores past the end of `bayer_circular`. -/
theorem get_image_warmup_overrun {σ : Type} (U : usb_device σ) (key : Int × Int × Bool)
    (good : world σ → Prop) (pending : world σ → List Nat) (hs : streams U key good pending)
    (small : dcm300) (wd : world σ) (hks : transport_key small = key)
    (hw : small.w = 128) (hh : small.h = 128)
    (hfit : BAYER_CIRCULAR < dcm300_circular small + 16384)
    (hgood : good (dcm300_write U small wd (dcm300_create_request small).bytes).2)
    (hlen : 64 + 16384 ≤
      (pending (dcm300_write U small wd (dcm300_create_request small).bytes).2).length) :
    get_image_warmup U small wd = .error .ring_overrun := by
  have hM : MAXBULK = 16384 := rfl
  have hexp : ((small.w : Nat) : Int) * ((small.h : Nat) : Int) = 16384 := by
    rw [hw, hh]; rfl
  unfold get_image_warmup
  simp only [hexp]
  generalize (dcm300_write U small wd (dcm300_create_request small).bytes).2 = wd0
    at hgood hlen ⊢
  obtain ⟨-, hg1, hp1⟩ := hs small wd0 64 hks hgood
  have hl0 : ((pending wd0).take 64).length = 64 := by rw [List.length_take]; omega
  by_cases h64 : dcm300_circular small + 64 ≤ BAYER_CIRCULAR
  · rw [read_circular_streams U key good pending hs small wd0 64 hks hgood (by omega), ok_bind]
    simp only
    generalize (dcm300_read U small wd0 64).2 = wd1 at hg1 hp1 ⊢
    generalize hd1 : ({ small with
                          bayer_circular := store_bytes small.bayer_circular
                            (dcm300_circular small) ((pending wd0).take 64) } : dcm300) = d1
    have hk1 : transport_key d1 = key := by rw [← hd1]; exact hks
    have hc1 : dcm300_circular d1 = dcm300_circular small := by rw [← hd1]; rfl
    have hfuel : loop_fuel 16384 = 1 + 1 := by simp [loop_fuel, MAXBULK]
    have hcond : (0 : Int) < 16384 ∧
        ((MAXBULK : Nat) : Int) = ((MAXBULK : Nat) : Int) := ⟨by omega, rfl⟩
    have hclen : ((pending wd1).take MAXBULK).length = 16384 := by
      rw [List.length_take, hp1, List.length_drop, hM]; omega
    rw [hfuel, warmup_loop, if_pos hcond,
      read_circular_overrun U key good pending hs d1 wd1 MAXBULK hk1 hg1
        (by rw [hclen, hc1]; exact hfit), error_bind, error_bind]
  · rw [read_circular_overrun U key good pending hs small wd0 64 hks hgood (by omega),
      error_bind]

/-- The real snapshot in raw mode on a stream transport that delivers the 64-byte header
and more than 64 bytes of content: `bayer_read` stays at -64, so the first content chunk
is stored from ring offset 32704 on and runs past the end of `bayer_circular`. -/
theorem get_image_real_raw_overrun {σ : Type} (U : usb_device σ) (key : Int × Int × Bool)
    (good : world σ → Prop) (pending : world σ → List Nat) (hs : streams U key good pending)
    (d : dcm300) (wd : world σ) (out : List Nat)
    (hkey : transport_key d = key) (hraw : d.raw ≠ 0) (hexp : 0 < d.w * d.h)
    (hgood : good (dcm300_write U (cursor_init d) wd
      (dcm300_create_request (cursor_init d)).bytes).2)
    (hlen : 64 + 65 ≤ (pending (dcm300_write U (cursor_init d) wd
      (dcm300_create_request (cursor_init d)).bytes).2).length) :
    get_image_real U d wd out = .error .ring_overrun := by
  unfold get_image_real
  dsimp only
  generalize (dcm300_write U (cursor_init d) wd
      (dcm300_create_request (cursor_init d)).bytes).2 = wdw at hgood hlen ⊢
  have hB : BAYER_CIRCULAR = 32768 := rfl
  have hM : MAXBULK = 16384 := rfl
  have hpos : (0 : Int) < ((d.w : Nat) : Int) * ((d.h : Nat) : Int) := by exact_mod_cast hexp
  have hk0 : transport_key (cursor_init d) = key := hkey
  have hc0 : dcm300_circular (cursor_init d) = 32704 := circular_minus_64 _ rfl
  have hht : header_text (cursor_init d) = [] := by
    unfold header_text
    rw [if_pos (by exact hraw)]
  have hhdr := output_header_fits (cursor_init d) out (by rw [hc0, hht, hB]; decide)
  generalize hdh : ({ cursor_init d with
                        bayer_circular :=
                          store_bytes
                            (store_bytes (cursor_init d).bayer_circular
                              (dcm300_circular (cursor_init d)) [0])
                            (dcm300_circular (cursor_init d))
                            (header_text (cursor_init d) ++ [0]) } : dcm300) = dh at hhdr
  have hkh : transport_key dh = key := by rw [← hdh]; exact hk0
  have hch : dcm300_circular dh = 32704 := by rw [← hdh]; exact hc0
  have hrh : dh.raw ≠ 0 := by rw [← hdh]; exact hraw
  have hl : ((pending wdw).take 64).length = 64 := by rw [List.length_take]; omega
  have hrd := read_circular_streams U key good pending hs dh wdw 64 hkh hgood
    (by rw [hl, hB, hch])
  have hout := output_raw_chunk dh ((pending wdw).take 64) (out ++ header_text (cursor_init d))
    hrh (by rw [hl, hB, hch])
  obtain ⟨-, hg2, hp2⟩ := hs dh wdw 64 hkh hgood
  generalize (dcm300_read U dh wdw 64).2 = wd2 at hrd hg2 hp2
  generalize hdr : ({ dh with
                        bayer_circular := store_bytes dh.bayer_circular (dcm300_circular dh)
                          ((pending wdw).take 64) } : dcm300) = dr at hrd hout
  have hkr : transport_key dr = key := by rw [← hdr]; exact hkh
  have hcr : dcm300_circular dr = 32704 := by rw [← hdr]; exact hch
  obtain ⟨k, hfuel⟩ : ∃ k, loop_fuel (((d.w : Nat) : Int) * ((d.h : Nat) : Int)) = k + 1 :=
    ⟨_, rfl⟩
  have hloop : ∀ o : List Nat,
      content_loop U (((d.w : Nat) : Int) * ((d.h : Nat) : Int)) (k + 1) 0 MAXBULK dr wd2 o
        = .error .ring_overrun := by
    intro o
    rw [content_loop, if_pos ⟨hpos, rfl⟩,
      read_circular_overrun U key good pending hs dr wd2 MAXBULK hkr hg2
        (by rw [hcr, hB, List.length_take, hp2, List.length_drop, hM]; omega), error_bind]
  simp only [hhdr, ok_bind, hrd, hout, hfuel, hloop, error_bind]

/-- C8 (the code does not do what the claim says): with `w = h = 256` in raw mode and the
simulation transport replaying a fixture of exactly `256*256 = 65536` bytes,
`dcm300_get_image` does not deliver the fixture to the sink.  Raw mode never advances
`bayer_read`, which stays at -64, so the first content read stores its 16384 bytes from
ring offset 32704 on, 16320 bytes past the end of `bayer_circular[BAYER_CIRCULAR]`: the
call ends in the fault `ring_overrun`. -/
theorem sim_256_raw_overruns_ring {σ : Type} (U : usb_device σ) (d : dcm300) (wd : world σ)
    (out : List Nat) (hsim : d.simulation = 1) (hfd : 0 < d.fd) (hraw : d.raw ≠ 0)
    (hdw : d.w = 256) (hdh : d.h = 256) (hopen : wd.fd_open = true)
    (hlen : wd.file.length = 65536) :
    dcm300_get_image U d wd out = .error .ring_overrun := by
  have hs := sim_streams U d.fd d.usb_dev_handle hfd wd.file
  have hkey : transport_key d = (1, d.fd, d.usb_dev_handle) := by
    unfold transport_key; rw [hsim]
  have hws : (dcm300_write U (dcm300small d) wd
      (dcm300_create_request (dcm300small d)).bytes).2 = { wd with offset := 0 } :=
    sim_write_world U _ wd _ (by exact hsim) (by exact hfd) hopen
  unfold dcm300_get_image
  by_cases hfit : dcm300_circular d + 16384 ≤ BAYER_CIRCULAR
  · obtain ⟨wd1, hwarm, hg1, -⟩ := get_image_warmup_streams U _ _ _ hs (dcm300small d) wd
      (by exact hkey) rfl rfl (by exact hfit) (by rw [hws]; exact ⟨hopen, rfl⟩)
      (by rw [hws]; show 64 + 16384 ≤ (wd.file.drop 0).length; rw [List.drop_zero]; omega)
    have hwr : (dcm300_write U (cursor_init d) wd1
        (dcm300_create_request (cursor_init d)).bytes).2 = { wd1 with offset := 0 } :=
      sim_write_world U _ wd1 _ (by exact hsim) (by exact hfd) hg1.1
    rw [hwarm, ok_bind]
    exact get_image_real_raw_overrun U _ _ _ hs d wd1 out hkey hraw (by rw [hdw, hdh]; omega)
      (by rw [hwr]; exact ⟨hg1.1, hg1.2⟩)
      (by rw [hwr]; show 64 + 65 ≤ (wd1.file.drop 0).length
          rw [List.drop_zero, hg1.2, hlen]; omega)
  · rw [get_image_warmup_overrun U _ _ _ hs (dcm300small d) wd (by exact hkey) rfl rfl
      (by have : dcm300_circular (dcm300small d) = dcm300_circular d := rfl
          omega)
      (by rw [hws]; exact ⟨hopen, rfl⟩)
      (by rw [hws]; show 64 + 16384 ≤ (wd.file.drop 0).length; rw [List.drop_zero]; omega),
      error_bind]

theorem sim_256_raw_overruns_ring_witness :
    dcm300_get_image no_usb (sim_device 256 256 1 (fun _ => 0))
        (sim_world (List.replicate 65536 7)) [] = .error .ring_overrun :=
  sim_256_raw_overruns_ring no_usb (sim_device 256 256 1 (fun _ => 0))
    (sim_world (List.replicate 65536 7)) [] rfl (by decide) (by decide) rfl rfl rfl
    (List.length_replicate 65536 7)

/-! ## Theorems: termination and frame of the engine -/

theorem bind_ok_inv {ε α β : Type} (x : Except ε α) (f : α → Except ε β) (b : β)
    (h : x.bind f = .ok b) : ∃ a, x = .ok a ∧ f a = .ok b := by
  cases x with
  | error e => cases h
  | ok a => exact ⟨a, rfl, h⟩

theorem map_ok_inv {ε α β : Type} (x : Except ε α) (f : α → β) (b : β)
    (h : Except.map f x = .ok b) : ∃ a, x = .ok a ∧ f a = b := by
  cases x with
  | error e => cases h
  | ok a => exact ⟨a, rfl, Except.ok.inj h⟩

/-- What `dcm300_output_bayer` changes in the device structure: the two cursor fields
`bayer_from` and `bayer_read`, which it sets to the same value. -/
theorem output_bayer_frame (d d1 : dcm300) (len : Int) (out out1 : List Nat)
    (h : dcm300_output_bayer d len out = .ok (d1, out1)) :
    ∃ x : Int, d1 = { d with bayer_from := x, bayer_read := x } := by
  unfold dcm300_output_bayer at h
  split at h
  · cases h
  · cases hr : bayer_rows d.bayer_circular d.bayer_width (bayer_last d len)
        (bayer_last d len - d.bayer_from).toNat d.bayer_from [] with
    | error e => rw [hr] at h; cases h
    | ok r =>
      rw [hr, ok_map] at h
      exact ⟨r.1, (congrArg Prod.fst (Except.ok.inj h)).symm⟩

/-- What `dcm300_output` changes in the device structure: at most the cursor fields
`bayer_from` and `bayer_read`. -/
theorem output_frame (d d1 : dcm300) (len : Int) (out out1 : List Nat)
    (h : dcm300_output d len out = .ok (d1, out1)) :
    ∃ x y : Int, d1 = { d with bayer_from := x, bayer_read := y } := by
  unfold dcm300_output at h
  split at h
  · split at h
    · split at h
      · exact ⟨d.bayer_from, d.bayer_read, (congrArg Prod.fst (Except.ok.inj h)).symm⟩
      · cases h
    · obtain ⟨x, hx⟩ := output_bayer_frame d d1 len out out1 h
      exact ⟨x, x, hx⟩
  · exact ⟨d.bayer_from, d.bayer_read, (congrArg Prod.fst (Except.ok.inj h)).symm⟩

/-- The statement `len = dcm300_read(dcm300, dcm300_circular(dcm300), want_bytes)` either
stores past the end of the ring or returns what the transport returned, with only the
ring changed. -/
theorem read_circular_cases {σ : Type} (U : usb_device σ) (d : dcm300) (wd : world σ)
    (n : Nat) :
    read_circular U d wd n = .error .ring_overrun ∨
    read_circular U d wd n =
      .ok ((dcm300_read U d wd n).1.1,
           { d with bayer_circular :=
               store_bytes d.bayer_circular (dcm300_circular d) (dcm300_read U d wd n).1.2 },
           (dcm300_read U d wd n).2) := by
  unfold read_circular ring_store
  split
  · right; rfl
  · left; rfl

theorem read_circular_inv {σ : Type} (U : usb_device σ) (d : dcm300) (wd : world σ)
    (n : Nat) (r : Int × dcm300 × world σ) (h : read_circular U d wd n = .ok r) :
    r = ((dcm300_read U d wd n).1.1,
         { d with bayer_circular :=
             store_bytes d.bayer_circular (dcm300_circular d) (dcm300_read U d wd n).1.2 },
         (dcm300_read U d wd n).2) := by
  rcases read_circular_cases U d wd n with h1 | h1 <;> rw [h1] at h
  · cases h
  · exact (Except.ok.inj h).symm

/-- What `dcm300_output_header` changes in the device structure: the ring only. -/
theorem output_header_frame (d d1 : dcm300) (out out1 : List Nat)
    (h : dcm300_output_header d out = .ok (d1, out1)) :
    ∃ mem : Int → Nat, d1 = { d with bayer_circular := mem } := by
  unfold dcm300_output_header at h
  obtain ⟨d0, h0, h⟩ := bind_ok_inv _ _ _ h
  obtain ⟨d2, h1, h⟩ := bind_ok_inv _ _ _ h
  obtain ⟨n, -, h⟩ := map_ok_inv _ _ _ h
  obtain ⟨-, rfl⟩ := ring_store_inv d d0 _ h0
  obtain ⟨-, rfl⟩ := ring_store_inv _ d2 _ h1
  exact ⟨_, (congrArg Prod.fst h).symm⟩

theorem same_setup_refl (d : dcm300) : same_setup d d :=
  ⟨d.bayer_from, d.bayer_read, d.bayer_circular, rfl⟩

theorem same_setup_trans (d d1 d2 : dcm300) (h1 : same_setup d d1) (h2 : same_setup d1 d2) :
    same_setup d d2 := by
  obtain ⟨x, y, m, rfl⟩ := h1
  obtain ⟨x1, y1, m1, rfl⟩ := h2
  exact ⟨x1, y1, m1, rfl⟩

theorem read_circular_setup {σ : Type} (U : usb_device σ) (d : dcm300) (wd : world σ)
    (n : Nat) (r : Int × dcm300 × world σ) (h : read_circular U d wd n = .ok r) :
    same_setup d r.2.1 := by
  rw [read_circular_inv U d wd n r h]
  exact ⟨d.bayer_from, d.bayer_read, _, rfl⟩

theorem output_setup (d : dcm300) (len : Int) (out : List Nat) (r : dcm300 × List Nat)
    (h : dcm300_output d len out = .ok r) : same_setup d r.1 := by
  obtain ⟨x, y, hxy⟩ := output_frame d r.1 len out r.2 h
  exact ⟨x, y, d.bayer_circular, hxy⟩

theorem output_header_setup (d : dcm300) (out : List Nat) (r : dcm300 × List Nat)
    (h : dcm300_output_header d out = .ok r) : same_setup d r.1 := by
  obtain ⟨mem, hm⟩ := output_header_frame d r.1 out r.2 h
  exact ⟨d.bayer_from, d.bayer_read, mem, hm⟩

theorem content_loop_setup {σ : Type} (U : usb_device σ) (expect : Int) (fuel : Nat) :
    ∀ (i len : Int) (d : dcm300) (wd : world σ) (out : List Nat)
      (r : dcm300 × world σ × List Nat),
      content_loop U expect fuel i len d wd out = .ok r → same_setup d r.1 := by
  induction fuel with
  | zero =>
    intro i len d wd out r h
    unfold content_loop at h
    split at h
    · cases h
    · rw [← Except.ok.inj h]; exact same_setup_refl d
  | succ fuel ih =>
    intro i len d wd out r h
    unfold content_loop at h
    split at h
    · obtain ⟨r1, hr1, h⟩ := bind_ok_inv _ _ _ h
      obtain ⟨r2, hr2, h⟩ := bind_ok_inv _ _ _ h
      exact same_setup_trans _ _ _ (read_circular_setup U d wd _ r1 hr1)
        (same_setup_trans _ _ _ (output_setup _ _ _ r2 hr2) (ih _ _ _ _ _ r h))
    · rw [← Except.ok.inj h]; exact same_setup_refl d

theorem same_setup_width (d d1 : dcm300) (h : same_setup d d1) :
    d1.bayer_width = d.bayer_width ∧ d1.bayer_end = d.bayer_end ∧ d1.raw = d.raw ∧
    transport_key d1 = transport_key d ∧ d1.w = d.w ∧ d1.h = d.h := by
  obtain ⟨x, y, m, rfl⟩ := h
  exact ⟨rfl, rfl, rfl, rfl, rfl, rfl⟩

theorem warmup_loop_write_result {σ : Type} (U : usb_device σ) (g : Int → Int)
    (expect : Int) (fuel : Nat) :
    ∀ (i len : Int) (d : dcm300) (wd : world σ),
      warmup_loop (with_write_result U g) expect fuel i len d wd =
        warmup_loop U expect fuel i len d wd := by
  induction fuel with
  | zero => intro i len d wd; rfl
  | succ fuel ih =>
    intro i len d wd
    unfold warmup_loop
    split
    · show (read_circular U d wd MAXBULK).bind _ = _
      congr 1
      funext r
      exact ih _ _ _ _
    · rfl

theorem content_loop_write_result {σ : Type} (U : usb_device σ) (g : Int → Int)
    (expect : Int) (fuel : Nat) :
    ∀ (i len : Int) (d : dcm300) (wd : world σ) (out : List Nat),
      content_loop (with_write_result U g) expect fuel i len d wd out =
        content_loop U expect fuel i len d wd out := by
  induction fuel with
  | zero => intro i len d wd out; rfl
  | succ fuel ih =>
    intro i len d wd out
    unfold content_loop
    split
    · show (read_circular U d wd MAXBULK).bind _ = _
      congr 1
      funext r
      congr 1
      funext r2
      exact ih _ _ _ _ _
    · rfl

/-- C12 as amended: `dcm300_get_image` does not examine what `dcm300_write` returns.
Whatever value the bulk writes return (a negative one for a failed write), the header,
content and footer reads are issued all the same, and the call ends with the same
device structure, the same transport state and the same sink as when the writes return
their byte count. -/
theorem get_image_ignores_write_result {σ : Type} (U : usb_device σ) (g : Int → Int)
    (d : dcm300) (wd : world σ) (out : List Nat) :
    dcm300_get_image (with_write_result U g) d wd out = dcm300_get_image U d wd out := by
  have hw : ∀ (d : dcm300) (wd : world σ) (b : List Nat),
      (dcm300_write (with_write_result U g) d wd b).2 = (dcm300_write U d wd b).2 := by
    intro d wd b
    unfold dcm300_write dcm300_write_hardware
    split
    · rfl
    · split
      · rfl
      · rfl
  have hr : ∀ (d : dcm300) (wd : world σ) (n : Nat),
      read_circular (with_write_result U g) d wd n = read_circular U d wd n :=
    fun _ _ _ => rfl
  unfold dcm300_get_image get_image_warmup get_image_real
  simp only [hw, hr, warmup_loop_write_result, content_loop_write_result]

/-- C12 as stated fails: with every bulk write failing (result -1), the real request
write is followed by the header read, a content read and the footer read, and the call
returns as it does when the writes succeed, with the same sink. -/
theorem failed_write_is_not_reported :
    journal_of (dcm300_get_image (journal (with_write_result stream_usb (fun _ => -1)))
        (usb_camera 256 256 0) (journal_world (List.replicate 64 9 ++ [1, 2, 3, 4])) []) =
      some [usb_call.bulk_write 64 (-1), usb_call.bulk_read 64 64,
        usb_call.bulk_read 16384 4, usb_call.bulk_read 256 0,
        usb_call.bulk_write 64 (-1), usb_call.bulk_read 64 0,
        usb_call.bulk_read 16384 0, usb_call.bulk_read 256 0] ∧
    (sink_of (dcm300_get_image (journal (with_write_result stream_usb (fun _ => -1)))
        (usb_camera 256 256 0)
        (journal_world (List.replicate 64 9 ++ [1, 2, 3, 4])) [])).toOption =
      (sink_of (dcm300_get_image (journal stream_usb) (usb_camera 256 256 0)
        (journal_world (List.replicate 64 9 ++ [1, 2, 3, 4])) [])).toOption ∧
    (sink_of (dcm300_get_image (journal (with_write_result stream_usb (fun _ => -1)))
        (usb_camera 256 256 0)
        (journal_world (List.replicate 64 9 ++ [1, 2, 3, 4])) [])).toOption =
      some ("P6\n128 128\n255\n".toList.map Char.toNat) := by
  decide

/-- C17 as amended: in simulation mode with a valid descriptor (`fd > 0`, open), on the
explicit state (fixture, read offset, descriptor open or closed): `dcm300_write` returns
the byte count, rewinds the read offset to 0 and leaves the descriptor open and the
fixture as it is; `dcm300_close` returns 0, closes the descriptor and leaves the read
offset and the fixture as they are. -/
theorem simulation_write_rewinds_close_closes {σ : Type} (U : usb_device σ) (d : dcm300)
    (wd : world σ) (buffer : List Nat) (hsim : d.simulation = 1) (hfd : 0 < d.fd)
    (hopen : wd.fd_open = true) :
    dcm300_write U d wd buffer = ((buffer.length : Int), { wd with offset := 0 }) ∧
    dcm300_close d wd = (0, { wd with fd_open := false }) := by
  constructor
  · unfold dcm300_write dcm300_write_simulation sys_lseek0
    rw [if_pos hsim, if_neg (by simp [hsim]), if_pos (by omega), if_pos hopen]
  · unfold dcm300_close dcm300_close_simulation sys_close
    rw [if_pos hsim, if_neg (by simp [hsim]), if_pos (by omega)]

theorem simulation_write_rewinds_close_closes_witness :
    dcm300_write no_usb (sim_device 256 256 0 (fun _ => 0))
        (dcm300_read no_usb (sim_device 256 256 0 (fun _ => 0))
          (sim_world [1, 2, 3, 4, 5, 6, 7, 8]) 5).2 [44, 0, 14] =
      (3, sim_world [1, 2, 3, 4, 5, 6, 7, 8]) ∧
    dcm300_close (sim_device 256 256 0 (fun _ => 0))
        (dcm300_read no_usb (sim_device 256 256 0 (fun _ => 0))
          (sim_world [1, 2, 3, 4, 5, 6, 7, 8]) 5).2 =
      (0, { file := [1, 2, 3, 4, 5, 6, 7, 8], offset := 5, fd_open := false, usb := () }) :=
  simulation_write_rewinds_close_closes no_usb (sim_device 256 256 0 (fun _ => 0))
    (dcm300_read no_usb (sim_device 256 256 0 (fun _ => 0))
      (sim_world [1, 2, 3, 4, 5, 6, 7, 8]) 5).2 [44, 0, 14] rfl (by decide) rfl

/-- C17 as stated fails: after 5 of the 8 fixture bytes have been read, `dcm300_write`
moves the read offset from 5 to 0 (it is not a no-op), and `dcm300_close` leaves the
offset at 5 and the descriptor closed (it does not rewind). -/
theorem simulation_write_is_not_a_no_op :
    (dcm300_read no_usb (sim_device 256 256 0 (fun _ => 0))
        (sim_world [1, 2, 3, 4, 5, 6, 7, 8]) 5).2.offset = 5 ∧
    (dcm300_write no_usb (sim_device 256 256 0 (fun _ => 0))
        (dcm300_read no_usb (sim_device 256 256 0 (fun _ => 0))
          (sim_world [1, 2, 3, 4, 5, 6, 7, 8]) 5).2 [44, 0, 14]).2.offset = 0 ∧
    (dcm300_close (sim_device 256 256 0 (fun _ => 0))
        (dcm300_read no_usb (sim_device 256 256 0 (fun _ => 0))
          (sim_world [1, 2, 3, 4, 5, 6, 7, 8]) 5).2).2.offset = 5 ∧
    (dcm300_close (sim_device 256 256 0 (fun _ => 0))
        (dcm300_read no_usb (sim_device 256 256 0 (fun _ => 0))
          (sim_world [1, 2, 3, 4, 5, 6, 7, 8]) 5).2).2.fd_open = false := by
  decide

/-- The value `bayer_last - bayer_from` is a whole number of row pairs, and lies between
0 and `bayer_stop - bayer_from` (it is not positive when `bayer_stop < bayer_from`). -/
theorem row_pairs_span (a b : Int) (hb : 0 < b) :
    (∃ q : Int, a - Int.tmod a b = q * b) ∧ (0 ≤ a → a - Int.tmod a b ≤ a) ∧
    (a < 0 → a - Int.tmod a b ≤ 0) := by
  have hdef := Int.tmod_def a b
  refine ⟨⟨a.tdiv b, by rw [hdef]; ring⟩, fun ha => ?_, fun ha => ?_⟩
  · have := Int.tmod_nonneg b ha
    omega
  · have h1 : 0 ≤ (-a).tdiv b := Int.tdiv_nonneg (by omega) hb.le
    rw [Int.neg_tdiv] at h1
    have h2 : a - Int.tmod a b = b * a.tdiv b := by rw [hdef]; ring
    rw [h2]
    nlinarith

/-- Where the outer loop stops: not before `i`, and not beyond `bayer_last` when it
advances at all. -/
theorem bayer_rows_bounds (bayer_array : Int → Nat) (bayer_width bayer_last : Int)
    (hw : 1 ≤ bayer_width) (fuel : Nat) :
    ∀ (i : Int) (rgb_array : List Nat) (r : Int × List Nat),
      (∃ q : Int, bayer_last - i = q * (2 * bayer_width)) →
      bayer_rows bayer_array bayer_width bayer_last fuel i rgb_array = .ok r →
      i ≤ r.1 ∧ (r.1 ≤ bayer_last ∨ r.1 = i) := by
  induction fuel with
  | zero =>
    intro i rgb r _ h
    unfold bayer_rows at h
    split at h
    · cases h
    · rw [← Except.ok.inj h]; exact ⟨le_refl _, Or.inr rfl⟩
  | succ fuel ih =>
    intro i rgb r hq h
    unfold bayer_rows at h
    split at h
    · rename_i hlt
      obtain ⟨q, hq⟩ := hq
      have hq1 : 1 ≤ q := by
        by_contra hcon
        have : q * (2 * bayer_width) ≤ 0 := by nlinarith
        omega
      have hstep : i + 2 * bayer_width ≤ bayer_last := by nlinarith
      obtain ⟨c, -, h⟩ := bind_ok_inv _ _ _ h
      split at h
      · rw [← Except.ok.inj h]; exact ⟨le_refl _, Or.inl hlt.le⟩
      · obtain ⟨h1, h2⟩ := ih _ _ r ⟨q - 1, by rw [sub_mul]; omega⟩ h
        refine ⟨by omega, ?_⟩
        rcases h2 with h2 | h2
        · exact Or.inl h2
        · exact Or.inl (by omega)
    · rw [← Except.ok.inj h]; exact ⟨le_refl _, Or.inr rfl⟩

/-- The cursor after a call of `dcm300_output_bayer` that returns: `bayer_from` and
`bayer_read` are equal, not before the old `bayer_from`, and not beyond `bayer_end` when
the old `bayer_from` was not. -/
theorem output_bayer_cursor (d : dcm300) (len : Int) (out : List Nat) (r : dcm300 × List Nat)
    (hw : 0 ≤ d.bayer_width) (hfe : d.bayer_from ≤ d.bayer_end)
    (h : dcm300_output_bayer d len out = .ok r) :
    r.1.bayer_from = r.1.bayer_read ∧ d.bayer_from ≤ r.1.bayer_read ∧
    r.1.bayer_read ≤ d.bayer_end ∧ r.1.bayer_end = d.bayer_end := by
  unfold dcm300_output_bayer at h
  split at h
  · cases h
  · rename_i hne
    obtain ⟨rr, hrr, h⟩ := map_ok_inv _ _ _ h
    have hb : 0 < 2 * d.bayer_width := by omega
    obtain ⟨hq, hpos, hneg⟩ := row_pairs_span (bayer_stop d len - d.bayer_from)
      (2 * d.bayer_width) hb
    have hlast : bayer_last d len - d.bayer_from =
        (bayer_stop d len - d.bayer_from)
          - Int.tmod (bayer_stop d len - d.bayer_from) (2 * d.bayer_width) := by
      unfold bayer_last; ring
    obtain ⟨h1, h2⟩ := bayer_rows_bounds d.bayer_circular d.bayer_width (bayer_last d len)
      (by omega) _ d.bayer_from [] rr (by rw [hlast]; exact hq) hrr
    have hstop : bayer_stop d len ≤ d.bayer_end := by
      unfold bayer_stop; split <;> omega
    rw [← h]
    refine ⟨rfl, h1, ?_, rfl⟩
    show rr.1 ≤ d.bayer_end
    rcases h2 with h2 | h2
    · by_cases ha : 0 ≤ bayer_stop d len - d.bayer_from
      · have := hpos ha; omega
      · have := hneg (by omega); omega
    · omega

/-- One call of `dcm300_output` in non-raw mode, on a cursor that is as initialised or
in the frame: a call with `len > 0` leaves the cursor in the frame, any other call
leaves it as it was. -/
theorem output_cursor (d : dcm300) (len : Int) (out : List Nat) (r : dcm300 × List Nat)
    (hraw : d.raw = 0) (hw : 0 ≤ d.bayer_width)
    (hc : cursor_initial d ∨ cursor_in_frame d) (h : dcm300_output d len out = .ok r) :
    (cursor_initial r.1 ∨ cursor_in_frame r.1) ∧ (0 < len → cursor_in_frame r.1) := by
  have hfe : 0 ≤ d.bayer_from ∧ d.bayer_from ≤ d.bayer_end := by
    rcases hc with ⟨h1, h2, h3⟩ | ⟨h1, h2, h3⟩ <;> omega
  unfold dcm300_output at h
  split at h
  · rename_i hlen
    rw [if_neg (by simp [hraw])] at h
    obtain ⟨h1, h2, h3, h4⟩ := output_bayer_cursor d len out r hw hfe.2 h
    have hin : cursor_in_frame r.1 := ⟨h1, by omega, by rw [h4]; exact h3⟩
    exact ⟨Or.inr hin, fun _ => hin⟩
  · rename_i hlen
    rw [← Except.ok.inj h]
    exact ⟨hc, fun h0 => absurd h0 hlen⟩

theorem cursor_setup (d d1 : dcm300) (h : same_setup d d1) (hfr : d1.bayer_from = d.bayer_from)
    (hrd : d1.bayer_read = d.bayer_read) (hc : cursor_initial d ∨ cursor_in_frame d) :
    cursor_initial d1 ∨ cursor_in_frame d1 := by
  have he := (same_setup_width d d1 h).2.1
  unfold cursor_initial cursor_in_frame at hc ⊢
  rw [hfr, hrd, he]
  exact hc

theorem read_circular_cursor {σ : Type} (U : usb_device σ) (d : dcm300) (wd : world σ)
    (n : Nat) (r : Int × dcm300 × world σ) (h : read_circular U d wd n = .ok r)
    (hc : cursor_initial d ∨ cursor_in_frame d) :
    cursor_initial r.2.1 ∨ cursor_in_frame r.2.1 := by
  rw [read_circular_inv U d wd n r h]
  exact hc

/-- The content loop in non-raw mode keeps the cursor as initialised or in the frame. -/
theorem content_loop_cursor {σ : Type} (U : usb_device σ) (expect : Int) (fuel : Nat) :
    ∀ (i len : Int) (d : dcm300) (wd : world σ) (out : List Nat)
      (r : dcm300 × world σ × List Nat), d.raw = 0 → 0 ≤ d.bayer_width →
      (cursor_initial d ∨ cursor_in_frame d) →
      content_loop U expect fuel i len d wd out = .ok r →
      cursor_initial r.1 ∨ cursor_in_frame r.1 := by
  induction fuel with
  | zero =>
    intro i len d wd out r _ _ hc h
    unfold content_loop at h
    split at h
    · cases h
    · rw [← Except.ok.inj h]; exact hc
  | succ fuel ih =>
    intro i len d wd out r hraw hw hc h
    unfold content_loop at h
    split at h
    · obtain ⟨r1, hr1, h⟩ := bind_ok_inv _ _ _ h
      obtain ⟨r2, hr2, h⟩ := bind_ok_inv _ _ _ h
      have hs1 := same_setup_width _ _ (read_circular_setup U d wd _ r1 hr1)
      have hs2 := same_setup_width _ _ (output_setup _ _ _ r2 hr2)
      have hc1 := read_circular_cursor U d wd _ r1 hr1 hc
      have hc2 := (output_cursor r1.2.1 r1.1 out r2 (by rw [hs1.2.2.1]; exact hraw)
        (by rw [hs1.1]; exact hw) hc1 hr2).1
      exact ih _ _ _ _ _ r (by rw [hs2.2.2.1, hs1.2.2.1]; exact hraw)
        (by rw [hs2.1, hs1.1]; exact hw) hc2 h
    · rw [← Except.ok.inj h]; exact hc

/-- C19 as amended: in the real acquisition of `dcm300_get_image` in non-raw mode, for a
frame with `w * h < 2^31` (the product `expect_image = dcm300->w * dcm300->h` is an
`int` and is exact only then), the cursor initialisation sets `bayer_from = 0`,
`bayer_read = -64` (so `bayer_from <= bayer_read` does not hold there) and
`bayer_end = w * h`; every call of `dcm300_output` with `len > 0` that returns leaves
`bayer_from = bayer_read` with `0 <= bayer_read <= bayer_end`, every other call leaves
the cursor as it was; and when the acquisition returns the cursor is either still as
initialised or satisfies `bayer_from = bayer_read`, `0 <= bayer_read <= bayer_end`. -/
theorem cursor_stays_in_frame {σ : Type} (U : usb_device σ) (d : dcm300) (wd : world σ)
    (out : List Nat) (hraw : d.raw = 0) (hsize : d.w * d.h < 2 ^ 31) :
    cursor_initial (cursor_init d) ∧
    ((cursor_init d).bayer_end = ((d.w * d.h : Nat) : Int) ∧
      (cursor_init d).bayer_end < 2 ^ 31) ∧
    (∀ (d1 : dcm300) (len : Int) (out1 : List Nat) (r : dcm300 × List Nat),
      d1.raw = 0 → 0 ≤ d1.bayer_width → (cursor_initial d1 ∨ cursor_in_frame d1) →
      dcm300_output d1 len out1 = .ok r →
      (cursor_initial r.1 ∨ cursor_in_frame r.1) ∧ (0 < len → cursor_in_frame r.1)) ∧
    (∀ r : dcm300 × world σ × List Nat, get_image_real U d wd out = .ok r →
      cursor_initial r.1 ∨ cursor_in_frame r.1) := by
  have hinit : cursor_initial (cursor_init d) := by
    refine ⟨rfl, rfl, ?_⟩
    show (0 : Int) ≤ 0 + ((d.w : Nat) : Int) * ((d.h : Nat) : Int)
    positivity
  have hend : (cursor_init d).bayer_end = ((d.w * d.h : Nat) : Int) := by
    show (0 : Int) + ((d.w : Nat) : Int) * ((d.h : Nat) : Int) = ((d.w * d.h : Nat) : Int)
    push_cast
    ring
  refine ⟨hinit, ⟨hend, by rw [hend]; exact_mod_cast hsize⟩,
    fun d1 len out1 r h1 h2 h3 h4 => output_cursor d1 len out1 r h1 h2 h3 h4,
    fun r h => ?_⟩
  unfold get_image_real at h
  dsimp only at h
  obtain ⟨h1, hh1, h⟩ := bind_ok_inv _ _ _ h
  obtain ⟨r1, hr1, h⟩ := bind_ok_inv _ _ _ h
  obtain ⟨r2, hr2, h⟩ := bind_ok_inv _ _ _ h
  obtain ⟨r3, hr3, h⟩ := bind_ok_inv _ _ _ h
  obtain ⟨r4, hr4, h⟩ := bind_ok_inv _ _ _ h
  obtain ⟨r5, hr5, h⟩ := map_ok_inv _ _ _ h
  have hraw0 : (cursor_init d).raw = 0 := hraw
  have hw0 : (0 : Int) ≤ (cursor_init d).bayer_width := by
    show (0 : Int) ≤ ((d.w : Nat) : Int); omega
  obtain ⟨mem, hmem⟩ := output_header_frame (cursor_init d) h1.1 out h1.2 hh1
  have hch : cursor_initial h1.1 ∨ cursor_in_frame h1.1 := by
    rw [hmem]; exact Or.inl hinit
  have hsh := same_setup_width _ _ (output_header_setup _ _ h1 hh1)
  have hs1 := same_setup_width _ _ (read_circular_setup U _ _ _ r1 hr1)
  have hs2 := same_setup_width _ _ (output_setup _ _ _ r2 hr2)
  have hs3 := same_setup_width _ _ (content_loop_setup U _ _ _ _ _ _ _ r3 hr3)
  have hs4 := same_setup_width _ _ (read_circular_setup U _ _ _ r4 hr4)
  have hrawh : h1.1.raw = 0 := by rw [hsh.2.2.1]; exact hraw0
  have hwh : 0 ≤ h1.1.bayer_width := by rw [hsh.1]; exact hw0
  have hc1 := read_circular_cursor U _ _ _ r1 hr1 hch
  have hc2 := (output_cursor r1.2.1 r1.1 h1.2 r2 (by rw [hs1.2.2.1]; exact hrawh)
    (by rw [hs1.1]; exact hwh) hc1 hr2).1
  have hraw2 : r2.1.raw = 0 := by rw [hs2.2.2.1, hs1.2.2.1]; exact hrawh
  have hw2 : 0 ≤ r2.1.bayer_width := by rw [hs2.1, hs1.1]; exact hwh
  have hc3 := content_loop_cursor U _ _ _ _ _ _ _ r3 hraw2 hw2 hc2 hr3
  have hc4 := read_circular_cursor U _ _ _ r4 hr4 hc3
  have hc5 := (output_cursor r4.2.1 r4.1 r3.2.2 r5 (by rw [hs4.2.2.1, hs3.2.2.1]; exact hraw2)
    (by rw [hs4.1, hs3.1]; exact hw2) hc4 hr5).1
  rw [← h]
  exact hc5

theorem cursor_stays_in_frame_witness :
    cursor_in_frame
      { cursor_device 2 4 (ring_of [1, 2, 3, 4]) with bayer_from := 4, bayer_read := 4 } :=
  ((cursor_stays_in_frame no_usb (sim_device 256 256 0 (fun _ => 0)) (sim_world []) []
      rfl (by decide)).2.2.1 (cursor_device 2 4 (ring_of [1, 2, 3, 4])) 4 []
      ({ cursor_device 2 4 (ring_of [1, 2, 3, 4]) with bayer_from := 4, bayer_read := 4 },
       [1, 2, 4])
      rfl (by decide) (Or.inr ⟨rfl, by decide, by decide⟩) rfl).2 (by decide)

/-- C19 as stated fails at the cursor initialisation: `bayer_from = 0` and
`bayer_read = -64`, so `bayer_from <= bayer_read` is false there. -/
theorem cursor_init_breaks_order :
    ¬ ((cursor_init (main_device 0 (fun _ => 0))).bayer_from ≤
        (cursor_init (main_device 0 (fun _ => 0))).bayer_read ∧
       (cursor_init (main_device 0 (fun _ => 0))).bayer_read ≤
        (cursor_init (main_device 0 (fun _ => 0))).bayer_end) := by
  decide

/-! ## Theorems: a second acquisition -/

/-- What the real snapshot changes in the device structure: the cursor, as initialised
by `cursor_init` and then moved, and the ring. -/
theorem get_image_real_setup {σ : Type} (U : usb_device σ) (d : dcm300) (wd : world σ)
    (out : List Nat) (r : dcm300 × world σ × List Nat)
    (h : get_image_real U d wd out = .ok r) : same_setup (cursor_init d) r.1 := by
  unfold get_image_real at h
  dsimp only at h
  obtain ⟨h1, hh1, h⟩ := bind_ok_inv _ _ _ h
  obtain ⟨r1, hr1, h⟩ := bind_ok_inv _ _ _ h
  obtain ⟨r2, hr2, h⟩ := bind_ok_inv _ _ _ h
  obtain ⟨r3, hr3, h⟩ := bind_ok_inv _ _ _ h
  obtain ⟨r4, hr4, h⟩ := bind_ok_inv _ _ _ h
  obtain ⟨r5, hr5, h⟩ := map_ok_inv _ _ _ h
  rw [← h]
  exact same_setup_trans _ _ _ (output_header_setup _ _ h1 hh1)
    (same_setup_trans _ _ _ (read_circular_setup U _ _ _ r1 hr1)
      (same_setup_trans _ _ _ (output_setup _ _ _ r2 hr2)
        (same_setup_trans _ _ _ (content_loop_setup U _ _ _ _ _ _ _ r3 hr3)
          (same_setup_trans _ _ _ (read_circular_setup U _ _ _ r4 hr4)
            (output_setup _ _ _ r5 hr5)))))

/-- C16 (the second of two identical acquisitions does not repeat the first): with
`w = h = 256` in non-raw mode on a simulation fixture of 65536 bytes, a first call of
`dcm300_get_image` (entered with a ring pointer that leaves room for a chunk, as in the
zero-initialised handle) returns, has written the header and 48768 bytes of image, and
leaves the same parameters, the fixture open and the cursor at `bayer_read = 65024`.
A second call with the device structure and the world so left meets the same transport
results (the request write rewinds the fixture), but its warm-up stores the first
content chunk of 16384 bytes from ring offset `65024 mod 32768 = 32256` on, 15872 bytes
past the end of `bayer_circular` of the local copy `dcm300small`: it ends in the fault
`ring_overrun` and writes nothing. -/
theorem second_acquisition_overruns {σ : Type} (U : usb_device σ) (d : dcm300)
    (wd : world σ) (out : List Nat) (hsim : d.simulation = 1) (hfd : 0 < d.fd)
    (hraw : d.raw = 0) (hdw : d.w = 256) (hdh : d.h = 256)
    (hcirc : dcm300_circular d + 16384 ≤ BAYER_CIRCULAR) (hopen : wd.fd_open = true)
    (hlen : wd.file.length = 65536) (hb : ∀ b ∈ wd.file, b < 256) :
    ∃ res : dcm300 × world σ × List Nat,
      dcm300_get_image U d wd out = .ok res ∧
      res.2.2 = out ++ header_text d ++ demosaic 256 254 (wd.file.drop 64) ∧
      same_setup (cursor_init d) res.1 ∧ res.1.bayer_read = 65024 ∧
      res.2.1.fd_open = true ∧ res.2.1.file = wd.file ∧
      ∀ out2 : List Nat, dcm300_get_image U res.1 res.2.1 out2 = .error .ring_overrun := by
  obtain ⟨res, hrun, hsink, hread, hop, hfile⟩ := sim_get_image_256_state U d wd out hsim hfd
    hraw hdw hdh hcirc hopen hlen hb
  have hset : same_setup (cursor_init d) res.1 := by
    unfold dcm300_get_image at hrun
    obtain ⟨wd1, -, hreal⟩ := bind_ok_inv _ _ _ hrun
    exact get_image_real_setup U d wd1 out res hreal
  refine ⟨res, hrun, hsink, hset, hread, hop, hfile, fun out2 => ?_⟩
  obtain ⟨-, -, -, hkey, -, -⟩ := same_setup_width _ _ hset
  simp only [transport_key, Prod.mk.injEq] at hkey
  obtain ⟨hsim1, hfd1, -⟩ := hkey
  have hsim2 : res.1.simulation = 1 := by rw [hsim1]; exact hsim
  have hfd2 : 0 < res.1.fd := by rw [hfd1]; exact hfd
  have hc := circular_of_nonneg res.1 (by rw [hread]; omega)
  rw [hread] at hc
  have hs := sim_streams U res.1.fd res.1.usb_dev_handle hfd2 res.2.1.file
  have hws : (dcm300_write U (dcm300small res.1) res.2.1
      (dcm300_create_request (dcm300small res.1)).bytes).2 = { res.2.1 with offset := 0 } :=
    sim_write_world U _ _ _ (by exact hsim2) (by exact hfd2) hop
  unfold dcm300_get_image
  rw [get_image_warmup_overrun U _ _ _ hs (dcm300small res.1) res.2.1
      (by unfold transport_key; rw [show (dcm300small res.1).simulation = 1 from hsim2]; rfl)
      rfl rfl
      (by have : dcm300_circular (dcm300small res.1) = dcm300_circular res.1 := rfl
          have hB : BAYER_CIRCULAR = 32768 := rfl
          omega)
      (by rw [hws]; exact ⟨hop, rfl⟩)
      (by rw [hws]; show 64 + 16384 ≤ (res.2.1.file.drop 0).length
          rw [List.drop_zero, hfile, hlen]; omega),
    error_bind]

theorem second_acquisition_overruns_witness :
    ∃ res : dcm300 × world Unit × List Nat,
      dcm300_get_image no_usb (sim_device 256 256 0 (fun _ => 0))
        (sim_world (List.replicate 65536 7)) [] = .ok res ∧
      res.1.bayer_read = 65024 ∧
      dcm300_get_image no_usb res.1 res.2.1 [] = .error .ring_overrun := by
  obtain ⟨res, h1, -, -, h2, -, -, h3⟩ := second_acquisition_overruns no_usb
    (sim_device 256 256 0 (fun _ => 0)) (sim_world (List.replicate 65536 7)) [] rfl
    (by decide) rfl rfl rfl (by decide) rfl (List.length_replicate 65536 7)
    (fun b hb => by rw [(List.mem_replicate.mp hb).2]; decide)
  exact ⟨res, h1, h2, h3 []⟩

/-! ## Theorems: `bayer_circular_downscale` and `dcm300_scan` of the SANE backend -/

theorem downscale_columns_run (mem : Int → Nat) (w i : Int) :
    ∀ (k fuel : Nat) (j : Int) (rgb : List Nat), k ≤ fuel → 0 ≤ j →
      i + w ≤ j + 2 * (k : Int) →
      (k ≠ 0 → j + 2 * ((k : Int) - 1) < i + w) → rgb.length + 3 * k ≤ 3 * 8192 →
      Sane.downscale_columns mem w i fuel j rgb = .ok (rgb ++ row_pixels mem w j k, false) := by
  have hsize : Sane.rgb_size = 49152 := by decide
  intro k
  induction k with
  | zero =>
    intro fuel j rgb _ _ h1 _ _
    have hj : ¬ j < i + w := by simp at h1; omega
    cases fuel <;> simp [Sane.downscale_columns, hj, row_pixels_zero]
  | succ k ih =>
    intro fuel j rgb hf hj0 h1 h2 h3
    obtain ⟨fuel, rfl⟩ : ∃ f, fuel = f + 1 := ⟨fuel - 1, by omega⟩
    have hj : j < i + w := by
      have := h2 (by omega)
      push_cast at this
      omega
    have hlen : ¬ 3 * 8192 < (rgb ++ bayer_pixel mem w j).length := by
      rw [List.length_append, bayer_pixel_length]; omega
    rw [Sane.downscale_columns, if_pos hj, if_neg (by omega), if_neg (by rw [hsize]; omega),
      if_neg hlen,
      ih fuel (j + 2) _ (by omega) (by omega)
      (by push_cast at h1; omega) (by intro hk; omega)
      (by rw [List.length_append, bayer_pixel_length]; omega), row_pixels_succ,
      List.append_assoc]

/-- Without the ceiling `3*8192` being reached, `n` iterations of the rows loop of
`bayer_circular_downscale` store the pixels of `n` row pairs and leave `i` at
`bayer_last`. -/
theorem downscale_rows_run (mem : Int → Nat) (w : Int) (p : Nat) (hw : 1 ≤ w)
    (hp1 : w ≤ 2 * (p : Int)) (hp2 : 2 * ((p : Int) - 1) < w) :
    ∀ (n fuel : Nat) (i last : Int) (rgb : List Nat), n ≤ fuel → 0 ≤ i →
      last = i + (n : Int) * (2 * w) → rgb.length + 3 * p * n ≤ 3 * 8192 →
      Sane.downscale_rows mem w last fuel i rgb =
        .ok (last, rgb ++ rows_pixels mem w i p n) := by
  intro n
  induction n with
  | zero =>
    intro fuel i last rgb _ _ h1 _
    have hi : ¬ i < last := by simp at h1; omega
    cases fuel <;> simp [Sane.downscale_rows, hi, rows_pixels_zero] <;> omega
  | succ n ih =>
    intro fuel i last rgb hf hi0 h1 h3
    obtain ⟨fuel, rfl⟩ : ∃ f, fuel = f + 1 := ⟨fuel - 1, by omega⟩
    have hi : i < last := by
      push_cast at h1
      nlinarith
    have hpw : p ≤ w.toNat := by omega
    have hcols := downscale_columns_run mem w i p w.toNat i rgb hpw hi0 (by omega)
      (by intro _; omega) (by nlinarith)
    rw [Sane.downscale_rows, if_pos hi, hcols]
    simp only [ok_bind, Bool.false_eq_true, if_false]
    rw [ih fuel (i + 2 * w) last _ (by omega) (by omega) (by push_cast at h1; linarith)
      (by rw [List.length_append, row_pixels_length]; nlinarith), rows_pixels_succ,
      List.append_assoc]

/-- One call of `bayer_circular_downscale` with `n` whole row pairs of `p` pixels
between `bayer_start` and `bayer_stop`, below the ceiling: the pixels of these row pairs
are stored and `*bayer_start` advances past them. -/
theorem downscale_run (mem : Int → Nat) (w start stop : Int) (p n : Nat) (hw : 1 ≤ w)
    (hp1 : w ≤ 2 * (p : Int)) (hp2 : 2 * ((p : Int) - 1) < w) (hs0 : 0 ≤ start)
    (h1 : start + (n : Int) * (2 * w) ≤ stop)
    (h2 : stop < start + ((n : Int) + 1) * (2 * w)) (h3 : 3 * p * n ≤ 3 * 8192) :
    Sane.bayer_circular_downscale mem w start stop =
      .ok (start + (n : Int) * (2 * w), rows_pixels mem w start p n) := by
  have hlast : Sane.downscale_last w start stop = start + (n : Int) * (2 * w) := by
    unfold Sane.downscale_last
    rw [tmod_row_pairs (stop - start) (2 * w) n (by linarith) (by linarith)]
    ring
  have hfuel : n ≤ (Sane.downscale_last w start stop - start).toNat := by
    rw [hlast]
    have : (n : Int) ≤ (n : Int) * (2 * w) := by nlinarith
    omega
  unfold Sane.bayer_circular_downscale
  rw [if_neg (by omega), downscale_rows_run mem w p hw hp1 hp2 n _ start _ [] hfuel hs0 hlast
    (by simpa using h3), hlast]
  simp

theorem scan_returns_zero {σ : Type} (U : Sane.sanei_usb σ)
    (x1 y1 w1 h1 exposure gain_red gain_green gain_blue : Nat) (st : Sane.scan_state σ)
    (r : Int × Sane.scan_state σ)
    (h : Sane.dcm300_scan U x1 y1 w1 h1 exposure gain_red gain_green gain_blue st = .ok r) :
    r.1 = 0 := by
  unfold Sane.dcm300_scan at h
  obtain ⟨p0, -, h⟩ := bind_ok_inv _ _ _ h
  split at h
  · rw [← Except.ok.inj h]
  · obtain ⟨p1, -, h⟩ := map_ok_inv _ _ _ h
    rw [← h]

/-- C14 (the code reports success on an image size mismatch): `dcm300_scan` returns 0 on
every path, so `reader_process` never exits with `SANE_STATUS_IO_ERROR`.  On a device
that accepts the requests and answers every read with success and no data, both passes
run to their footer read, the RGB byte count after the footer of the real pass is 0
and not `3*1024*768`, nothing is handed to the callback, and yet `dcm300_scan` returns
0 and `reader_process` exits with `SANE_STATUS_GOOD`. -/
theorem scan_mismatch_reports_success :
    (∀ (σ : Type) (U : Sane.sanei_usb σ)
        (x1 y1 w1 h1 exposure gain_red gain_green gain_blue : Nat) (st : Sane.scan_state σ),
      (∀ r : Int × Sane.scan_state σ,
        Sane.dcm300_scan U x1 y1 w1 h1 exposure gain_red gain_green gain_blue st = .ok r →
        r.1 = 0) ∧
      Sane.reader_process U x1 y1 w1 h1 exposure gain_red gain_green gain_blue st ≠
        .ok Sane.SANE_STATUS_IO_ERROR) ∧
    (Sane.dcm300_scan (Sane.journal (Sane.scripted_usb 0)) 0 0 1024 768 200 31 25 40
        (Sane.scan_start ([], []))).toOption.map
      (fun r => (r.1, r.2.rgb_done, r.2.sent, r.2.udh.2)) =
      some (0, 0, [], [usb_call.bulk_write 64 0, usb_call.bulk_read 64 0,
        usb_call.bulk_read 16384 0, usb_call.bulk_read 16384 0,
        usb_call.bulk_write 64 0, usb_call.bulk_read 64 0,
        usb_call.bulk_read 16384 0, usb_call.bulk_read 16384 0]) ∧
    (Sane.reader_process (Sane.journal (Sane.scripted_usb 0)) 0 0 1024 768 200 31 25 40
        (Sane.scan_start ([], []))).toOption = some Sane.SANE_STATUS_GOOD := by
  refine ⟨fun σ U x1 y1 w1 h1 e gr gg gb st => ⟨fun r h =>
    scan_returns_zero U x1 y1 w1 h1 e gr gg gb st r h, fun h => ?_⟩, by decide, by decide⟩
  unfold Sane.reader_process at h
  obtain ⟨r, hr, h⟩ := map_ok_inv _ _ _ h
  rw [scan_returns_zero U x1 y1 w1 h1 e gr gg gb st r hr] at h
  revert h
  decide

/-- C13 as stated fails: the header read succeeds and the first content read fails
(status `SANE_STATUS_IO_ERROR`); the footer read of that pass is issued all the same,
and, as it succeeds, the second pass follows with its request write and three reads. -/
theorem content_read_failure_does_not_abort :
    (Sane.dcm300_scan (Sane.journal (Sane.scripted_usb 0)) 0 0 1024 768 200 31 25 40
        (Sane.scan_start ([(0, []), (9, [])], []))).toOption.map (fun r => r.2.udh.2) =
      some [usb_call.bulk_write 64 0, usb_call.bulk_read 64 0,
        usb_call.bulk_read 16384 9, usb_call.bulk_read 16384 0,
        usb_call.bulk_write 64 0, usb_call.bulk_read 64 0,
        usb_call.bulk_read 16384 0, usb_call.bulk_read 16384 0] := by
  decide

theorem scan_read_inv {σ : Type} (U : Sane.sanei_usb σ) (st : Sane.scan_state σ)
    (offset : Int) (n : Nat) (r : Int × Int × Sane.scan_state σ)
    (h : Sane.scan_read U st offset n = .ok r) :
    r = ((U.sanei_usb_read_bulk st.udh n).1.1,
         ((U.sanei_usb_read_bulk st.udh n).1.2.length : Int),
         { st with
           udh := (U.sanei_usb_read_bulk st.udh n).2
           replybuf := store_bytes st.replybuf offset.toNat
                         (U.sanei_usb_read_bulk st.udh n).1.2 }) ∧
    0 ≤ offset ∧
    offset + ((U.sanei_usb_read_bulk st.udh n).1.2.length : Int) ≤ BAYER_CIRCULAR := by
  unfold Sane.scan_read at h
  split at h
  · cases h
  · rename_i hc
    exact ⟨(Except.ok.inj h).symm, by omega, by omega⟩

theorem scan_keep_udh {σ : Type} (j : Nat) (st st1 : Sane.scan_state σ) (rgb : List Nat)
    (h : Sane.scan_keep j st rgb = .ok st1) :
    st1.udh = st.udh ∧ st1.bytes_read = st.bytes_read ∧ st1.bayer_from = st.bayer_from ∧
    st1.replybuf = st.replybuf ∧ st1.sent = st.sent := by
  unfold Sane.scan_keep at h
  by_cases h1 : j = 1 ∧ st.rgb_left > 0
  · rw [if_pos h1] at h
    by_cases h2 : st.rgb_done < 0 ∨
        st.rgb_done + (if st.rgb_left > rgb.length then (rgb.length : Int) else st.rgb_left)
          > Sane.rgbimage_size
    · rw [if_pos h2] at h; cases h
    · rw [if_neg h2] at h
      rw [← Except.ok.inj h]; exact ⟨rfl, rfl, rfl, rfl, rfl⟩
  · rw [if_neg h1] at h
    rw [← Except.ok.inj h]; exact ⟨rfl, rfl, rfl, rfl, rfl⟩

/-- A content read that fails ends the content loop on the spot: the state is the one
left by the read. -/
theorem scan_content_loop_failure {σ : Type} (U : Sane.sanei_usb σ) (j : Nat)
    (image_len bayer_width : Int) (fuel : Nat) (st : Sane.scan_state σ)
    (bulk_want bulk_len : Int) (hcond : st.bytes_read < image_len ∧ bulk_want = bulk_len)
    (hfail : (U.sanei_usb_read_bulk st.udh (Sane.to_size (Sane.ring_len st.bytes_read
      (Sane.content_want image_len st.bytes_read)))).1.1 ≠ Sane.SANE_STATUS_GOOD) :
    Sane.scan_content_loop U j image_len bayer_width (fuel + 1) st bulk_want bulk_len =
      (Sane.scan_read U st (Int.tmod st.bytes_read BAYER_CIRCULAR)
        (Sane.to_size (Sane.ring_len st.bytes_read
          (Sane.content_want image_len st.bytes_read)))).map (fun r => r.2.2) := by
  unfold Sane.scan_content_loop
  rw [if_pos hcond]
  cases hr : Sane.scan_read U st (Int.tmod st.bytes_read BAYER_CIRCULAR)
      (Sane.to_size (Sane.ring_len st.bytes_read
        (Sane.content_want image_len st.bytes_read))) with
  | error e => rfl
  | ok r =>
    rw [ok_bind, ok_map, if_pos]
    rw [(scan_read_inv U st _ _ r hr).1]
    exact hfail

/-- The bulk calls of the footer step: the footer read and nothing else; the step
leaves through `goto exitscan` exactly when that read fails. -/
theorem scan_footer_journal {σ : Type} (U : Sane.sanei_usb σ) (j : Nat)
    (image_len bayer_width : Int) (x1 y1 w1 h1 : Nat)
    (st : Sane.scan_state (σ × List usb_call))
    (r : Sane.scan_state (σ × List usb_call) × Bool)
    (h : Sane.scan_footer (Sane.journal U) j image_len bayer_width x1 y1 w1 h1 st = .ok r) :
    ∃ s : Int,
      r.1.udh.2 = st.udh.2 ++ [usb_call.bulk_read (Sane.to_size (Sane.ring_len st.bytes_read
        (Sane.footer_want image_len st.bytes_read))) s] ∧
      (r.2 = true ↔ s ≠ Sane.SANE_STATUS_GOOD) := by
  unfold Sane.scan_footer at h
  obtain ⟨r1, hr1, h⟩ := bind_ok_inv _ _ _ h
  obtain ⟨hr1', -, -⟩ := scan_read_inv _ st _ _ r1 hr1
  have hj : r1.2.2.udh.2 = st.udh.2 ++ [usb_call.bulk_read (Sane.to_size
      (Sane.ring_len st.bytes_read (Sane.footer_want image_len st.bytes_read))) r1.1] := by
    rw [hr1']; rfl
  refine ⟨r1.1, ?_⟩
  split at h
  · rename_i hs
    rw [← Except.ok.inj h]
    exact ⟨hj, by simp [hs]⟩
  · rename_i hs
    obtain ⟨ds, -, h⟩ := bind_ok_inv _ _ _ h
    obtain ⟨st2, hst2, h⟩ := bind_ok_inv _ _ _ h
    have hu := (scan_keep_udh j _ st2 _ hst2).1
    split at h
    · obtain ⟨sent, -, h⟩ := map_ok_inv _ _ _ h
      rw [← h]
      refine ⟨?_, by simpa using hs⟩
      show st2.udh.2 = _
      rw [hu]; exact hj
    · rw [← Except.ok.inj h]
      refine ⟨?_, by simpa using hs⟩
      show st2.udh.2 = _
      rw [hu]; exact hj

/-- C13 as amended: in a pass of `dcm300_scan`, when a bulk read of the content phase
fails, the content loop is left at once (no demosaic call for that chunk, `bytes_read`
unchanged, no further content read in that pass), but the acquisition is not aborted
there: exactly one more bulk call of that pass follows, the footer read, and the pass
leaves through `goto exitscan` only if that read fails too. -/
theorem content_read_failure_goes_to_footer {σ : Type} (U : Sane.sanei_usb σ) (j : Nat)
    (image_len bayer_width : Int) (x1 y1 w1 h1 fuel : Nat)
    (st : Sane.scan_state (σ × List usb_call)) (bulk_want bulk_len : Int)
    (hcond : st.bytes_read < image_len ∧ bulk_want = bulk_len)
    (hfail : (U.sanei_usb_read_bulk st.udh.1 (Sane.to_size (Sane.ring_len st.bytes_read
      (Sane.content_want image_len st.bytes_read)))).1.1 ≠ Sane.SANE_STATUS_GOOD)
    (J : List usb_call) (aborted : Bool)
    (hrun : ((Sane.scan_content_loop (Sane.journal U) j image_len bayer_width (fuel + 1) st
        bulk_want bulk_len).bind
          (Sane.scan_footer (Sane.journal U) j image_len bayer_width x1 y1 w1 h1)).toOption.map
        (fun r => (r.1.udh.2, r.2)) = some (J, aborted)) :
    ∃ s1 s2 : Int, s1 ≠ Sane.SANE_STATUS_GOOD ∧
      J = st.udh.2 ++
        [usb_call.bulk_read (Sane.to_size (Sane.ring_len st.bytes_read
            (Sane.content_want image_len st.bytes_read))) s1,
         usb_call.bulk_read (Sane.to_size (Sane.ring_len st.bytes_read
            (Sane.footer_want image_len st.bytes_read))) s2] ∧
      (aborted = true ↔ s2 ≠ Sane.SANE_STATUS_GOOD) := by
  rw [scan_content_loop_failure (Sane.journal U) j image_len bayer_width fuel st bulk_want
    bulk_len hcond (by exact hfail)] at hrun
  cases hr : Sane.scan_read (Sane.journal U) st (Int.tmod st.bytes_read BAYER_CIRCULAR)
      (Sane.to_size (Sane.ring_len st.bytes_read
        (Sane.content_want image_len st.bytes_read))) with
  | error e => rw [hr] at hrun; cases hrun
  | ok r1 =>
    rw [hr, ok_map, ok_bind] at hrun
    obtain ⟨hr1, -, -⟩ := scan_read_inv _ st _ _ r1 hr
    cases hf : Sane.scan_footer (Sane.journal U) j image_len bayer_width x1 y1 w1 h1 r1.2.2 with
    | error e => rw [hf] at hrun; cases hrun
    | ok r =>
      rw [hf] at hrun
      have hJ : (r.1.udh.2, r.2) = (J, aborted) := Option.some.inj hrun
      obtain ⟨s2, h2, h3⟩ := scan_footer_journal U j image_len bayer_width x1 y1 w1 h1 r1.2.2
        r hf
      have hb : r1.2.2.bytes_read = st.bytes_read := by rw [hr1]
      have hj1 : r1.2.2.udh.2 = st.udh.2 ++ [usb_call.bulk_read (Sane.to_size
          (Sane.ring_len st.bytes_read (Sane.content_want image_len st.bytes_read)))
          r1.1] := by
        rw [hr1]; rfl
      refine ⟨r1.1, s2, ?_, ?_, ?_⟩
      · rw [hr1]; exact hfail
      · rw [← (Prod.mk.inj hJ).1, h2, hb, hj1, List.append_assoc]
        rfl
      · rw [← (Prod.mk.inj hJ).2]; exact h3

theorem content_read_failure_goes_to_footer_witness :
    ∃ s1 s2 : Int, s1 ≠ Sane.SANE_STATUS_GOOD ∧
      [usb_call.bulk_read 16384 9, usb_call.bulk_read 16384 0] =
        (Sane.scan_start (([(9, [])] : List (Int × List Nat)), ([] : List usb_call))).udh.2 ++
        [usb_call.bulk_read (Sane.to_size (Sane.ring_len
            (Sane.scan_start (([(9, [])] : List (Int × List Nat)),
              ([] : List usb_call))).bytes_read
            (Sane.content_want 3145728
              (Sane.scan_start (([(9, [])] : List (Int × List Nat)),
                ([] : List usb_call))).bytes_read))) s1,
         usb_call.bulk_read (Sane.to_size (Sane.ring_len
            (Sane.scan_start (([(9, [])] : List (Int × List Nat)),
              ([] : List usb_call))).bytes_read
            (Sane.footer_want 3145728
              (Sane.scan_start (([(9, [])] : List (Int × List Nat)),
                ([] : List usb_call))).bytes_read))) s2] ∧
      (false = true ↔ s2 ≠ Sane.SANE_STATUS_GOOD) :=
  content_read_failure_goes_to_footer (Sane.scripted_usb 0) 0 3145728 2048 0 0 1024 768 7
    (Sane.scan_start ([(9, [])], [])) 0 0 (by decide) (by decide)
    [usb_call.bulk_read 16384 9, usb_call.bulk_read 16384 0] false (by decide)

theorem to_size_small (v : Int) (h0 : 0 ≤ v) (h1 : v ≤ 32768) :
    ((Sane.to_size v : Nat) : Int) = v := by
  unfold Sane.to_size
  rw [Int.emod_eq_of_lt h0 (by norm_num; omega)]
  omega

theorem ring_len_bounds (bytes_read bulk_want : Int) (hbr : 0 ≤ bytes_read)
    (hw1 : 1 ≤ bulk_want) (hw2 : bulk_want ≤ 16384) :
    0 ≤ Int.tmod bytes_read BAYER_CIRCULAR ∧ 1 ≤ Sane.ring_len bytes_read bulk_want ∧
    Sane.ring_len bytes_read bulk_want ≤ bulk_want ∧
    Int.tmod bytes_read BAYER_CIRCULAR + Sane.ring_len bytes_read bulk_want ≤ 32768 := by
  have hB : ((BAYER_CIRCULAR : Nat) : Int) = 32768 := rfl
  have hmod : Int.tmod bytes_read BAYER_CIRCULAR = bytes_read % 32768 := by
    rw [Int.tmod_eq_emod hbr (by rw [hB]; omega), hB]
  unfold Sane.ring_len
  rw [hmod, hB]
  split <;> omega

/-- A read of at most 16384 bytes that keeps inside the ring, issued on a device that
respects the size it is given, stores its data in the ring and does not touch the
cursor. -/
theorem scan_read_bounded {σ : Type} (U : Sane.sanei_usb σ) (hU : Sane.bounded_reads U)
    (st : Sane.scan_state σ) (bulk_want : Int) (hbr : 0 ≤ st.bytes_read)
    (hw1 : 1 ≤ bulk_want) (hw2 : bulk_want ≤ 16384) :
    ∃ r : Int × Int × Sane.scan_state σ,
      Sane.scan_read U st (Int.tmod st.bytes_read BAYER_CIRCULAR)
        (Sane.to_size (Sane.ring_len st.bytes_read bulk_want)) = .ok r ∧
      0 ≤ r.2.1 ∧ r.2.1 ≤ bulk_want ∧ r.2.2.bytes_read = st.bytes_read ∧
      r.2.2.bayer_from = st.bayer_from ∧ r.2.2.rgb_done = st.rgb_done ∧
      r.2.2.rgb_left = st.rgb_left := by
  obtain ⟨h1, h2, h3, h4⟩ := ring_len_bounds st.bytes_read bulk_want hbr hw1 hw2
  have hsz := to_size_small (Sane.ring_len st.bytes_read bulk_want) (by omega) (by omega)
  have hlen := hU st.udh (Sane.to_size (Sane.ring_len st.bytes_read bulk_want))
  have hB : ((BAYER_CIRCULAR : Nat) : Int) = 32768 := rfl
  unfold Sane.scan_read
  rw [if_neg (by rw [hB] at h1 h4 ⊢; omega)]
  exact ⟨_, rfl, by simp, by simp only; omega, rfl, rfl, rfl, rfl⟩

/-- The demosaic call on a window of less than five row pairs of a 2048-byte-wide frame:
it returns, and leaves `bayer_from` less than one row pair short of `bayer_stop`. -/
theorem downscale_window (mem : Int → Nat) (start stop : Int) (hs0 : 0 ≤ start)
    (h1 : start ≤ stop) (h2 : stop - start < 20480) :
    ∃ ds : Int × List Nat,
      Sane.bayer_circular_downscale mem 2048 start stop = .ok ds ∧
      start ≤ ds.1 ∧ ds.1 ≤ stop ∧ stop - ds.1 < 4096 ∧ ds.2.length ≤ 12288 := by
  obtain ⟨n, hn⟩ : ∃ n : Nat, (n : Int) = (stop - start) / 4096 :=
    ⟨((stop - start) / 4096).toNat, by omega⟩
  have hrun := downscale_run mem 2048 start stop 1024 n (by omega) (by omega) (by omega) hs0
    (by omega) (by omega) (by omega)
  refine ⟨_, hrun, by simp only; omega, by simp only; omega, by simp only; omega, ?_⟩
  simp only
  rw [rows_pixels_length]
  omega

theorem scan_keep_inv {σ : Type} (j : Nat) (st : Sane.scan_state σ) (rgb : List Nat)
    (h1 : 0 ≤ st.rgb_done) (h2 : 0 ≤ st.rgb_left)
    (h3 : st.rgb_done + st.rgb_left = 3 * 1024 * 768) :
    ∃ st1 : Sane.scan_state σ, Sane.scan_keep j st rgb = .ok st1 ∧
      st1.bytes_read = st.bytes_read ∧ st1.bayer_from = st.bayer_from ∧
      0 ≤ st1.rgb_done ∧ 0 ≤ st1.rgb_left ∧
      st1.rgb_done + st1.rgb_left = 3 * 1024 * 768 := by
  have hsize : ((Sane.rgbimage_size : Nat) : Int) = 3 * 1024 * 768 := rfl
  unfold Sane.scan_keep
  by_cases hc : j = 1 ∧ st.rgb_left > 0
  · rw [if_pos hc, if_neg (by rw [hsize]; split <;> omega)]
    refine ⟨_, rfl, rfl, rfl, ?_, ?_, ?_⟩ <;> simp only <;> split <;> omega
  · rw [if_neg hc]
    exact ⟨st, rfl, rfl, rfl, h1, h2, h3⟩

theorem content_want_bounds (bytes_read : Int) (h : bytes_read < 3145728) :
    1 ≤ Sane.content_want 3145728 bytes_read ∧
    Sane.content_want 3145728 bytes_read ≤ 16384 ∧
    Sane.content_want 3145728 bytes_read ≤ 3145728 - bytes_read := by
  unfold Sane.content_want Sane.bulk_content_len
  split <;> omega

theorem footer_want_bounds (bytes_read : Int) (h : bytes_read ≤ 3145728) :
    1 ≤ Sane.footer_want 3145728 bytes_read ∧
    Sane.footer_want 3145728 bytes_read ≤ 16384 := by
  unfold Sane.footer_want Sane.bulk_content_len Sane.bulk_footer_len
  split <;> omega

/-- One iteration of the content loop of `dcm300_scan` on a 2048 x 1536 frame, from a
cursor satisfying `window_inv`: the read keeps inside the ring, the live window at the
demosaic call lies between 0 and 32768, and the iteration ends in a cursor satisfying
`window_inv` again. -/
theorem scan_content_step {σ : Type} (U : Sane.sanei_usb σ) (hU : Sane.bounded_reads U)
    (j fuel : Nat) (st : Sane.scan_state σ) (bulk_want bulk_len : Int)
    (hinv : Sane.window_inv st) (hcond : st.bytes_read < 3145728 ∧ bulk_want = bulk_len) :
    ∃ r : Int × Int × Sane.scan_state σ,
      Sane.scan_read U st (Int.tmod st.bytes_read BAYER_CIRCULAR)
        (Sane.to_size (Sane.ring_len st.bytes_read
          (Sane.content_want 3145728 st.bytes_read))) = .ok r ∧
      0 ≤ r.2.2.bytes_read + r.2.1 - r.2.2.bayer_from ∧
      r.2.2.bytes_read + r.2.1 - r.2.2.bayer_from ≤ 32768 ∧
      (r.1 ≠ Sane.SANE_STATUS_GOOD →
        Sane.scan_content_loop U j 3145728 2048 (fuel + 1) st bulk_want bulk_len = .ok r.2.2 ∧
        Sane.window_inv r.2.2) ∧
      (r.1 = Sane.SANE_STATUS_GOOD →
        ∃ st1 : Sane.scan_state σ, Sane.window_inv st1 ∧
          st1.bytes_read = st.bytes_read + r.2.1 ∧
          (r.2.1 = Sane.content_want 3145728 st.bytes_read → 1 ≤ r.2.1) ∧
          Sane.scan_content_loop U j 3145728 2048 (fuel + 1) st bulk_want bulk_len =
            Sane.scan_content_loop U j 3145728 2048 fuel st1
              (Sane.content_want 3145728 st.bytes_read) r.2.1) := by
  obtain ⟨i1, i2, i3, i4, i5, i6, i7⟩ := hinv
  obtain ⟨w1, w2, w3⟩ := content_want_bounds st.bytes_read hcond.1
  obtain ⟨r, hr, r1, r2, r3, r4, r5, r6⟩ := scan_read_bounded U hU st
    (Sane.content_want 3145728 st.bytes_read) (by omega) w1 w2
  refine ⟨r, hr, by omega, by omega, fun hs => ?_, fun hs => ?_⟩
  · refine ⟨?_, ⟨by omega, by omega, by omega, by omega, by omega, by omega, by omega⟩⟩
    unfold Sane.scan_content_loop
    rw [if_pos hcond, hr, ok_bind, if_pos hs]
  · obtain ⟨ds, hds, d1, d2, d3, -⟩ := downscale_window r.2.2.replybuf r.2.2.bayer_from
      (r.2.2.bytes_read + r.2.1) (by omega) (by omega) (by omega)
    obtain ⟨st2, hst2, k1, k2, k3, k4, k5⟩ := scan_keep_inv j
      { r.2.2 with bayer_from := ds.1 } ds.2 (by show 0 ≤ r.2.2.rgb_done; omega)
      (by show 0 ≤ r.2.2.rgb_left; omega)
      (by show r.2.2.rgb_done + r.2.2.rgb_left = _; omega)
    have k1' : st2.bytes_read = r.2.2.bytes_read := k1
    have k2' : st2.bayer_from = ds.1 := k2
    refine ⟨{ st2 with bytes_read := st2.bytes_read + r.2.1 }, ⟨?_, ?_, ?_, ?_, k3, k4, k5⟩,
      ?_, fun h => by omega, ?_⟩
    · show 0 ≤ st2.bayer_from; omega
    · show st2.bayer_from ≤ st2.bytes_read + r.2.1; omega
    · show st2.bytes_read + r.2.1 - st2.bayer_from < 4096; omega
    · show st2.bytes_read + r.2.1 ≤ 3145728; omega
    · show st2.bytes_read + r.2.1 = _; omega
    · unfold Sane.scan_content_loop
      rw [if_pos hcond, hr, ok_bind, if_neg (by simp [hs]), hds, ok_bind, hst2, ok_bind]
      cases fuel <;> rfl

/-- The content loop of `dcm300_scan` on a 2048 x 1536 frame, with a device that respects
the size it is given and one unit of fuel for every byte still expected: it returns, and
the cursor satisfies `window_inv` at its end as at its start. -/
theorem scan_content_loop_inv {σ : Type} (U : Sane.sanei_usb σ) (hU : Sane.bounded_reads U)
    (j fuel : Nat) :
    ∀ (st : Sane.scan_state σ) (bulk_want bulk_len : Int), Sane.window_inv st →
      (bulk_want = bulk_len → 1 ≤ bulk_len → 3145728 - st.bytes_read < (fuel : Int)) →
      (bulk_want = bulk_len → bulk_len < 1 → 3145728 - st.bytes_read < (fuel : Int)) →
      ∃ st1 : Sane.scan_state σ,
        Sane.scan_content_loop U j 3145728 2048 fuel st bulk_want bulk_len = .ok st1 ∧
        Sane.window_inv st1 := by
  induction fuel with
  | zero =>
    intro st want len hinv hf1 hf2
    refine ⟨st, ?_, hinv⟩
    unfold Sane.scan_content_loop
    rw [if_neg]
    rintro ⟨h1, h2⟩
    by_cases hl : 1 ≤ len
    · have := hf1 h2 hl; omega
    · have := hf2 h2 (by omega); omega
  | succ fuel ih =>
    intro st want len hinv hf1 hf2
    by_cases hcond : st.bytes_read < 3145728 ∧ want = len
    · obtain ⟨r, -, -, -, hbad, hgood⟩ := scan_content_step U hU j fuel st want len hinv hcond
      by_cases hs : r.1 = Sane.SANE_STATUS_GOOD
      · obtain ⟨st1, hinv1, hb1, hpos, heq⟩ := hgood hs
        have hfuel : 3145728 - st.bytes_read < ((fuel + 1 : Nat) : Int) := by
          by_cases hl : 1 ≤ len
          · exact hf1 hcond.2 hl
          · exact hf2 hcond.2 (by omega)
        rw [heq]
        refine ih st1 _ _ hinv1 (fun h hl => ?_) (fun h hl => ?_)
        · rw [hb1]; push_cast at hfuel; omega
        · have := hpos h.symm; omega
      · exact ⟨r.2.2, (hbad hs).1, (hbad hs).2⟩
    · refine ⟨st, ?_, hinv⟩
      unfold Sane.scan_content_loop
      rw [if_neg hcond]

/-- The footer step of `dcm300_scan` on a 2048 x 1536 frame, from a cursor satisfying
`window_inv`: the read keeps inside the ring, the live window at the demosaic call lies
between 0 and 32768, and the demosaic call returns. -/
theorem scan_footer_step {σ : Type} (U : Sane.sanei_usb σ) (hU : Sane.bounded_reads U)
    (st : Sane.scan_state σ) (hinv : Sane.window_inv st) :
    ∃ r : Int × Int × Sane.scan_state σ,
      Sane.scan_read U st (Int.tmod st.bytes_read BAYER_CIRCULAR)
        (Sane.to_size (Sane.ring_len st.bytes_read
          (Sane.footer_want 3145728 st.bytes_read))) = .ok r ∧
      0 ≤ r.2.2.bytes_read + r.2.1 - r.2.2.bayer_from ∧
      r.2.2.bytes_read + r.2.1 - r.2.2.bayer_from ≤ 32768 ∧
      ∃ ds : Int × List Nat,
        Sane.bayer_circular_downscale r.2.2.replybuf 2048 r.2.2.bayer_from
          (r.2.2.bytes_read + r.2.1) = .ok ds ∧
        r.2.2.bytes_read + r.2.1 - ds.1 < 4096 := by
  obtain ⟨i1, i2, i3, i4, i5, i6, i7⟩ := hinv
  obtain ⟨w1, w2⟩ := footer_want_bounds st.bytes_read i4
  obtain ⟨r, hr, r1, r2, r3, r4, r5, r6⟩ := scan_read_bounded U hU st
    (Sane.footer_want 3145728 st.bytes_read) (by omega) w1 w2
  obtain ⟨ds, hds, d1, d2, d3, -⟩ := downscale_window r.2.2.replybuf r.2.2.bayer_from
    (r.2.2.bytes_read + r.2.1) (by omega) (by omega) (by omega)
  exact ⟨r, hr, by omega, by omega, ds, hds, d3⟩

theorem scan_snapshot_size (exposure gain_red gain_green gain_blue : Nat) :
    Sane.to_int ((Sane.scan_snapshot exposure gain_red gain_green gain_blue).resolution_x *
        (Sane.scan_snapshot exposure gain_red gain_green gain_blue).resolution_y) = 3145728 ∧
      Sane.to_int (Sane.scan_snapshot exposure gain_red gain_green gain_blue).resolution_x
        = 2048 := by
  have h1 : (Sane.scan_snapshot exposure gain_red gain_green gain_blue).resolution_x
      = 2048 := by
    show 0xfff0 &&& (2 * 1024) = 2048
    decide
  have h2 : (Sane.scan_snapshot exposure gain_red gain_green gain_blue).resolution_y
      = 1536 := by
    show 0xfff0 &&& (2 * 768) = 1536
    decide
  rw [h1, h2]
  exact ⟨by decide, by decide⟩

/-- C20: in `dcm300_scan` the request is for a raw frame 2048 bytes wide and
`2048*1536` bytes long, and the content loop is entered with a cursor satisfying
`window_inv`.  For every device that returns between 0 and the requested number of
bytes, and from every cursor satisfying `window_inv`: at the call of
`bayer_circular_downscale` of a content iteration and of the footer step the live window
`(bytes_read + bulk_len) - bayer_from` lies between 0 and 32768; a content iteration
ends in a cursor satisfying `window_inv` again; and the content loop as a whole returns
with such a cursor. -/
theorem scan_window_bounded {σ : Type} (U : Sane.sanei_usb σ) (hU : Sane.bounded_reads U)
    (j : Nat) (st : Sane.scan_state σ) (hinv : Sane.window_inv st) :
    (∀ exposure gain_red gain_green gain_blue : Nat,
      Sane.to_int ((Sane.scan_snapshot exposure gain_red gain_green gain_blue).resolution_x *
        (Sane.scan_snapshot exposure gain_red gain_green gain_blue).resolution_y) = 3145728 ∧
      Sane.to_int (Sane.scan_snapshot exposure gain_red gain_green gain_blue).resolution_x
        = 2048) ∧
    (∀ st0 : Sane.scan_state σ,
      Sane.window_inv { st0 with bayer_from := 0, rgb_left := 3 * 1024 * 768, rgb_done := 0,
                                 bytes_read := 0 }) ∧
    (∀ (fuel : Nat) (bulk_want bulk_len : Int),
      st.bytes_read < 3145728 ∧ bulk_want = bulk_len →
      ∃ r : Int × Int × Sane.scan_state σ,
        Sane.scan_read U st (Int.tmod st.bytes_read BAYER_CIRCULAR)
          (Sane.to_size (Sane.ring_len st.bytes_read
            (Sane.content_want 3145728 st.bytes_read))) = .ok r ∧
        0 ≤ r.2.2.bytes_read + r.2.1 - r.2.2.bayer_from ∧
        r.2.2.bytes_read + r.2.1 - r.2.2.bayer_from ≤ 32768 ∧
        (r.1 ≠ Sane.SANE_STATUS_GOOD →
          Sane.scan_content_loop U j 3145728 2048 (fuel + 1) st bulk_want bulk_len
            = .ok r.2.2 ∧ Sane.window_inv r.2.2) ∧
        (r.1 = Sane.SANE_STATUS_GOOD →
          ∃ st1 : Sane.scan_state σ, Sane.window_inv st1 ∧
            st1.bytes_read = st.bytes_read + r.2.1 ∧
            Sane.scan_content_loop U j 3145728 2048 (fuel + 1) st bulk_want bulk_len =
              Sane.scan_content_loop U j 3145728 2048 fuel st1
                (Sane.content_want 3145728 st.bytes_read) r.2.1)) ∧
    (∃ r : Int × Int × Sane.scan_state σ,
      Sane.scan_read U st (Int.tmod st.bytes_read BAYER_CIRCULAR)
        (Sane.to_size (Sane.ring_len st.bytes_read
          (Sane.footer_want 3145728 st.bytes_read))) = .ok r ∧
      0 ≤ r.2.2.bytes_read + r.2.1 - r.2.2.bayer_from ∧
      r.2.2.bytes_read + r.2.1 - r.2.2.bayer_from ≤ 32768 ∧
      ∃ ds : Int × List Nat,
        Sane.bayer_circular_downscale r.2.2.replybuf 2048 r.2.2.bayer_from
          (r.2.2.bytes_read + r.2.1) = .ok ds ∧
        r.2.2.bytes_read + r.2.1 - ds.1 < 4096) ∧
    (∀ (bulk_want bulk_len : Int),
      ∃ st1 : Sane.scan_state σ,
        Sane.scan_content_loop U j 3145728 2048 ((3145728 - st.bytes_read).toNat + 1) st
          bulk_want bulk_len = .ok st1 ∧ Sane.window_inv st1) := by
  refine ⟨fun e gr gg gb => scan_snapshot_size e gr gg gb, fun st0 => ?_,
    fun fuel want len hc => ?_,
    scan_footer_step U hU st hinv, fun want len => ?_⟩
  · refine ⟨le_refl _, le_refl _, ?_, ?_, le_refl _, ?_, ?_⟩
    · show (0 : Int) - 0 < 4096
      omega
    · show (0 : Int) ≤ 3145728
      omega
    · show (0 : Int) ≤ 3 * 1024 * 768
      omega
    · show (0 : Int) + 3 * 1024 * 768 = 3 * 1024 * 768
      omega
  · obtain ⟨r, h1, h2, h3, h4, h5⟩ := scan_content_step U hU j fuel st want len hinv hc
    refine ⟨r, h1, h2, h3, h4, fun hs => ?_⟩
    obtain ⟨st1, a1, a2, -, a4⟩ := h5 hs
    exact ⟨st1, a1, a2, a4⟩
  · have h4 := hinv.2.2.2.1
    exact scan_content_loop_inv U hU j _ st want len hinv (fun _ _ => by omega)
      (fun _ _ => by omega)

theorem scan_window_bounded_witness :
    ∃ st1 : Sane.scan_state (List Nat),
      Sane.scan_content_loop Sane.stream_usb 1 3145728 2048
        ((3145728 - ({ Sane.scan_start [1, 2, 3] with
              bayer_from := 0, rgb_left := 3 * 1024 * 768, rgb_done := 0,
              bytes_read := 0 } : Sane.scan_state (List Nat)).bytes_read).toNat + 1)
        { Sane.scan_start [1, 2, 3] with
          bayer_from := 0, rgb_left := 3 * 1024 * 768, rgb_done := 0, bytes_read := 0 }
        0 0 = .ok st1 ∧ Sane.window_inv st1 :=
  (scan_window_bounded Sane.stream_usb (fun st n => List.length_take_le n st) 1
    { Sane.scan_start [1, 2, 3] with
      bayer_from := 0, rgb_left := 3 * 1024 * 768, rgb_done := 0, bytes_read := 0 }
    ⟨by decide, by decide, by decide, by decide, by decide, by decide, by decide⟩).2.2.2.2 0 0

/-! ## The two encoders agree -/

/-- C24: for resolution, offset and exposure values below 65536 that are the same
on both sides, and gains that agree modulo 256 (signed 8-bit values in `dcm300.c`,
unsigned 8-bit values in `sane-dcm300.c`), the two functions `dcm300_create_request`
produce the same 64 bytes, the byte at offset 14 being `0xbf`. -/
theorem encoders_agree (d : dcm300) (s : Sane.dcm300_snapshot) (hd : d.wf) (hs : s.wf)
    (hw : s.resolution_x = d.w) (hh : s.resolution_y = d.h) (hx : s.offset_x = d.x)
    (hy : s.offset_y = d.y) (he : s.exposure = d.exposure)
    (hr : (s.gain_red : Int) % 256 = d.red % 256)
    (hg : (s.gain_green : Int) % 256 = d.green % 256)
    (hb : (s.gain_blue : Int) % 256 = d.blue % 256) :
    (dcm300_create_request d).bytes = (Sane.dcm300_create_request s).bytes ∧
    (dcm300_create_request d).bytes.length = 64 ∧
    (dcm300_create_request d).bytes.getD 14 0 = 0xbf ∧
    (Sane.dcm300_create_request s).bytes.getD 14 0 = 0xbf := by
  obtain ⟨_, _, _, _, hde, _, _, _⟩ := hd
  obtain ⟨_, _, _, _, _, _, _, _⟩ := hs
  have hgain : ∀ (u : Nat) (v : Int), (u : Int) % 256 = v % 256 → toU8 v = u % 256 := by
    intro u v h
    unfold toU8
    omega
  have hexp : (d.exposure + 20) % 2 ^ 32 = d.exposure + 20 := by omega
  rw [create_request_bytes, sane_create_request_bytes, hw, hh, hx, hy, he, hexp,
    hgain _ _ hr, hgain _ _ hg, hgain _ _ hb]
  exact ⟨rfl, rfl, rfl, rfl⟩

/-- The encoders agree on the settings of the simulation device with gains -1 on one
side and 255 on the other. -/
theorem encoders_agree_witness :
    (dcm300_create_request { sim_device 256 256 0 (fun _ => 0) with
        exposure := 500, red := -1, green := 26, blue := -128 }).bytes =
      (Sane.dcm300_create_request
        { resolution_x := 256, resolution_y := 256, offset_x := 0, offset_y := 0,
          exposure := 500, gain_red := 255, gain_green := 26, gain_blue := 128 }).bytes :=
  (encoders_agree _ _ (by simp [dcm300.wf, sim_device]) (by simp [Sane.dcm300_snapshot.wf])
    rfl rfl rfl rfl rfl (by decide) (by decide) (by decide)).1

/-! ## The read requests of `dcm300_scan` -/

/-- The value of `bulk_want` in the content loop lies between 1 and 16384 while
`bytes_read < image_len`. -/
theorem content_want_range (image_len bytes_read : Int) (h : bytes_read < image_len) :
    1 ≤ Sane.content_want image_len bytes_read ∧
    Sane.content_want image_len bytes_read ≤ 16384 := by
  unfold Sane.content_want Sane.bulk_content_len
  split <;> omega

/-- The value of `bulk_want` in the footer step lies between 1 and 16384 while
`bytes_read ≤ image_len`. -/
theorem footer_want_range (image_len bytes_read : Int) (h : bytes_read ≤ image_len) :
    1 ≤ Sane.footer_want image_len bytes_read ∧
    Sane.footer_want image_len bytes_read ≤ 16384 := by
  unfold Sane.footer_want Sane.bulk_content_len Sane.bulk_footer_len
  split <;> omega

/-- The length given to a read lies between 1 and 16384 and keeps the destination
inside the ring, for every `bulk_want` between 1 and 16384. -/
theorem request_range (bytes_read bulk_want : Int) (hbr : 0 ≤ bytes_read)
    (hw1 : 1 ≤ bulk_want) (hw2 : bulk_want ≤ 16384) :
    1 ≤ Sane.to_size (Sane.ring_len bytes_read bulk_want) ∧
    Sane.to_size (Sane.ring_len bytes_read bulk_want) ≤ 16384 ∧
    Int.tmod bytes_read BAYER_CIRCULAR +
      (Sane.to_size (Sane.ring_len bytes_read bulk_want) : Int) ≤ BAYER_CIRCULAR := by
  obtain ⟨h1, h2, h3, h4⟩ := ring_len_bounds bytes_read bulk_want hbr hw1 hw2
  have hsz := to_size_small (Sane.ring_len bytes_read bulk_want) (by omega) (by omega)
  refine ⟨by omega, by omega, ?_⟩
  rw [hsz]
  exact h4

/-- C28: in `dcm300_scan`, at every `bytes_read` between 0 and `image_len`, the length
requested by the content loop (while `bytes_read < image_len`) and by the footer step
is at least 1 and at most 16384, and `bytes_read % BAYER_CIRCULAR` plus this length is
at most 32768; on a device that stores no more than requested the read returns with
its data inside the ring. -/
theorem scan_requests_inside_ring {σ : Type} (U : Sane.sanei_usb σ)
    (hU : Sane.bounded_reads U) (st : Sane.scan_state σ) (image_len : Int)
    (h0 : 0 ≤ st.bytes_read) (h1 : st.bytes_read ≤ image_len) :
    (st.bytes_read < image_len →
      1 ≤ Sane.to_size (Sane.ring_len st.bytes_read
            (Sane.content_want image_len st.bytes_read)) ∧
      Sane.to_size (Sane.ring_len st.bytes_read
            (Sane.content_want image_len st.bytes_read)) ≤ 16384 ∧
      Int.tmod st.bytes_read BAYER_CIRCULAR +
        (Sane.to_size (Sane.ring_len st.bytes_read
            (Sane.content_want image_len st.bytes_read)) : Int) ≤ BAYER_CIRCULAR ∧
      ∃ r, Sane.scan_read U st (Int.tmod st.bytes_read BAYER_CIRCULAR)
        (Sane.to_size (Sane.ring_len st.bytes_read
            (Sane.content_want image_len st.bytes_read))) = .ok r) ∧
    (1 ≤ Sane.to_size (Sane.ring_len st.bytes_read
            (Sane.footer_want image_len st.bytes_read)) ∧
      Sane.to_size (Sane.ring_len st.bytes_read
            (Sane.footer_want image_len st.bytes_read)) ≤ 16384 ∧
      Int.tmod st.bytes_read BAYER_CIRCULAR +
        (Sane.to_size (Sane.ring_len st.bytes_read
            (Sane.footer_want image_len st.bytes_read)) : Int) ≤ BAYER_CIRCULAR ∧
      ∃ r, Sane.scan_read U st (Int.tmod st.bytes_read BAYER_CIRCULAR)
        (Sane.to_size (Sane.ring_len st.bytes_read
            (Sane.footer_want image_len st.bytes_read))) = .ok r) := by
  constructor
  · intro hlt
    obtain ⟨a1, a2⟩ := content_want_range image_len st.bytes_read hlt
    obtain ⟨b1, b2, b3⟩ := request_range st.bytes_read _ h0 a1 a2
    obtain ⟨r, hr, -⟩ := scan_read_bounded U hU st _ h0 a1 a2
    exact ⟨b1, b2, b3, r, hr⟩
  · obtain ⟨a1, a2⟩ := footer_want_range image_len st.bytes_read h1
    obtain ⟨b1, b2, b3⟩ := request_range st.bytes_read _ h0 a1 a2
    obtain ⟨r, hr, -⟩ := scan_read_bounded U hU st _ h0 a1 a2
    exact ⟨b1, b2, b3, r, hr⟩

/-- At `bytes_read = 3145727`, one byte before the end of the image and of the ring,
the content loop asks for 1 byte and the footer step for 1 byte as well. -/
theorem scan_requests_inside_ring_witness :
    Sane.to_size (Sane.ring_len 3145727 (Sane.content_want 3145728 3145727)) = 1 ∧
    Sane.to_size (Sane.ring_len 3145727 (Sane.footer_want 3145728 3145727)) = 1 ∧
    1 ≤ Sane.to_size (Sane.ring_len 3145727 (Sane.footer_want 3145728 3145727)) :=
  ⟨by decide, by decide,
   (scan_requests_inside_ring Sane.stream_usb (fun st n => List.length_take_le n st)
      { Sane.scan_start [1, 2, 3] with bytes_read := 3145727 } 3145728
      (by decide) (by decide)).2.1⟩

/-! ## Theorems: whole row pairs, and the two demosaic functions side by side -/

/-- The floor behind `whole_row_pairs`: `n` row pairs fit and `n + 1` do not. -/
theorem whole_row_pairs_floor (w start stop : Int) (hw : 1 ≤ w) (h : start ≤ stop) :
    (whole_row_pairs w start stop : Int) = (stop - start) / (2 * w) ∧
    start + (whole_row_pairs w start stop : Int) * (2 * w) ≤ stop ∧
    stop < start + ((whole_row_pairs w start stop : Int) + 1) * (2 * w) := by
  have hb : (0 : Int) < 2 * w := by omega
  have h0 : 0 ≤ (stop - start) / (2 * w) := Int.ediv_nonneg (by omega) hb.le
  have h1 := Int.emod_add_ediv (stop - start) (2 * w)
  have h2 := Int.emod_nonneg (stop - start) hb.ne'
  have h3 := Int.emod_lt_of_pos (stop - start) hb
  unfold whole_row_pairs
  rw [Int.toNat_of_nonneg h0]
  refine ⟨rfl, ?_, ?_⟩ <;> nlinarith

/-- No row pair lies before `bayer_start`. -/
theorem whole_row_pairs_none (w start stop : Int) (hw : 1 ≤ w) (h : stop < start) :
    whole_row_pairs w start stop = 0 := by
  have h1 : (stop - start) / (2 * w) < 0 := Int.ediv_neg' (by omega) (by omega)
  unfold whole_row_pairs
  omega

/-- The rows loop of `dcm300_output_bayer` entered at or beyond `bayer_last`. -/
theorem bayer_rows_done (mem : Int → Nat) (w last : Int) (fuel : Nat) (i : Int)
    (rgb : List Nat) (h : ¬ i < last) : bayer_rows mem w last fuel i rgb = .ok (i, rgb) := by
  cases fuel <;> simp [bayer_rows, h]

/-- The rows loop of `bayer_circular_downscale` entered at or beyond `bayer_last`. -/
theorem downscale_rows_done (mem : Int → Nat) (w last : Int) (fuel : Nat) (i : Int)
    (rgb : List Nat) (h : ¬ i < last) :
    Sane.downscale_rows mem w last fuel i rgb = .ok (i, rgb) := by
  cases fuel <;> simp [Sane.downscale_rows, h]

/-- One call of `dcm300_output_bayer` below the output ceiling, for any `bayer_stop`:
the pixels of the whole row pairs are emitted and both cursor fields are set to where
the last of them ends. -/
theorem output_bayer_rows (d : dcm300) (len : Int) (out : List Nat) (w : Nat)
    (hwd : d.bayer_width = (w : Int)) (hw : 1 ≤ w) (hf0 : 0 ≤ d.bayer_from)
    (hceil : 3 * ((w + 1) / 2) * whole_row_pairs w d.bayer_from (bayer_stop d len)
      ≤ RGB_MAX) :
    dcm300_output_bayer d len out =
      .ok ({ d with
             bayer_from := d.bayer_from +
               (whole_row_pairs w d.bayer_from (bayer_stop d len) : Int) * (2 * (w : Int)),
             bayer_read := d.bayer_from +
               (whole_row_pairs w d.bayer_from (bayer_stop d len) : Int) * (2 * (w : Int)) },
           out ++ rows_pixels d.bayer_circular w d.bayer_from ((w + 1) / 2)
             (whole_row_pairs w d.bayer_from (bayer_stop d len))) := by
  by_cases hs : d.bayer_from ≤ bayer_stop d len
  · obtain ⟨-, h1, h2⟩ := whole_row_pairs_floor w d.bayer_from (bayer_stop d len)
      (by omega) hs
    rw [output_bayer_run d len out ((w + 1) / 2) _ (by omega) (by omega) (by omega) hf0
      (by rw [hwd]; exact h1) (by rw [hwd]; exact h2) hceil, hwd]
  · have hn := whole_row_pairs_none w d.bayer_from (bayer_stop d len) (by omega) (by omega)
    have hlast : ¬ d.bayer_from < bayer_last d len := by
      have := (row_pairs_span (bayer_stop d len - d.bayer_from) (2 * d.bayer_width)
        (by omega)).2.2 (by omega)
      unfold bayer_last
      omega
    unfold dcm300_output_bayer
    rw [if_neg (by omega), bayer_rows_done _ _ _ _ _ _ hlast, hn]
    simp [rows_pixels_zero, Except.map]

/-- One call of `bayer_circular_downscale` below its ceiling of `3*8192` bytes, for any
`bayer_stop`. -/
theorem downscale_rows_all (mem : Int → Nat) (w : Nat) (start stop : Int) (hw : 1 ≤ w)
    (hs0 : 0 ≤ start) (hceil : 3 * ((w + 1) / 2) * whole_row_pairs w start stop ≤ 3 * 8192) :
    Sane.bayer_circular_downscale mem w start stop =
      .ok (start + (whole_row_pairs w start stop : Int) * (2 * (w : Int)),
           rows_pixels mem w start ((w + 1) / 2) (whole_row_pairs w start stop)) := by
  by_cases hs : start ≤ stop
  · obtain ⟨-, h1, h2⟩ := whole_row_pairs_floor w start stop (by omega) hs
    exact downscale_run mem w start stop ((w + 1) / 2) _ (by omega) (by omega) (by omega) hs0
      h1 h2 hceil
  · have hn := whole_row_pairs_none w start stop (by omega) (by omega)
    have hlast : ¬ start < Sane.downscale_last w start stop := by
      have := (row_pairs_span (stop - start) (2 * (w : Int)) (by omega)).2.2 (by omega)
      unfold Sane.downscale_last
      omega
    unfold Sane.bayer_circular_downscale
    rw [if_neg (by omega), downscale_rows_done _ _ _ _ _ _ hlast, hn]
    simp [rows_pixels_zero, Except.map]

/-- C21: for a cursor with `bayer_width = w >= 1`, `len > 0`,
`stop = min(bayer_read + len, bayer_end) >= bayer_from` and the output ceiling not
reached, `dcm300_output_bayer` sets `bayer_from` and `bayer_read` to
`last = bayer_from + floor((stop - bayer_from) / (2*w)) * (2*w)` and emits exactly the
pixels of the `(last - bayer_from) / (2*w)` whole row pairs, `ceil(w/2)` RGB triplets
for each, and nothing of the row pair that is still incomplete. -/
theorem output_bayer_emits_whole_rows (d : dcm300) (len : Int) (out : List Nat) (w : Nat)
    (hwd : d.bayer_width = (w : Int)) (hw : 1 ≤ w) (_hlen : 0 < len)
    (hf0 : 0 ≤ d.bayer_from) (hstop : d.bayer_from ≤ bayer_stop d len)
    (hceil : 3 * ((w + 1) / 2) * whole_row_pairs w d.bayer_from (bayer_stop d len)
      ≤ RGB_MAX) :
    bayer_stop d len = min (d.bayer_read + len) d.bayer_end ∧
    dcm300_output_bayer d len out =
      .ok ({ d with
             bayer_from := d.bayer_from +
               (bayer_stop d len - d.bayer_from) / (2 * (w : Int)) * (2 * (w : Int)),
             bayer_read := d.bayer_from +
               (bayer_stop d len - d.bayer_from) / (2 * (w : Int)) * (2 * (w : Int)) },
           out ++ rows_pixels d.bayer_circular w d.bayer_from ((w + 1) / 2)
             (whole_row_pairs w d.bayer_from (bayer_stop d len))) ∧
    (rows_pixels d.bayer_circular w d.bayer_from ((w + 1) / 2)
        (whole_row_pairs w d.bayer_from (bayer_stop d len))).length
      = 3 * ((w + 1) / 2) * whole_row_pairs w d.bayer_from (bayer_stop d len) ∧
    (whole_row_pairs w d.bayer_from (bayer_stop d len) : Int)
      = (d.bayer_from + (bayer_stop d len - d.bayer_from) / (2 * (w : Int)) * (2 * (w : Int))
          - d.bayer_from) / (2 * (w : Int)) := by
  obtain ⟨hn, -, -⟩ := whole_row_pairs_floor w d.bayer_from (bayer_stop d len) (by omega) hstop
  refine ⟨?_, ?_, rows_pixels_length _ _ _ _ _, ?_⟩
  · unfold bayer_stop
    split
    · rw [min_eq_right (by omega)]
    · rw [min_eq_left (by omega)]
  · rw [output_bayer_rows d len out w hwd hw hf0 hceil, hn]
  · rw [hn, add_sub_cancel_left, Int.mul_ediv_cancel _ (by omega)]

/-- A chunk of 10 bytes at a cursor of width 2 standing at 0: two whole row pairs give
two pixels, the last two bytes stay for the next call. -/
theorem output_bayer_emits_whole_rows_witness :
    dcm300_output_bayer (cursor_device 2 100 (ring_of [1, 2, 3, 4, 5, 6, 7, 8, 9, 10])) 10 []
      = .ok ({ cursor_device 2 100 (ring_of [1, 2, 3, 4, 5, 6, 7, 8, 9, 10]) with
               bayer_from := 8, bayer_read := 8 }, [1, 2, 4, 5, 6, 8]) :=
  (output_bayer_emits_whole_rows (cursor_device 2 100 (ring_of [1, 2, 3, 4, 5, 6, 7, 8, 9, 10]))
    10 [] 2 rfl (by decide) (by decide) (by decide) (by decide) (by decide)).2.1

/-- C26: for an even width `w >= 2`, a cursor with `bayer_from = bayer_read >= 0` and a
chunk length `0 < len <= MAXBULK`, `dcm300_output_bayer` returns with at most `RGB_MAX`
bytes stored in `rgb_array` (no store at an index `>= RGB_MAX`, which would be the fault
`rgb_array_overrun`), and the rows loop runs to its end: the cursor is left at the end
of the last whole row pair, not at a row reached by `goto force_exit`. -/
theorem output_bayer_fits_rgb_array (d : dcm300) (len : Int) (out : List Nat) (w : Nat)
    (hwd : d.bayer_width = (w : Int)) (hw2 : 2 ≤ w) (heven : w % 2 = 0)
    (hfr : d.bayer_from = d.bayer_read) (hf0 : 0 ≤ d.bayer_read) (_hlen : 0 < len)
    (hmax : len ≤ MAXBULK) :
    dcm300_output_bayer d len out =
      .ok ({ d with
             bayer_from := d.bayer_from +
               (whole_row_pairs w d.bayer_from (bayer_stop d len) : Int) * (2 * (w : Int)),
             bayer_read := d.bayer_from +
               (whole_row_pairs w d.bayer_from (bayer_stop d len) : Int) * (2 * (w : Int)) },
           out ++ rows_pixels d.bayer_circular w d.bayer_from (w / 2)
             (whole_row_pairs w d.bayer_from (bayer_stop d len))) ∧
    (rows_pixels d.bayer_circular w d.bayer_from (w / 2)
        (whole_row_pairs w d.bayer_from (bayer_stop d len))).length ≤ RGB_MAX := by
  have hM : ((MAXBULK : Nat) : Int) = 16384 := rfl
  have hR : RGB_MAX = 12288 := rfl
  have hp : (w + 1) / 2 = w / 2 := by omega
  have hceil : 3 * (w / 2) * whole_row_pairs w d.bayer_from (bayer_stop d len) ≤ RGB_MAX := by
    by_cases hs : d.bayer_from ≤ bayer_stop d len
    · obtain ⟨-, h1, -⟩ := whole_row_pairs_floor w d.bayer_from (bayer_stop d len)
        (by omega) hs
      have hst : bayer_stop d len ≤ d.bayer_read + len := by
        unfold bayer_stop
        split <;> omega
      obtain ⟨k, hk⟩ : ∃ k, w = 2 * k := ⟨w / 2, by omega⟩
      have hk2 : w / 2 = k := by omega
      have e : (whole_row_pairs w d.bayer_from (bayer_stop d len) : Int) * (2 * (w : Int))
          = 4 * ((k * whole_row_pairs w d.bayer_from (bayer_stop d len) : Nat) : Int) := by
        rw [hk]; push_cast; ring
      rw [hk2, hR, Nat.mul_assoc]
      omega
    · rw [whole_row_pairs_none w d.bayer_from (bayer_stop d len) (by omega) (by omega)]
      omega
  refine ⟨?_, by rw [rows_pixels_length]; exact hceil⟩
  rw [← hp]
  exact output_bayer_rows d len out w hwd (by omega) (by omega) (by rw [hp]; exact hceil)

/-- A chunk of 16 bytes on a frame of width 4: two row pairs of two pixels. -/
theorem output_bayer_fits_rgb_array_witness :
    dcm300_output_bayer
        (cursor_device 4 100 (ring_of [1, 2, 3, 4, 5, 6, 7, 8, 9, 10, 11, 12, 13, 14, 15, 16]))
        16 []
      = .ok ({ cursor_device 4 100
                 (ring_of [1, 2, 3, 4, 5, 6, 7, 8, 9, 10, 11, 12, 13, 14, 15, 16]) with
               bayer_from := 16, bayer_read := 16 },
             [1, 3, 6, 3, 5, 8, 9, 11, 14, 11, 13, 16]) :=
  (output_bayer_fits_rgb_array
    (cursor_device 4 100 (ring_of [1, 2, 3, 4, 5, 6, 7, 8, 9, 10, 11, 12, 13, 14, 15, 16]))
    16 [] 4 rfl (by decide) (by decide) rfl (by decide) (by decide) (by decide)).1

/-- C25: for every ring content, width `w >= 1`, `bayer_from >= 0` and stop value for
which the demosaiced output is at most 12288 bytes, `dcm300_output_bayer`, whose
`bayer_stop` is `min(bayer_read + len, bayer_end)`, and `bayer_circular_downscale` called
with the same ring, width, `bayer_from` and `bayer_stop` store the same RGB bytes and
compute the same new `bayer_from`. -/
theorem output_bayer_matches_downscale (d : dcm300) (len : Int) (out : List Nat) (w : Nat)
    (hwd : d.bayer_width = (w : Int)) (hw : 1 ≤ w) (hf0 : 0 ≤ d.bayer_from)
    (hceil : 3 * ((w + 1) / 2) * whole_row_pairs w d.bayer_from (bayer_stop d len) ≤ 12288) :
    bayer_stop d len = min (d.bayer_read + len) d.bayer_end ∧
    ∃ (next : Int) (rgb : List Nat),
      dcm300_output_bayer d len out
        = .ok ({ d with bayer_from := next, bayer_read := next }, out ++ rgb) ∧
      Sane.bayer_circular_downscale d.bayer_circular d.bayer_width d.bayer_from
        (bayer_stop d len) = .ok (next, rgb) ∧
      rgb.length = 3 * ((w + 1) / 2) * whole_row_pairs w d.bayer_from (bayer_stop d len) := by
  constructor
  · unfold bayer_stop
    split
    · rw [min_eq_right (by omega)]
    · rw [min_eq_left (by omega)]
  · refine ⟨_, _, output_bayer_rows d len out w hwd hw hf0 hceil, ?_,
      rows_pixels_length _ _ _ _ _⟩
    rw [hwd]
    exact downscale_rows_all d.bayer_circular w d.bayer_from (bayer_stop d len) hw hf0
      (by omega)

/-- Both functions on a ring holding 1..10, width 2, `bayer_from = 0` and
`bayer_stop = 10`: the pixels `[1, 2, 4]` and `[5, 6, 8]`, and the new `bayer_from` 8. -/
theorem output_bayer_matches_downscale_witness :
    ∃ (next : Int) (rgb : List Nat),
      dcm300_output_bayer (cursor_device 2 100 (ring_of [1, 2, 3, 4, 5, 6, 7, 8, 9, 10])) 10 [0]
        = .ok ({ cursor_device 2 100 (ring_of [1, 2, 3, 4, 5, 6, 7, 8, 9, 10]) with
                 bayer_from := next, bayer_read := next }, [0] ++ rgb) ∧
      Sane.bayer_circular_downscale (ring_of [1, 2, 3, 4, 5, 6, 7, 8, 9, 10]) 2 0 10
        = .ok (next, rgb) ∧
      rgb.length = 6 :=
  (output_bayer_matches_downscale (cursor_device 2 100 (ring_of [1, 2, 3, 4, 5, 6, 7, 8, 9, 10]))
    10 [0] 2 rfl (by decide) (by decide) (by decide)).2

/-- The inner loop of `dcm300_output_bayer` never returns through `goto force_exit`:
when the test `irgb > RGB_MAX` holds, the three stores before it have gone beyond
`rgb_array`. -/
theorem bayer_columns_no_force_exit (mem : Int → Nat) (w i : Int) (fuel : Nat) :
    ∀ (j : Int) (rgb : List Nat) (r : List Nat × Bool),
      bayer_columns mem w i fuel j rgb = .ok r → r.2 = false := by
  induction fuel with
  | zero =>
    intro j rgb r h
    unfold bayer_columns at h
    by_cases hj : j < i + w
    · rw [if_pos hj] at h
      cases h
    · rw [if_neg hj] at h
      cases h
      rfl
  | succ fuel ih =>
    intro j rgb r h
    unfold bayer_columns at h
    by_cases hj : j < i + w
    · rw [if_pos hj] at h
      by_cases h0 : j < 0
      · rw [if_pos h0] at h
        cases h
      · rw [if_neg h0] at h
        by_cases h1 : RGB_MAX < rgb.length + 3
        · rw [if_pos h1] at h
          cases h
        · have h2 : ¬ RGB_MAX < (rgb ++ bayer_pixel mem w j).length := by
            rw [List.length_append, bayer_pixel_length]
            exact h1
          rw [if_neg h1, if_neg h2] at h
          exact ih _ _ _ h
    · rw [if_neg hj] at h
      cases h
      rfl

/-- C22 (the code does not resume after the ceiling): a call of `dcm300_output_bayer`
with more than `RGB_MAX` bytes of pixels between `bayer_from` and `bayer_stop` does not
stop cleanly at the ceiling.  The pixel that takes `irgb` beyond `RGB_MAX` is stored
beyond the end of `rgb_array` before the test `irgb > RGB_MAX` is made, and the inner
loop never returns through `goto force_exit` otherwise. -/
theorem force_exit_follows_overrun (d : dcm300) (len : Int) (out : List Nat) (w : Nat)
    (hwd : d.bayer_width = (w : Int)) (hw : 1 ≤ w) (hf0 : 0 ≤ d.bayer_from)
    (hstop : d.bayer_from ≤ bayer_stop d len)
    (hceil : RGB_MAX < 3 * ((w + 1) / 2) * whole_row_pairs w d.bayer_from (bayer_stop d len)) :
    dcm300_output_bayer d len out = .error .rgb_array_overrun ∧
    ∀ (fuel : Nat) (i j : Int) (rgb : List Nat) (r : List Nat × Bool),
      bayer_columns d.bayer_circular d.bayer_width i fuel j rgb = .ok r → r.2 = false := by
  refine ⟨?_, fun fuel i j rgb r h => bayer_columns_no_force_exit _ _ _ fuel j rgb r h⟩
  obtain ⟨-, h1, h2⟩ := whole_row_pairs_floor w d.bayer_from (bayer_stop d len) (by omega)
    hstop
  have hR : RGB_MAX = 12288 := rfl
  have hp : 1 ≤ (w + 1) / 2 := by omega
  have hdm := Nat.div_add_mod 4096 ((w + 1) / 2)
  have hq : 4096 % ((w + 1) / 2) < (w + 1) / 2 := Nat.mod_lt _ (by omega)
  have hnm : 4096 / ((w + 1) / 2) < whole_row_pairs w d.bayer_from (bayer_stop d len) := by
    rw [hR, Nat.mul_assoc] at hceil
    have : (w + 1) / 2 * (4096 / ((w + 1) / 2))
        < (w + 1) / 2 * whole_row_pairs w d.bayer_from (bayer_stop d len) := by omega
    exact Nat.lt_of_mul_lt_mul_left this
  exact output_bayer_overrun d len out ((w + 1) / 2) (4096 % ((w + 1) / 2))
    (4096 / ((w + 1) / 2)) _ (by omega) (by omega) (by omega) hq hnm hf0
    (by rw [hwd]; exact h1) (by rw [hwd]; exact h2)
    (by rw [hR, Nat.mul_assoc]; omega) (by rw [hR, Nat.mul_assoc]; omega)

/-- The failing input: `bayer_width = 1`, `bayer_from = bayer_read = 0`,
`bayer_end = 16384` and a chunk of 16384 bytes, 8192 pixels where 4096 fit. -/
theorem force_exit_follows_overrun_witness :
    dcm300_output_bayer (cursor_device 1 16384 (ring_of [1, 2, 3])) 16384 [80, 54]
      = .error .rgb_array_overrun :=
  (force_exit_follows_overrun (cursor_device 1 16384 (ring_of [1, 2, 3])) 16384 [80, 54] 1
    rfl (by decide) (by decide) (by decide) (by decide)).1

/-! ## Theorems: the ring in raw mode on hardware -/

/-- C27 (the code stores a content chunk beyond the ring in raw mode): with `w = 2048`,
`h = 1536` in raw mode on a USB transport that returns every requested byte, the real
snapshot reads its header at ring offset `off = 32704` (`bayer_read = -64`, 64 bytes,
inside the ring), `dcm300_output` in raw mode leaves `bayer_read` at -64, and the first
content read asks for `n = 16384` bytes at the same offset: `off + n = 49088 > 32768`,
and `dcm300_get_image` ends in the fault `ring_overrun`. -/
theorem raw_content_read_leaves_ring (d : dcm300) (wd : world (List Nat)) (out : List Nat)
    (hsim : d.simulation ≠ 1) (hh : d.usb_dev_handle = true) (hraw : d.raw ≠ 0)
    (hdw : d.w = 2048) (hdh : d.h = 1536)
    (hlen : (64 + 16384 + 256) + (64 + 2048 * 1536 + 256) ≤ wd.usb.length) :
    dcm300_circular (cursor_init d) = 32704 ∧
    BAYER_CIRCULAR < dcm300_circular (cursor_init d) + MAXBULK ∧
    dcm300_get_image stream_usb d wd out = .error .ring_overrun := by
  have hs := usb_streams d.simulation d.fd hsim
  have hkey : transport_key d = (d.simulation, d.fd, true) := by
    unfold transport_key; rw [hh]
  have hc0 : dcm300_circular (cursor_init d) = 32704 := circular_minus_64 _ rfl
  have hws : (dcm300_write stream_usb (dcm300small d) wd
      (dcm300_create_request (dcm300small d)).bytes).2 = wd :=
    usb_write_world _ _ _ (by exact hsim) (by exact hh)
  refine ⟨hc0, by rw [hc0]; decide, ?_⟩
  unfold dcm300_get_image
  by_cases hfit : dcm300_circular d + 16384 ≤ BAYER_CIRCULAR
  · obtain ⟨wd1, hwarm, -, hp1⟩ := get_image_warmup_streams stream_usb _ _ _ hs
      (dcm300small d) wd (by exact hkey) rfl rfl (by exact hfit) trivial
      (by rw [hws]; show 64 + 16384 ≤ wd.usb.length; omega)
    rw [hws] at hp1
    have hp1' : wd1.usb = wd.usb.drop (64 + 16384 + 256) := hp1
    have hwr : (dcm300_write stream_usb (cursor_init d) wd1
        (dcm300_create_request (cursor_init d)).bytes).2 = wd1 :=
      usb_write_world _ _ _ (by exact hsim) (by exact hh)
    rw [hwarm, ok_bind]
    exact get_image_real_raw_overrun stream_usb _ _ _ hs d wd1 out hkey hraw
      (by rw [hdw, hdh]; omega) trivial
      (by rw [hwr]; show 64 + 65 ≤ wd1.usb.length
          rw [hp1', List.length_drop]; omega)
  · rw [get_image_warmup_overrun stream_usb _ _ _ hs (dcm300small d) wd (by exact hkey) rfl rfl
      (by have : dcm300_circular (dcm300small d) = dcm300_circular d := rfl
          omega)
      trivial (by rw [hws]; show 64 + 16384 ≤ wd.usb.length; omega),
      error_bind]

/-- The device structure of `main` with the raw flag set, on a camera that sends all
the bytes of the warm-up and of the 2048 x 1536 frame. -/
theorem raw_content_read_leaves_ring_witness :
    dcm300_get_image stream_usb (main_device 1 (fun _ => 0))
        (usb_world (List.replicate 3162752 7)) [] = .error .ring_overrun :=
  (raw_content_read_leaves_ring (main_device 1 (fun _ => 0))
    (usb_world (List.replicate 3162752 7)) [] (by decide) rfl (by decide) rfl rfl
    (by rw [show (usb_world (List.replicate 3162752 7)).usb.length = 3162752 from
      List.length_replicate 3162752 7])).2.2

/-! ## Theorems: the crop rectangle -/

/-- The callback loop of `dcm300_scan` when every row slice lies inside `rgbimage`. -/
theorem scan_send_ok (rgbimage : Int → Nat) (x1 y1 w1 : Nat) :
    ∀ (rows : List Nat) (sent : List (List Nat)),
      (∀ i ∈ rows, (3 * (1024 * (i + y1) + x1)) % 2 ^ 32 + (3 * w1) % 2 ^ 32
        ≤ Sane.rgbimage_size) →
      Sane.scan_send rgbimage x1 y1 w1 rows sent =
        .ok (sent ++ rows.map (fun i =>
          load_bytes rgbimage ((3 * (1024 * (i + y1) + x1)) % 2 ^ 32) ((3 * w1) % 2 ^ 32))) := by
  intro rows
  induction rows with
  | nil =>
    intro sent _
    simp [Sane.scan_send]
  | cons i rest ih =>
    intro sent h
    rw [Sane.scan_send, if_pos (h i (List.mem_cons_self _ _)),
      ih _ (fun k hk => h k (List.mem_cons_of_mem _ hk))]
    simp

/-- C29: for a crop rectangle with `0 <= left <= right <= 1023` and
`0 <= top <= bottom <= 767`, `calculateDerivedValues` sets
`scan_width_pixels = right - left + 1` and `scan_height_pixels = bottom - top + 1`, and
with the arguments `x1 = left`, `y1 = top`, `w1 = scan_width_pixels`,
`h1 = scan_height_pixels` that `reader_process` passes, each of the `h1` row slices
handed to the callback starts at byte `3*(1024*(i + top) + left)`, is `3*w1` bytes long
and ends inside the `3*1024*768` bytes of `rgbimage`; the callback loop hands over all
`h1` slices. -/
theorem crop_rows_inside_image (scanner : Sane.dcm300_data) (rgbimage : Int → Nat)
    (sent : List (List Nat))
    (hl0 : 0 ≤ scanner.request_pixel.left)
    (hlr : scanner.request_pixel.left ≤ scanner.request_pixel.right)
    (hr : scanner.request_pixel.right ≤ 1023)
    (ht0 : 0 ≤ scanner.request_pixel.top)
    (htb : scanner.request_pixel.top ≤ scanner.request_pixel.bottom)
    (hb : scanner.request_pixel.bottom ≤ 767) :
    (Sane.calculateDerivedValues scanner).scan_width_pixels
      = scanner.request_pixel.right - scanner.request_pixel.left + 1 ∧
    (Sane.calculateDerivedValues scanner).scan_height_pixels
      = scanner.request_pixel.bottom - scanner.request_pixel.top + 1 ∧
    (∀ i : Nat, i < (Sane.scan_window (Sane.calculateDerivedValues scanner)).2.2.2 →
      (((3 * (1024 * (i + (Sane.scan_window (Sane.calculateDerivedValues scanner)).2.1)
          + (Sane.scan_window (Sane.calculateDerivedValues scanner)).1)) % 2 ^ 32 : Nat) : Int)
        = 3 * (1024 * ((i : Int) + scanner.request_pixel.top) + scanner.request_pixel.left) ∧
      (((3 * (Sane.scan_window (Sane.calculateDerivedValues scanner)).2.2.1) % 2 ^ 32 : Nat)
          : Int)
        = 3 * (scanner.request_pixel.right - scanner.request_pixel.left + 1) ∧
      (3 * (1024 * (i + (Sane.scan_window (Sane.calculateDerivedValues scanner)).2.1)
          + (Sane.scan_window (Sane.calculateDerivedValues scanner)).1)) % 2 ^ 32
        + (3 * (Sane.scan_window (Sane.calculateDerivedValues scanner)).2.2.1) % 2 ^ 32
        ≤ 3 * 1024 * 768) ∧
    Sane.scan_send rgbimage (Sane.scan_window (Sane.calculateDerivedValues scanner)).1
        (Sane.scan_window (Sane.calculateDerivedValues scanner)).2.1
        (Sane.scan_window (Sane.calculateDerivedValues scanner)).2.2.1
        (List.range (Sane.scan_window (Sane.calculateDerivedValues scanner)).2.2.2) sent
      = .ok (sent ++
          (List.range (Sane.scan_window (Sane.calculateDerivedValues scanner)).2.2.2).map
            (fun i => load_bytes rgbimage
              ((3 * (1024 * (i + (Sane.scan_window (Sane.calculateDerivedValues scanner)).2.1)
                + (Sane.scan_window (Sane.calculateDerivedValues scanner)).1)) % 2 ^ 32)
              ((3 * (Sane.scan_window (Sane.calculateDerivedValues scanner)).2.2.1)
                % 2 ^ 32))) := by
  have hx : ((Sane.scan_window (Sane.calculateDerivedValues scanner)).1 : Int)
      = scanner.request_pixel.left := by
    show ((Sane.to_unsigned scanner.request_pixel.left : Nat) : Int) = _
    unfold Sane.to_unsigned
    omega
  have hy : ((Sane.scan_window (Sane.calculateDerivedValues scanner)).2.1 : Int)
      = scanner.request_pixel.top := by
    show ((Sane.to_unsigned scanner.request_pixel.top : Nat) : Int) = _
    unfold Sane.to_unsigned
    omega
  have hw : ((Sane.scan_window (Sane.calculateDerivedValues scanner)).2.2.1 : Int)
      = scanner.request_pixel.right - scanner.request_pixel.left + 1 := by
    show ((Sane.to_unsigned
      (scanner.request_pixel.right - scanner.request_pixel.left + 1) : Nat) : Int) = _
    unfold Sane.to_unsigned
    omega
  have hh : ((Sane.scan_window (Sane.calculateDerivedValues scanner)).2.2.2 : Int)
      = scanner.request_pixel.bottom - scanner.request_pixel.top + 1 := by
    show ((Sane.to_unsigned
      (scanner.request_pixel.bottom - scanner.request_pixel.top + 1) : Nat) : Int) = _
    unfold Sane.to_unsigned
    omega
  generalize (Sane.scan_window (Sane.calculateDerivedValues scanner)).1 = x1 at hx ⊢
  generalize (Sane.scan_window (Sane.calculateDerivedValues scanner)).2.1 = y1 at hy ⊢
  generalize (Sane.scan_window (Sane.calculateDerivedValues scanner)).2.2.1 = w1 at hw ⊢
  generalize (Sane.scan_window (Sane.calculateDerivedValues scanner)).2.2.2 = h1 at hh ⊢
  have hrows : ∀ i : Nat, i < h1 →
      (((3 * (1024 * (i + y1) + x1)) % 2 ^ 32 : Nat) : Int)
        = 3 * (1024 * ((i : Int) + scanner.request_pixel.top) + scanner.request_pixel.left) ∧
      (((3 * w1) % 2 ^ 32 : Nat) : Int)
        = 3 * (scanner.request_pixel.right - scanner.request_pixel.left + 1) ∧
      (3 * (1024 * (i + y1) + x1)) % 2 ^ 32 + (3 * w1) % 2 ^ 32 ≤ 3 * 1024 * 768 := by
    intro i hi
    have e1 : 3 * (1024 * (i + y1) + x1) < 2 ^ 32 := by omega
    have e2 : 3 * w1 < 2 ^ 32 := by omega
    rw [Nat.mod_eq_of_lt e1, Nat.mod_eq_of_lt e2]
    refine ⟨by push_cast; omega, by push_cast; omega, by omega⟩
  refine ⟨rfl, rfl, hrows, ?_⟩
  exact scan_send_ok rgbimage x1 y1 w1 _ sent
    (fun i hi => (hrows i (List.mem_range.mp hi)).2.2)

/-- The crop rectangle (1000, 700)-(1023, 767), which touches the last byte of the
image: 68 slices of 72 bytes. -/
theorem crop_rows_inside_image_witness :
    (Sane.scan_window (Sane.calculateDerivedValues
      { request_pixel := { left := 1000, top := 700, right := 1023, bottom := 767 },
        bytes_per_scan_line := 0, scan_width_pixels := 0, scan_height_pixels := 0 }))
      = (1000, 700, 24, 68) ∧
    (3 * (1024 * (67 + 700) + 1000)) % 2 ^ 32 + (3 * 24) % 2 ^ 32 ≤ 3 * 1024 * 768 :=
  ⟨by decide,
   ((crop_rows_inside_image
      { request_pixel := { left := 1000, top := 700, right := 1023, bottom := 767 },
        bytes_per_scan_line := 0, scan_width_pixels := 0, scan_height_pixels := 0 }
      (fun _ => 0) [] (by decide) (by decide) (by decide) (by decide) (by decide)
      (by decide)).2.2.1 67 (by decide)).2.2⟩

/-! ## Theorems: the list of attached devices -/

/-- The static variables after `attachScanner` has run for two different names. -/
theorem attach_two_state (a b : String) (hab : a ≠ b) :
    Sane.attach_all Sane.device_list.start [a, b]
      = { heap := [{ devicename := a, next := none }, { devicename := b, next := none }],
          first_dev := some 1, new_dev := Sane.dev_slot.first_dev, num_devices := 2 } := by
  simp [Sane.attach_all, Sane.attachScanner, Sane.find_device, Sane.store_slot,
    Sane.device_list.start, hab]

/-- C30 (the list keeps only the last device): after `attachScanner` has been called for
two devices with different names `a` and `b`, both allocations succeeding,
`num_devices` is 2 but one node only is reachable from `first_dev`, the node of `b`;
the device `a` is not in the list, and the loop of `sane_get_devices` follows `next`
from the null pointer.  `*new_dev = dev` always stores into `first_dev`, because
`new_dev` is never moved to the `next` field of the node just added.  After a single
call the list has its one node and `sane_get_devices` lists it. -/
theorem attach_two_devices_loses_the_first (a b : String) (hab : a ≠ b) :
    (Sane.attach_all Sane.device_list.start [a, b]).num_devices = 2 ∧
    Sane.reachable (Sane.attach_all Sane.device_list.start [a, b]).heap 3
        (Sane.attach_all Sane.device_list.start [a, b]).first_dev = [1] ∧
    (Sane.attach_all Sane.device_list.start [a, b]).heap
      = [{ devicename := a, next := none }, { devicename := b, next := none }] ∧
    Sane.sane_get_devices (Sane.attach_all Sane.device_list.start [a, b]) = none ∧
    (Sane.attach_all Sane.device_list.start [a]).num_devices = 1 ∧
    Sane.sane_get_devices (Sane.attach_all Sane.device_list.start [a]) = some [0] := by
  rw [attach_two_state a b hab]
  refine ⟨rfl, rfl, rfl, rfl, ?_, ?_⟩ <;>
    simp [Sane.attach_all, Sane.attachScanner, Sane.find_device, Sane.store_slot,
      Sane.device_list.start, Sane.sane_get_devices, Sane.get_devices_loop]

/-- Two cameras on the same bus: the list holds the second one only. -/
theorem attach_two_devices_loses_the_first_witness :
    (Sane.attach_all Sane.device_list.start ["libusb:001:004", "libusb:001:005"]).num_devices
      = 2 ∧
    Sane.reachable
        (Sane.attach_all Sane.device_list.start ["libusb:001:004", "libusb:001:005"]).heap 3
        (Sane.attach_all Sane.device_list.start ["libusb:001:004", "libusb:001:005"]).first_dev
      = [1] ∧
    Sane.sane_get_devices
        (Sane.attach_all Sane.device_list.start ["libusb:001:004", "libusb:001:005"])
      = none :=
  ⟨(attach_two_devices_loses_the_first "libusb:001:004" "libusb:001:005" (by decide)).1,
   (attach_two_devices_loses_the_first "libusb:001:004" "libusb:001:005" (by decide)).2.1,
   (attach_two_devices_loses_the_first "libusb:001:004" "libusb:001:005"
      (by decide)).2.2.2.1⟩

/-! ## Theorems: chunks through the content loop of `dcm300_scan` -/

/-- The ring index of a stream position. -/
theorem tmod_position (P : Nat) :
    Int.tmod (P : Int) BAYER_CIRCULAR = ((P % 32768 : Nat) : Int) := by
  have hB : ((BAYER_CIRCULAR : Nat) : Int) = 32768 := rfl
  rw [hB, Int.tmod_eq_emod (by omega) (by omega)]
  omega

/-- The reference demosaic of `2*r1` rows looks at the first `w*(2*r1)` bytes only. -/
theorem demosaic_of_head (w r1 : Nat) (a b : List Nat) (ha : a.length = w * (2 * r1)) :
    demosaic w (2 * r1) (a ++ b) = demosaic w (2 * r1) a := by
  have h := demosaic_append w r1 0 a b ha
  rw [Nat.add_zero] at h
  rw [h]
  simp [demosaic]

/-- An element of a list with its first `n` elements dropped. -/
theorem getD_drop_position (l : List Nat) (n k : Nat) :
    (l.drop n).getD k 0 = l.getD (n + k) 0 := by
  rw [List.getD_eq_getElem?_getD, List.getD_eq_getElem?_getD, List.getElem?_drop]

/-- What `chunks_read` says about the length of the first chunk: at most 16384, and
stored without crossing the end of the ring. -/
theorem chunk_read_fits (B : Nat) (chunk : List Nat)
    (h2 : (chunk.length : Int) ≤ Sane.ring_len (B : Int) Sane.bulk_content_len) :
    chunk.length ≤ 16384 ∧ B % 32768 + chunk.length ≤ 32768 := by
  obtain ⟨-, -, a3, a4⟩ := ring_len_bounds (B : Int) Sane.bulk_content_len (by omega)
    (by decide) (by decide)
  rw [tmod_position] at a4
  have hc : Sane.bulk_content_len = 16384 := rfl
  rw [hc] at a3 a4 h2
  omega

/-- The ring after a chunk has been stored at the position `B` of the stream: it holds
the stream from `F` on, when the bytes from `F` to `B` were there before and the window
`B - F` is less than 16384 bytes. -/
theorem ring_after_chunk (R : Int → Nat) (pre chunk : List Nat) (F : Nat)
    (hF : F ≤ pre.length) (hwin : pre.length - F < 16384) (hlen : chunk.length ≤ 16384)
    (hfit : pre.length % 32768 + chunk.length ≤ 32768)
    (hold : ∀ P : Nat, F ≤ P → P < pre.length →
      R ((P % 32768 : Nat) : Int) = pre.getD P 0) :
    ∀ P : Nat, F ≤ P → P < (pre ++ chunk).length →
      store_bytes R (pre.length % 32768) chunk ((P % 32768 : Nat) : Int)
        = (pre ++ chunk).getD P 0 := by
  intro P hP1 hP2
  rw [List.length_append] at hP2
  by_cases hP : P < pre.length
  · rw [List.getD_append _ _ _ _ hP, ← hold P hP1 hP]
    unfold store_bytes
    rw [if_neg (by omega)]
  · rw [List.getD_append_right _ _ _ _ (by omega)]
    have e : ((P % 32768 : Nat) : Int)
        = ((pre.length % 32768 : Nat) : Int) + ((P - pre.length : Nat) : Int) := by omega
    rw [e, store_bytes_inside _ _ _ _ (by omega)]

/-- The row pairs emitted for one chunk, as a piece of the reference demosaic: the
demosaic of the first `q` row pairs of the stream followed by the pixels that
`bayer_circular_downscale` computes from the ring for the next `N` row pairs is the
demosaic of the first `q + N` row pairs. -/
theorem demosaic_extend (w q N : Nat) (heven : w % 2 = 0) (R : Int → Nat)
    (pre all : List Nat) (hpre : pre.take (2 * w * q) = all.take (2 * w * q))
    (hq : 2 * w * q ≤ pre.length) (hall : 2 * w * q ≤ all.length)
    (hb : ∀ b ∈ all, b < 256)
    (hring : ∀ P : Nat, 2 * w * q ≤ P → P < 2 * w * q + 2 * w * N →
      R ((P % 32768 : Nat) : Int) = all.getD P 0) :
    demosaic w (2 * q) pre ++ rows_pixels R w ((2 * w * q : Nat) : Int) (w / 2) N
      = demosaic w (2 * (q + N)) all := by
  have hlen : ∀ l : List Nat, 2 * w * q ≤ l.length →
      (l.take (2 * w * q)).length = w * (2 * q) := by
    intro l hl
    rw [List.length_take, Nat.min_eq_left hl]
    ring
  have h1 : demosaic w (2 * q) pre = demosaic w (2 * q) (all.take (2 * w * q)) := by
    rw [← hpre]
    conv_lhs => rw [← List.take_append_drop (2 * w * q) pre]
    exact demosaic_of_head w q _ _ (hlen pre hq)
  have h2 : rows_pixels R w ((2 * w * q : Nat) : Int) (w / 2) N
      = demosaic w (2 * N) (all.drop (2 * w * q)) := by
    apply rows_pixels_eq_demosaic R w _ _ N heven
    · intro k hk
      have e : (((2 * w * q : Nat) : Int) + (k : Int)) = ((2 * w * q + k : Nat) : Int) := by
        push_cast; rfl
      rw [e, tmod_position, hring _ (by omega) (by omega), getD_drop_position]
    · exact forall_mem_drop _ _ hb
  rw [h1, h2, Nat.mul_add]
  conv_rhs => rw [← List.take_append_drop (2 * w * q) all]
  exact (demosaic_append w q (2 * N) _ _ (hlen all hall)).symm

/-- The content-loop body on a sequence of chunks, started after the bytes `pre` of the
stream have gone through it: `bytes_read` is their number, `bayer_from` the end of
their last whole row pair, the ring holds the bytes from there on, and the runs emitted
so far make up the demosaic of the whole row pairs of `pre`. -/
theorem scan_chunks_run (w : Nat) (hw2 : 2 ≤ w) (hw8 : w ≤ 8192) (heven : w % 2 = 0) :
    ∀ (chunks : List (List Nat)) (pre : List Nat) (R : Int → Nat) (runs : List (List Nat)),
      Sane.chunks_read (pre.length : Int) chunks = true →
      (∀ b ∈ pre, b < 256) → (∀ c ∈ chunks, ∀ b ∈ c, b < 256) →
      (∀ P : Nat, 2 * w * (pre.length / (2 * w)) ≤ P → P < pre.length →
        R ((P % 32768 : Nat) : Int) = pre.getD P 0) →
      runs.flatten = demosaic w (2 * (pre.length / (2 * w))) pre →
      ∃ r, Sane.scan_chunks w chunks R pre.length
            ((2 * w * (pre.length / (2 * w)) : Nat) : Int) runs = .ok r ∧
        r.1 = ((2 * w * ((pre ++ chunks.flatten).length / (2 * w)) : Nat) : Int) ∧
        r.2.flatten = demosaic w (2 * ((pre ++ chunks.flatten).length / (2 * w)))
          (pre ++ chunks.flatten) ∧
        r.2.length = runs.length + chunks.length := by
  intro chunks
  induction chunks with
  | nil =>
    intro pre R runs _ _ _ _ hruns
    refine ⟨_, rfl, ?_, ?_, ?_⟩
    · simp
    · simpa using hruns
    · simp
  | cons c rest ih =>
    intro pre R runs hread hbp hbc hring hruns
    simp only [Sane.chunks_read, Bool.and_eq_true, decide_eq_true_eq] at hread
    obtain ⟨⟨hc1, hc2⟩, hrest⟩ := hread
    obtain ⟨hc16, hfit⟩ := chunk_read_fits pre.length c hc2
    have hdm := Nat.div_add_mod pre.length (2 * w)
    have hmod := Nat.mod_lt pre.length (by omega : 2 * w > 0)
    obtain ⟨q, hq⟩ : ∃ q, pre.length / (2 * w) = q := ⟨_, rfl⟩
    rw [hq] at hdm hring hruns ⊢
    obtain ⟨F, hF⟩ : ∃ F, 2 * w * q = F := ⟨_, rfl⟩
    have hFB : F ≤ pre.length := by omega
    have hBF : pre.length < F + 2 * w := by omega
    -- the store
    have hoff := tmod_position pre.length
    have hB : ((BAYER_CIRCULAR : Nat) : Int) = 32768 := rfl
    rw [Sane.scan_chunks, hoff, if_neg (by rw [hB]; omega), Int.toNat_ofNat]
    have hring1 := ring_after_chunk R pre c F hFB (by omega) hc16 hfit
      (by rw [← hF]; exact hring)
    generalize store_bytes R (pre.length % 32768) c = R1 at hring1 ⊢
    -- the whole row pairs between `bayer_from` and the new `bytes_read`
    obtain ⟨-, hN1, hN2⟩ := whole_row_pairs_floor (w : Int) (F : Int)
      ((pre.length : Int) + (c.length : Int)) (by omega) (by omega)
    have hceil0 : ∀ N : Nat, (F : Int) + (N : Int) * (2 * (w : Int))
        ≤ (pre.length : Int) + (c.length : Int) → 3 * ((w + 1) / 2) * N ≤ 3 * 8192 := by
      intro N hN
      obtain ⟨p, hp⟩ : ∃ p, w = 2 * p := ⟨w / 2, by omega⟩
      have hp2 : (w + 1) / 2 = p := by omega
      have e : (N : Int) * (2 * (w : Int)) = 4 * ((p * N : Nat) : Int) := by
        rw [hp]; push_cast; ring
      rw [hp2, Nat.mul_assoc]
      omega
    have hds := downscale_rows_all R1 w (F : Int) ((pre.length : Int) + (c.length : Int))
      (by omega) (by omega) (hceil0 _ hN1)
    generalize whole_row_pairs (w : Int) (F : Int) ((pre.length : Int) + (c.length : Int)) = N
      at hN1 hN2 hds
    have hN1n : F + N * (2 * w) ≤ pre.length + c.length := by exact_mod_cast hN1
    have hN2n : pre.length + c.length < F + (N + 1) * (2 * w) := by exact_mod_cast hN2
    have hq1 : (pre ++ c).length / (2 * w) = q + N := by
      rw [List.length_append]
      apply Nat.div_eq_of_lt_le
      · have e : (q + N) * (2 * w) = F + N * (2 * w) := by rw [← hF]; ring
        omega
      · have e : (q + N + 1) * (2 * w) = F + (N + 1) * (2 * w) := by rw [← hF]; ring
        omega
    have hFN : 2 * w * (q + N) = F + N * (2 * w) := by rw [← hF]; ring
    have heven2 : (w + 1) / 2 = w / 2 := by omega
    rw [hF, hds, ok_bind]
    -- the rest of the chunks
    have eB : (((pre ++ c).length : Nat) : Int) = (pre.length : Int) + (c.length : Int) := by
      rw [List.length_append]; push_cast; rfl
    have eF : ((2 * w * ((pre ++ c).length / (2 * w)) : Nat) : Int)
        = (F : Int) + (N : Int) * (2 * (w : Int)) := by
      rw [hq1, hFN]; push_cast; rfl
    obtain ⟨r, hr1, hr2, hr3, hr4⟩ := ih (pre ++ c) R1
      (runs ++ [rows_pixels R1 w (F : Int) ((w + 1) / 2) N])
      (by rw [eB]; exact hrest)
      (by intro b hb
          rcases List.mem_append.mp hb with h | h
          · exact hbp b h
          · exact hbc c (List.mem_cons_self _ _) b h)
      (fun c1 h1 => hbc c1 (List.mem_cons_of_mem _ h1))
      (by intro P hP1 hP2
          rw [hq1, hFN] at hP1
          exact hring1 P (by omega) hP2)
      (by rw [List.flatten_append, hruns, hq1, heven2]
          simp only [List.flatten_cons, List.flatten_nil, List.append_nil]
          rw [← hF]
          apply demosaic_extend w q N heven R1 pre (pre ++ c)
          · rw [List.take_append_of_le_length (by omega)]
          · omega
          · rw [List.length_append]; omega
          · intro b hb
            rcases List.mem_append.mp hb with h | h
            · exact hbp b h
            · exact hbc c (List.mem_cons_self _ _) b h
          · intro P hP1 hP2
            rw [hF] at hP1
            exact hring1 P hP1 (by rw [List.length_append]; rw [hF] at hP2; linarith))
    rw [eB, eF] at hr1
    have eapp : pre ++ (c :: rest).flatten = pre ++ c ++ rest.flatten := by
      rw [List.flatten_cons, List.append_assoc]
    refine ⟨r, hr1, ?_, ?_, ?_⟩
    · rw [eapp]; exact hr2
    · rw [eapp]; exact hr3
    · rw [hr4, List.length_append, List.length_cons, List.length_cons, List.length_nil]
      omega

/-- C23: for an even width `w` with `2 <= w <= 8192` and a raw stream cut in order into
chunks as the reads of `dcm300_scan` return them (1 to 16384 bytes each, none longer
than the `bulk_len` that keeps a read inside the ring), storing each chunk at
`replybuf + bytes_read % BAYER_CIRCULAR`, calling `bayer_circular_downscale` with
`bayer_stop = bytes_read + bulk_len` and advancing `bytes_read` by the chunk length,
from `bytes_read = 0` and `bayer_from = 0`, returns one RGB run for each chunk, and the
runs put together are the reference demosaic of the first `floor(L / (2*w))` row pairs
of the stream of `L` bytes, whatever the chunk boundaries are and however often the
ring wraps around. -/
theorem scan_chunks_demosaic (w : Nat) (chunks : List (List Nat)) (replybuf : Int → Nat)
    (hw2 : 2 ≤ w) (hw8 : w ≤ 8192) (heven : w % 2 = 0)
    (hread : Sane.chunks_read 0 chunks = true)
    (hb : ∀ c ∈ chunks, ∀ b ∈ c, b < 256) :
    ∃ r, Sane.scan_chunks w chunks replybuf 0 0 [] = .ok r ∧
      r.2.flatten = demosaic w (2 * (chunks.flatten.length / (2 * w))) chunks.flatten ∧
      r.2.length = chunks.length ∧
      r.1 = ((2 * w * (chunks.flatten.length / (2 * w)) : Nat) : Int) := by
  obtain ⟨r, h1, h2, h3, h4⟩ := scan_chunks_run w hw2 hw8 heven chunks [] replybuf []
    hread (by simp) hb (by simp) (by simp [demosaic])
  refine ⟨r, ?_, ?_, ?_, ?_⟩
  · simpa using h1
  · simpa using h3
  · simpa using h4
  · simpa using h2

/-- The stream 1..10 at width 2, cut into chunks of 3, 2 and 5 bytes: the runs put
together are the two pixels of the whole row pairs. -/
theorem scan_chunks_demosaic_witness :
    ∃ r, Sane.scan_chunks 2 [[1, 2, 3], [4, 5], [6, 7, 8, 9, 10]] (fun _ => 0) 0 0 [] = .ok r ∧
      r.2.flatten = [1, 2, 4, 5, 6, 8] ∧ r.2.length = 3 :=
  (scan_chunks_demosaic 2 [[1, 2, 3], [4, 5], [6, 7, 8, 9, 10]] (fun _ => 0) (by decide)
    (by decide) (by decide) (by decide) (by decide)).imp
    (fun _ h => ⟨h.1, h.2.1.trans (by decide), h.2.2.1⟩)
